import Mathlib

/-!
Switch registry (`useSwitchManagement`) and its dashboard callers.

A shallow embedding of `src/hooks/useSwitchManagement.js` and of the pure port
handlers of `src/components/SwitchDashboard.jsx`.

The hook keeps three React state cells (`switches`, `activeSwitchId`,
`isLoading`) and talks to a remote relational store through `supabase`.  Every
asynchronous operation is embedded as a function on a `World`: the three state
cells, the remote store, the schedule of transport failures still to come, and a
log of everything the operation did (state writes, gateway calls, toasts,
confirmation prompts), oldest first.

Values read from the React state inside an operation are the ones captured by
the closure when the component rendered, so each operation reads them from the
world it is started in, while its writes are threaded through.

The device editor (`src/components/DeviceModal.jsx`), the filter, blocks,
statistic cards and empty-state messages of the dashboard, and the session guard
and routes of `src/App.jsx` are embedded as pure functions. The utilization card
is computed in binary64 arithmetic, which is rendered exactly over the rational
numbers.
-/

namespace SwitchMap

/-! ## Data model -/

/-- Identifier of a switch, as issued by the store. It is opaque to the program;
every identifier is a truthy JavaScript value, so `!activeSwitchId` holds exactly
when the selection is `null`. -/
abbrev SwitchId := Nat

/-- Device attached to a port: `{ name, mac, ip, type }`; each field is a
JavaScript string or `null`. -/
structure Device where
  name : Option String
  mac : Option String
  ip : Option String
  type : Option String
  deriving DecidableEq, Repr

/-- In-memory port: `{ number, device }`, `device` being `null` for a free port. -/
structure Port where
  number : Nat
  device : Option Device
  deriving DecidableEq, Repr

/-- In-memory switch: `{ id, name, ports }`. -/
structure Switch where
  id : SwitchId
  name : String
  ports : List Port
  deriving DecidableEq, Repr

/-- Row of the `switches` table: `(id, name)`. -/
structure SwitchRow where
  id : SwitchId
  name : String
  deriving DecidableEq, Repr

/-- Row of the `ports` table, also used for insert and upsert payloads; a column
that is `null`, or that the payload object does not carry, is `none`. -/
structure PortRow where
  switch_id : SwitchId
  port_number : Nat
  device_name : Option String
  device_mac : Option String
  device_ip : Option String
  device_type : Option String
  deriving DecidableEq, Repr

/-- Notification shown through `toast({ title, description, variant })`;
`destructive` records `variant: "destructive"`. -/
structure Toast where
  title : String
  description : String
  destructive : Bool
  deriving DecidableEq, Repr

/-! ## JavaScript primitives used by the hook -/

/-- White space and line terminators removed by `String.prototype.trim`. -/
def jsIsWhiteSpace (c : Char) : Bool :=
  let n := c.toNat
  n == 0x09 || n == 0x0A || n == 0x0B || n == 0x0C || n == 0x0D || n == 0x20 ||
  n == 0xA0 || n == 0x1680 || (0x2000 ≤ n && n ≤ 0x200A) || n == 0x2028 ||
  n == 0x2029 || n == 0x202F || n == 0x205F || n == 0x3000 || n == 0xFEFF

/-- Embeds `s.trim()`. -/
def jsTrim (s : String) : String :=
  String.mk ((s.data.dropWhile jsIsWhiteSpace).reverse.dropWhile jsIsWhiteSpace).reverse

/-- Truthiness of a string-or-null value: `null` and `""` are falsy. -/
def jsTruthy (v : Option String) : Bool :=
  match v with
  | none => false
  | some s => s != ""

/-- Embeds `v || null` on a string-or-null value. -/
def orNull (v : Option String) : Option String :=
  if jsTruthy v then v else none

/-- Embeds `parseInt(n, 10)` on an integer-valued number, which is what
`SwitchModal` passes (`Math.max(1, parseInt(..) || 1)` or a `length`). -/
def parseInt (n : Int) : Int := n

/-- Embeds `Array.from({ length: n }, (_, j) => f j)`; a non-positive length
gives the empty array. -/
def arrayFrom {α : Type} (n : Int) (f : Nat → α) : List α :=
  (List.range n.toNat).map f

/-! ## Remote store -/

/-- Gateway requests issued by the hook. -/
inductive Call where
  | selectSwitches
  | selectPorts (switch_id : SwitchId)
  | insertSwitch (name : String)
  | insertPorts (rows : List PortRow)
  | updateSwitchName (id : SwitchId) (name : String)
  | deleteSwitchRow (id : SwitchId)
  | deletePorts (switch_id : SwitchId)
  | upsertPort (row : PortRow)
  deriving DecidableEq, Repr

/-- Modelled from the spec: the remote relational store behind `supabase`
(`@/lib/supabaseClient` and the backend are not part of the sources): tables
`switches(id, name)` and `ports(switch_id, port_number, device_*)`. -/
structure Store where
  switches : List SwitchRow
  ports : List PortRow
  deriving DecidableEq, Repr

/-- Modelled from the spec: identifier given to a newly inserted switch; it is
larger than every identifier occurring in either table. -/
def Store.freshId (s : Store) : SwitchId :=
  ((s.switches.map (·.id)) ++ (s.ports.map (·.switch_id))).foldr max 0 + 1

/-- Key `(switch_id, port_number)` of a port row. -/
def PortRow.key (r : PortRow) : SwitchId × Nat := (r.switch_id, r.port_number)

/-- Modelled from the spec: the uniqueness constraint on
`(switch_id, port_number)` of the `ports` table. -/
def Store.portsUnique (s : Store) : Prop := (s.ports.map PortRow.key).Nodup

instance (s : Store) : Decidable s.portsUnique := by
  unfold Store.portsUnique; infer_instance

/-- Modelled from the spec: message of the error raised by the store when an
insert would break the uniqueness constraint. -/
def duplicateKeyMessage : String :=
  "duplicate key value violates unique constraint"

/-- Modelled from the spec: `.from('switches').select('id, name')`. -/
def Store.selectSwitches (s : Store) : List SwitchRow := s.switches

/-- Modelled from the spec: `.from('ports').select(..).eq('switch_id', id)
.order('port_number', { ascending: true })`. -/
def Store.selectPorts (s : Store) (id : SwitchId) : List PortRow :=
  (s.ports.filter (fun r => r.switch_id == id)).insertionSort
    (fun a b => a.port_number ≤ b.port_number)

/-- Modelled from the spec: `.from('switches').insert({ name }).select().single()`:
the new row and the store holding it. -/
def Store.insertSwitch (s : Store) (name : String) : SwitchRow × Store :=
  let row : SwitchRow := { id := s.freshId, name := name }
  (row, { s with switches := s.switches ++ [row] })

/-- Modelled from the spec: `.from('ports').insert(rows)`; the insert is refused
as a whole when it would break the uniqueness constraint. -/
def Store.insertPorts (s : Store) (rows : List PortRow) : Option Store :=
  if ((s.ports ++ rows).map PortRow.key).Nodup then
    some { s with ports := s.ports ++ rows }
  else none

/-- Modelled from the spec: `.from('switches').update({ name }).eq('id', id)`. -/
def Store.updateSwitchName (s : Store) (id : SwitchId) (name : String) : Store :=
  { s with switches := s.switches.map (fun r => if r.id == id then { r with name := name } else r) }

/-- Modelled from the spec: `.from('switches').delete().eq('id', id)`. -/
def Store.deleteSwitchRow (s : Store) (id : SwitchId) : Store :=
  { s with switches := s.switches.filter (fun r => r.id != id) }

/-- Modelled from the spec: `.from('ports').delete().eq('switch_id', id)`. -/
def Store.deletePorts (s : Store) (id : SwitchId) : Store :=
  { s with ports := s.ports.filter (fun r => r.switch_id != id) }

/-- Modelled from the spec: `.from('ports').upsert(row, { onConflict:
'switch_id, port_number' })`: insert-or-update keyed by switch and port number. -/
def Store.upsertPort (s : Store) (row : PortRow) : Store :=
  if s.ports.any (fun r => r.key == row.key) then
    { s with ports := s.ports.map (fun r => if r.key == row.key then row else r) }
  else
    { s with ports := s.ports ++ [row] }

/-! ## World: React state, store, failures, log -/

/-- Everything an operation of the hook does, in order. -/
inductive Event where
  | call (c : Call)
  | setSwitches (v : List Switch)
  | setActiveSwitchId (v : Option SwitchId)
  | setIsLoading (v : Bool)
  | toast (t : Toast)
  | confirm (message : String)
  deriving DecidableEq, Repr

/-- State cells of the hook, the remote store, the transport failures still to
come (one entry per gateway call, `some msg` making that call return an error
with that message and leave the store untouched; an exhausted schedule means no
further failure) and the log. -/
structure World where
  switches : List Switch
  activeSwitchId : Option SwitchId
  isLoading : Bool
  store : Store
  faults : List (Option String)
  log : List Event
  deriving DecidableEq, Repr

/-- Embeds `setSwitches(v)`. -/
def World.setSwitches (w : World) (v : List Switch) : World :=
  { w with switches := v, log := w.log ++ [Event.setSwitches v] }

/-- Embeds `setActiveSwitchId(v)`. -/
def World.setActiveSwitchId (w : World) (v : Option SwitchId) : World :=
  { w with activeSwitchId := v, log := w.log ++ [Event.setActiveSwitchId v] }

/-- Embeds `setIsLoading(v)`. -/
def World.setIsLoading (w : World) (v : Bool) : World :=
  { w with isLoading := v, log := w.log ++ [Event.setIsLoading v] }

/-- Embeds `toast(t)`. -/
def World.toast (w : World) (t : Toast) : World :=
  { w with log := w.log ++ [Event.toast t] }

/-- Embeds `window.confirm(message)` being shown. -/
def World.confirm (w : World) (message : String) : World :=
  { w with log := w.log ++ [Event.confirm message] }

/-- Sends a request: it is logged, and the next entry of the failure schedule
tells whether the transport fails. -/
def World.issue (w : World) (c : Call) : Option String × World :=
  (w.faults.head?.join, { w with faults := w.faults.tail, log := w.log ++ [Event.call c] })

/-- Gateway calls of a log, in order. -/
def callsOf (log : List Event) : List Call :=
  log.filterMap (fun e => match e with
    | Event.call c => some c
    | _ => none)

/-- Toasts of a log, in order. -/
def toastsOf (log : List Event) : List Toast :=
  log.filterMap (fun e => match e with
    | Event.toast t => some t
    | _ => none)

/-- Awaits `supabase.from('switches').select('id, name')`. -/
def World.selectSwitches (w : World) : Except String (List SwitchRow) × World :=
  match w.issue Call.selectSwitches with
  | (some e, w1) => (.error e, w1)
  | (none, w1) => (.ok w1.store.selectSwitches, w1)

/-- Awaits the ports query of one switch. -/
def World.selectPorts (w : World) (id : SwitchId) : Except String (List PortRow) × World :=
  match w.issue (Call.selectPorts id) with
  | (some e, w1) => (.error e, w1)
  | (none, w1) => (.ok (w1.store.selectPorts id), w1)

/-- Awaits `supabase.from('switches').insert({ name }).select().single()`. -/
def World.insertSwitch (w : World) (name : String) : Except String SwitchRow × World :=
  match w.issue (Call.insertSwitch name) with
  | (some e, w1) => (.error e, w1)
  | (none, w1) => (.ok (w1.store.insertSwitch name).1, { w1 with store := (w1.store.insertSwitch name).2 })

/-- Awaits `supabase.from('ports').insert(rows)`; the result is the `error`. -/
def World.insertPorts (w : World) (rows : List PortRow) : Option String × World :=
  match w.issue (Call.insertPorts rows) with
  | (some e, w1) => (some e, w1)
  | (none, w1) =>
    match w1.store.insertPorts rows with
    | some s => (none, { w1 with store := s })
    | none => (some duplicateKeyMessage, w1)

/-- Awaits `supabase.from('switches').update({ name }).eq('id', id)`. -/
def World.updateSwitchName (w : World) (id : SwitchId) (name : String) : Option String × World :=
  match w.issue (Call.updateSwitchName id name) with
  | (some e, w1) => (some e, w1)
  | (none, w1) => (none, { w1 with store := w1.store.updateSwitchName id name })

/-- Awaits `supabase.from('switches').delete().eq('id', id)`. -/
def World.deleteSwitchRow (w : World) (id : SwitchId) : Option String × World :=
  match w.issue (Call.deleteSwitchRow id) with
  | (some e, w1) => (some e, w1)
  | (none, w1) => (none, { w1 with store := w1.store.deleteSwitchRow id })

/-- Awaits `supabase.from('ports').delete().eq('switch_id', id)`. -/
def World.deletePorts (w : World) (id : SwitchId) : Option String × World :=
  match w.issue (Call.deletePorts id) with
  | (some e, w1) => (some e, w1)
  | (none, w1) => (none, { w1 with store := w1.store.deletePorts id })

/-- Awaits `supabase.from('ports').upsert(row, { onConflict: .. })`. -/
def World.upsertPort (w : World) (row : PortRow) : Option String × World :=
  match w.issue (Call.upsertPort row) with
  | (some e, w1) => (some e, w1)
  | (none, w1) => (none, { w1 with store := w1.store.upsertPort row })

/-! ## `useSwitchManagement` -/

/-- Embeds the row-to-port conversion of `fetchSwitches` (`formattedPorts`). -/
def formatPort (p : PortRow) : Port :=
  { number := p.port_number,
    device := if jsTruthy p.device_name then
        some { name := p.device_name, mac := p.device_mac, ip := p.device_ip, type := p.device_type }
      else none }

/-- Embeds `Promise.all(switchesData.map(async (s) => ..))` of `fetchSwitches`:
every ports query is issued, in list order; the result is the list of switches
with their formatted ports, or the first error. -/
def fetchAllPorts : List SwitchRow → World → Except String (List Switch) × World
  | [], w => (.ok [], w)
  | s :: rest, w =>
    match w.selectPorts s.id with
    | (r, w1) =>
      match fetchAllPorts rest w1 with
      | (rs, w2) =>
        (match r, rs with
          | .error e, _ => .error e
          | .ok _, .error e => .error e
          | .ok portsData, .ok l =>
            .ok ({ id := s.id, name := s.name, ports := portsData.map formatPort } :: l),
         w2)

/-- Toast of the `catch` branch of `fetchSwitches`. -/
def fetchErrorToast (message : String) : Toast :=
  { title := "Erro ao carregar dados",
    description := "Não foi possível buscar os switches do banco de dados. " ++ message,
    destructive := true }

/-- Embeds `fetchSwitches`; `activeSwitchId` is the selection captured by the
callback (`useCallback(.., [activeSwitchId])`). -/
def fetchSwitches (activeSwitchId : Option SwitchId) (w : World) : World :=
  let w1 := w.setIsLoading true
  match w1.selectSwitches with
  | (.error e, w2) => (w2.toast (fetchErrorToast e)).setIsLoading false
  | (.ok switchesData, w2) =>
    match fetchAllPorts switchesData w2 with
    | (.error e, w3) => (w3.toast (fetchErrorToast e)).setIsLoading false
    | (.ok switchesWithPorts, w3) =>
      let w4 := w3.setSwitches switchesWithPorts
      let w5 :=
        if switchesWithPorts.length > 0 ∧ activeSwitchId = none then
          w4.setActiveSwitchId (switchesWithPorts.head?.map (·.id))
        else if switchesWithPorts.length = 0 then
          w4.setActiveSwitchId none
        else w4
      w5.setIsLoading false

/-- Port payload built by `addSwitch` and `editSwitch`: records carrying only
`switch_id` and `port_number`, numbered from 1. -/
def portsPayload (switch_id : SwitchId) (count : Int) : List PortRow :=
  arrayFrom count (fun j =>
    { switch_id := switch_id, port_number := j + 1,
      device_name := none, device_mac := none, device_ip := none, device_type := none })

/-- Toast of the validation branch of `addSwitch`. -/
def addSwitchInvalidToast : Toast :=
  { title := "Erro",
    description := "Nome do switch e número de portas são obrigatórios e o número de portas deve ser positivo.",
    destructive := true }

/-- Toast of the `catch` branch of `addSwitch`. -/
def addSwitchErrorToast (message : String) : Toast :=
  { title := "Erro ao adicionar switch",
    description := "Não foi possível adicionar o novo switch. " ++ message,
    destructive := true }

/-- Embeds `addSwitch`; the result is the created row, or `null`. -/
def addSwitch (w : World) (newSwitchName : String) (newSwitchPortsCount : Int) :
    Option SwitchRow × World :=
  if jsTrim newSwitchName = "" ∨ newSwitchPortsCount ≤ 0 then
    (none, w.toast addSwitchInvalidToast)
  else
    let w1 := w.setIsLoading true
    match w1.insertSwitch newSwitchName with
    | (.error e, w2) => (none, (w2.toast (addSwitchErrorToast e)).setIsLoading false)
    | (.ok newSwitchData, w2) =>
      match w2.insertPorts (portsPayload newSwitchData.id (parseInt newSwitchPortsCount)) with
      | (some e, w3) =>
        let w4 := (w3.deleteSwitchRow newSwitchData.id).2
        (none, (w4.toast (addSwitchErrorToast e)).setIsLoading false)
      | (none, w3) =>
        let w4 := fetchSwitches w.activeSwitchId w3
        let w5 := w4.setActiveSwitchId (some newSwitchData.id)
        let w6 := w5.toast
          { title := "Sucesso",
            description := "Switch \"" ++ newSwitchName ++ "\" adicionado!",
            destructive := false }
        (some newSwitchData, w6.setIsLoading false)

/-- Toast of the validation branch of `editSwitch`. -/
def editSwitchInvalidToast : Toast :=
  { title := "Erro",
    description := "Nome do switch e número de portas são obrigatórios.",
    destructive := true }

/-- Toast of the `catch` branch of `editSwitch`. -/
def editSwitchErrorToast (message : String) : Toast :=
  { title := "Erro ao editar switch",
    description := "Não foi possível editar o switch. " ++ message,
    destructive := true }

/-- Embeds `editSwitch`; `editingSwitch` may be `null`. -/
def editSwitch (w : World) (editingSwitch : Option Switch) (newSwitchName : String)
    (newSwitchPortsCount : Int) : Bool × World :=
  match editingSwitch with
  | none => (false, w.toast editSwitchInvalidToast)
  | some editingSwitch =>
    if jsTrim newSwitchName = "" ∨ newSwitchPortsCount ≤ 0 then
      (false, w.toast editSwitchInvalidToast)
    else
      let w1 := w.setIsLoading true
      match w1.updateSwitchName editingSwitch.id newSwitchName with
      | (some e, w2) => (false, (w2.toast (editSwitchErrorToast e)).setIsLoading false)
      | (none, w2) =>
        let currentPortsCount : Int := editingSwitch.ports.length
        let newPortsCountInt := parseInt newSwitchPortsCount
        let r : Option String × World :=
          if newPortsCountInt ≠ currentPortsCount then
            let w3 := (w2.deletePorts editingSwitch.id).2
            w3.insertPorts (portsPayload editingSwitch.id newPortsCountInt)
          else (none, w2)
        match r with
        | (some e, w4) => (false, (w4.toast (editSwitchErrorToast e)).setIsLoading false)
        | (none, w4) =>
          let w5 := fetchSwitches w.activeSwitchId w4
          let w6 := w5.toast
            { title := "Sucesso",
              description := "Switch \"" ++ newSwitchName ++ "\" atualizado!",
              destructive := false }
          (true, w6.setIsLoading false)

/-- Text of the `window.confirm` prompt of `deleteSwitch`. -/
def deleteConfirmMessage (name : String) : String :=
  "Tem certeza que deseja remover o switch \"" ++ name ++
    "\"? Esta ação não pode ser desfeita e removerá todas as suas portas e dispositivos conectados."

/-- Toast of the `catch` branch of `deleteSwitch`. -/
def deleteSwitchErrorToast (message : String) : Toast :=
  { title := "Erro ao remover switch",
    description := "Não foi possível remover o switch. " ++ message,
    destructive := true }

/-- Embeds `deleteSwitch`; `confirmed` is the answer `window.confirm` gives when
it is asked. An `undefined` selection (`find(..)?.id` finding nothing) is
rendered as `none`. -/
def deleteSwitch (w : World) (confirmed : Bool) (switchId : SwitchId) : Bool × World :=
  match w.switches.find? (fun s => s.id == switchId) with
  | none => (false, w)
  | some switchToDelete =>
    let w0 := w.confirm (deleteConfirmMessage switchToDelete.name)
    if !confirmed then (false, w0)
    else
      let w1 := w0.setIsLoading true
      let w2 := (w1.deletePorts switchId).2
      match w2.deleteSwitchRow switchId with
      | (some e, w3) => (false, (w3.toast (deleteSwitchErrorToast e)).setIsLoading false)
      | (none, w3) =>
        let w4 := fetchSwitches w.activeSwitchId w3
        let w5 :=
          if w.activeSwitchId = some switchId then
            w4.setActiveSwitchId
              (if w.switches.length > 1 then
                (w.switches.find? (fun s => s.id != switchId)).map (·.id)
               else none)
          else w4
        let w6 := w5.toast
          { title := "Sucesso",
            description := "Switch \"" ++ switchToDelete.name ++ "\" removido!",
            destructive := false }
        (true, w6.setIsLoading false)

/-- Upsert row built by `updateSwitchData` for one port. -/
def upsertRow (switchId : SwitchId) (port : Port) : PortRow :=
  { switch_id := switchId,
    port_number := port.number,
    device_name := orNull (port.device.bind (·.name)),
    device_mac := orNull (port.device.bind (·.mac)),
    device_ip := orNull (port.device.bind (·.ip)),
    device_type := orNull (port.device.bind (·.type)) }

/-- Embeds `Promise.all(updatedData.ports.map(async (port) => ..))` of
`updateSwitchData`: every upsert is issued, in list order; the result is the
first error, if any. -/
def upsertAll (switchId : SwitchId) : List Port → World → Option String × World
  | [], w => (none, w)
  | port :: rest, w =>
    match w.upsertPort (upsertRow switchId port) with
    | (r, w1) =>
      match upsertAll switchId rest w1 with
      | (rs, w2) => (r.orElse (fun _ => rs), w2)

/-- Toast of the `catch` branch of `updateSwitchData`. -/
def updateErrorToast (message : String) : Toast :=
  { title := "Erro ao atualizar",
    description := "Não foi possível atualizar os dados do switch. " ++ message,
    destructive := true }

/-- Embeds `updateSwitchData`. -/
def updateSwitchData (w : World) (switchId : SwitchId) (updatedData : Switch) : World :=
  let w1 := w.setIsLoading true
  match w1.updateSwitchName switchId updatedData.name with
  | (some e, w2) => (w2.toast (updateErrorToast e)).setIsLoading false
  | (none, w2) =>
    match upsertAll switchId updatedData.ports w2 with
    | (some e, w3) => (w3.toast (updateErrorToast e)).setIsLoading false
    | (none, w3) =>
      let w4 := fetchSwitches w.activeSwitchId w3
      let w5 := w4.toast
        { title := "Sucesso!",
          description := "Switch \"" ++ updatedData.name ++ "\" atualizado.",
          destructive := false }
      w5.setIsLoading false

/-- Payload built by `addPortsToSwitch`: `numPortsToAdd` records numbered from
`existingPortsCount + 1`. -/
def newPortsPayload (switchId : SwitchId) (existingPortsCount : Nat) (numPortsToAdd : Int) :
    List PortRow :=
  arrayFrom numPortsToAdd (fun i =>
    { switch_id := switchId, port_number := existingPortsCount + i + 1,
      device_name := none, device_mac := none, device_ip := none, device_type := none })

/-- Toast of the `catch` branch of `addPortsToSwitch`. -/
def addPortsErrorToast (message : String) : Toast :=
  { title := "Erro ao adicionar portas",
    description := "Não foi possível adicionar novas portas. " ++ message,
    destructive := true }

/-- Embeds `addPortsToSwitch`. -/
def addPortsToSwitch (w : World) (switchId : SwitchId) (numPortsToAdd : Int) : World :=
  match w.switches.find? (fun s => s.id == switchId) with
  | none => w
  | some currentSwitch =>
    let w1 := w.setIsLoading true
    let existingPortsCount := currentSwitch.ports.length
    match w1.insertPorts (newPortsPayload switchId existingPortsCount numPortsToAdd) with
    | (some e, w2) => (w2.toast (addPortsErrorToast e)).setIsLoading false
    | (none, w2) =>
      let w3 := fetchSwitches w.activeSwitchId w2
      let w4 := w3.toast
        { title := "Sucesso",
          description := toString numPortsToAdd ++ " portas adicionadas ao " ++ currentSwitch.name ++ "!",
          destructive := false }
      w4.setIsLoading false

/-! ## `SwitchDashboard` handlers feeding `updateSwitchData` -/

/-- Embeds `handleSaveDevice`: the arguments handed to `onUpdateSwitchData`. -/
def handleSaveDevice (switchData : Switch) (ports : List Port) (portNumber : Nat)
    (deviceData : Device) : SwitchId × Switch :=
  let updatedPorts := ports.map (fun port =>
    if port.number = portNumber then { port with device := some deviceData } else port)
  (switchData.id, { switchData with ports := updatedPorts })

/-- Embeds `handleRemoveDevice`: the arguments handed to `onUpdateSwitchData`. -/
def handleRemoveDevice (switchData : Switch) (ports : List Port) (portNumber : Nat) :
    SwitchId × Switch :=
  let updatedPorts := ports.map (fun port =>
    if port.number = portNumber then { port with device := none } else port)
  (switchData.id, { switchData with ports := updatedPorts })

/-- Embeds `handleAddPorts`: the call `onAddPortsToSwitch(switchData.id, 8)`. -/
def handleAddPorts (w : World) (switchData : Switch) : World :=
  addPortsToSwitch w switchData.id 8

/-! ## Notions used to state the properties -/

/-- A name that is empty or made of white space only. -/
def isBlank (s : String) : Prop := ∀ c ∈ s.data, jsIsWhiteSpace c = true

instance (s : String) : Decidable (isBlank s) := by
  unfold isBlank; infer_instance

/-- Switches with their formatted ports, as a reload that meets no error reads
them from a store: the value `fetchSwitches` hands to `setSwitches`. -/
def Store.load (s : Store) : List Switch :=
  s.switches.map (fun r =>
    { id := r.id, name := r.name, ports := (s.selectPorts r.id).map formatPort })

/-- Port rows of one switch held by a store. -/
def Store.portsOf (s : Store) (id : SwitchId) : List PortRow :=
  s.ports.filter (fun r => r.switch_id == id)

/-- No device column of a row is set. -/
def PortRow.noDevice (r : PortRow) : Prop :=
  r.device_name = none ∧ r.device_mac = none ∧ r.device_ip = none ∧ r.device_type = none

instance (r : PortRow) : Decidable r.noDevice := by
  unfold PortRow.noDevice; infer_instance

/-- Port numbers are pairwise distinct within every switch, both in the store
and in the in-memory list. -/
def portNumbersUnique (w : World) : Prop :=
  w.store.portsUnique ∧ ∀ s ∈ w.switches, (s.ports.map (·.number)).Nodup

instance (w : World) : Decidable (portNumbersUnique w) := by
  unfold portNumbersUnique; infer_instance

/-- A reload started in this world meets an error: the switches query (call 0)
or the ports query of one of the stored switches (calls 1 to n, for n stored
switches) is scheduled to fail. -/
def fetchFails (w : World) : Prop :=
  ∃ i e, i ≤ w.store.switches.length ∧ w.faults[i]? = some (some e)

/-- Selection left by a reload that meets no error, `a` being the selection
captured by the callback and `cur` the one in the state cell. -/
def selectionAfterLoad (l : List Switch) (a cur : Option SwitchId) : Option SwitchId :=
  if l.length > 0 ∧ a = none then l.head?.map (·.id)
  else if l.length = 0 then none
  else cur

/-- A call that only reads the store. -/
def Call.isRead : Call → Bool
  | Call.selectSwitches => true
  | Call.selectPorts _ => true
  | _ => false

end SwitchMap

/-! ## Example worlds -/

namespace SwitchMap

/-- A port row without device. -/
def freePortRow (switch_id : SwitchId) (port_number : Nat) : PortRow :=
  { switch_id := switch_id, port_number := port_number,
    device_name := none, device_mac := none, device_ip := none, device_type := none }

/-- Nothing stored, nothing loaded, no failure to come. -/
def emptyWorld : World :=
  { switches := []
    activeSwitchId := none
    isLoading := false
    store := { switches := [], ports := [] }
    faults := []
    log := [] }

/-- The switch insert goes through, the ports insert fails, the delete works. -/
def portsInsertFailsWorld : World :=
  { emptyWorld with faults := [none, some "ports insert failed"] }

/-- The switch insert goes through, the ports insert and the compensating
delete both fail. -/
def rollbackFailsWorld : World :=
  { emptyWorld with faults := [none, some "ports insert failed", some "delete failed"] }

/-- Two stored switches of one port each; the reload of the second switch's
ports will fail. -/
def reloadFailsWorld : World :=
  { switches := [{ id := 1, name := "Core", ports := [{ number := 1, device := none }] }]
    activeSwitchId := some 1
    isLoading := false
    store :=
      { switches := [{ id := 1, name := "Core" }, { id := 2, name := "Edge" }],
        ports := [freePortRow 1 1, freePortRow 2 1] }
    faults := [none, none, some "timeout"]
    log := [] }

end SwitchMap

namespace SwitchMap

/-- A workstation, as the device editor hands it over. -/
def pcDevice : Device :=
  { name := some "PC-01", mac := some "00:1B:44:11:3A:B7", ip := some "192.168.1.100",
    type := some "computer" }

/-- Switch 1 with its single port, to which `pcDevice` is attached. -/
def coreSwitch : Switch :=
  { id := 1, name := "Core", ports := [{ number := 1, device := some pcDevice }] }

/-- Switch 1 is stored and loaded with one port holding `pcDevice`; no failure
to come. -/
def deviceWorld : World :=
  { switches := [coreSwitch]
    activeSwitchId := some 1
    isLoading := false
    store :=
      { switches := [{ id := 1, name := "Core" }],
        ports := [{ switch_id := 1, port_number := 1, device_name := some "PC-01",
                    device_mac := some "00:1B:44:11:3A:B7", device_ip := some "192.168.1.100",
                    device_type := some "computer" }] }
    faults := []
    log := [] }

/-- As `deviceWorld`, but the next gateway call fails. -/
def firstCallFailsWorld : World :=
  { deviceWorld with faults := [some "update failed"] }

end SwitchMap

namespace SwitchMap

/-- Switch 1 with a single port, numbered 5. -/
def gapSwitch : Switch :=
  { id := 1, name := "Core", ports := [{ number := 5, device := none }] }

/-- Switch 1 is stored and loaded with its single port, numbered 5. -/
def gapWorld : World :=
  { switches := [gapSwitch]
    activeSwitchId := some 1
    isLoading := false
    store := { switches := [{ id := 1, name := "Core" }], ports := [freePortRow 1 5] }
    faults := []
    log := [] }

end SwitchMap

namespace SwitchMap

/-- Switch 2, with one free port. -/
def edgeSwitch : Switch :=
  { id := 2, name := "Edge", ports := [{ number := 1, device := none }] }

/-- Switches 1 and 2 are stored and loaded, switch 1 is selected; no failure to
come. -/
def twoSwitchWorld : World :=
  { switches := [{ id := 1, name := "Core", ports := [{ number := 1, device := none }] },
                 edgeSwitch]
    activeSwitchId := some 1
    isLoading := false
    store :=
      { switches := [{ id := 1, name := "Core" }, { id := 2, name := "Edge" }],
        ports := [freePortRow 1 1, freePortRow 2 1] }
    faults := []
    log := [] }

/-- As `twoSwitchWorld`, with no switch selected. -/
def noSelectionWorld : World :=
  { twoSwitchWorld with activeSwitchId := none }

end SwitchMap

/-! ## `DeviceModal` -/

namespace SwitchMap

/-- Embeds a regular expression character class such as `[0-9]`, given by the
list of its characters. -/
def charClass (cs : List Char) : RegularExpression Char :=
  cs.foldr (fun c r => RegularExpression.char c + r) 0

/-- Embeds `r?`. -/
def zeroOrOne (r : RegularExpression Char) : RegularExpression Char := 1 + r

/-- Characters of the class `[0-9A-Fa-f]`. -/
def hexDigitChars : List Char := "0123456789ABCDEFabcdef".data

/-- Characters of the class `[0-9]`. -/
def digitChars : List Char := "0123456789".data

/-- Embeds `macRegex`: `/^([0-9A-Fa-f]{2}[:-]){5}([0-9A-Fa-f]{2})$/`. -/
def macRegex : RegularExpression Char :=
  (charClass hexDigitChars ^ 2 * charClass [':', '-']) ^ 5 * charClass hexDigitChars ^ 2

/-- Embeds one octet of `ipRegex`: `25[0-5]|2[0-4][0-9]|[01]?[0-9][0-9]?`. -/
def ipOctetRegex : RegularExpression Char :=
  RegularExpression.char '2' * RegularExpression.char '5' * charClass "012345".data +
    RegularExpression.char '2' * charClass "01234".data * charClass digitChars +
    zeroOrOne (charClass "01".data) * charClass digitChars * zeroOrOne (charClass digitChars)

/-- Embeds `ipRegex`:
`/^(?:(?:25[0-5]|2[0-4][0-9]|[01]?[0-9][0-9]?)\.){3}(?:25[0-5]|2[0-4][0-9]|[01]?[0-9][0-9]?)$/`. -/
def ipRegex : RegularExpression Char :=
  (ipOctetRegex * RegularExpression.char '.') ^ 3 * ipOctetRegex

/-- Embeds `regex.test(s)` for a regular expression anchored by `^` and `$`
(no flag): the whole string has to match. -/
def regexTest (r : RegularExpression Char) (s : String) : Bool := r.rmatch s.data

/-- Form state `deviceData` of the editor: `{ name, mac, ip, type }`, all strings. -/
structure DeviceData where
  name : String
  mac : String
  ip : String
  type : String
  deriving DecidableEq, Repr

/-- The form state read as the device of a port, which is how
`handleSaveDevice` stores the object it receives. -/
def DeviceData.toDevice (d : DeviceData) : Device :=
  { name := some d.name, mac := some d.mac, ip := some d.ip, type := some d.type }

/-- Embeds `v || d` for a string-or-null `v` and a string `d`. -/
def orDefault (v : Option String) (d : String) : String :=
  match v with
  | some s => if s != "" then s else d
  | none => d

/-- Initial form state: `{ name: '', mac: '', ip: '', type: 'computer' }`. -/
def emptyDeviceData : DeviceData := { name := "", mac := "", ip := "", type := "computer" }

/-- Embeds the `useEffect` of `DeviceModal` that loads the form when the editor
is opened on `port`. -/
def openEditor (port : Option Port) : DeviceData :=
  match port with
  | none => emptyDeviceData
  | some port =>
    match port.device with
    | none => emptyDeviceData
    | some device =>
      { name := orDefault device.name "",
        mac := orDefault device.mac "",
        ip := orDefault device.ip "",
        type := orDefault device.type "computer" }

/-- One change of a form field: the `onChange` handlers of the three inputs and
the `onClick` of a device type button. -/
inductive FieldEdit where
  | name (value : String)
  | mac (value : String)
  | ip (value : String)
  | type (value : String)
  deriving DecidableEq, Repr

/-- Embeds the four field handlers; `toUpperCase` stands for
`String.prototype.toUpperCase`, which is applied to the text typed in the MAC
input only. -/
def applyEdit (toUpperCase : String → String) (deviceData : DeviceData) :
    FieldEdit → DeviceData
  | FieldEdit.name value => { deviceData with name := value }
  | FieldEdit.mac value => { deviceData with mac := toUpperCase value }
  | FieldEdit.ip value => { deviceData with ip := value }
  | FieldEdit.type value => { deviceData with type := value }

/-- What a handler of the editor does, in order. -/
inductive EditorEffect where
  | toast (t : Toast)
  | onSave (portNumber : Nat) (deviceData : DeviceData)
  | onRemove (portNumber : Nat)
  | onClose
  deriving DecidableEq, Repr

/-- Toast of the required-fields check of `handleSave`. -/
def requiredFieldsToast : Toast :=
  { title := "Erro", description := "Todos os campos são obrigatórios!", destructive := true }

/-- Toast of the MAC check of `handleSave`. -/
def invalidMacToast : Toast :=
  { title := "Erro", description := "Formato de MAC inválido! Use: XX:XX:XX:XX:XX:XX",
    destructive := true }

/-- Toast of the IP check of `handleSave`. -/
def invalidIpToast : Toast :=
  { title := "Erro", description := "Formato de IP inválido!", destructive := true }

/-- Embeds `handleSave` of `DeviceModal`. -/
def handleSave (port : Port) (deviceData : DeviceData) : List EditorEffect :=
  if deviceData.name = "" ∨ deviceData.mac = "" ∨ deviceData.ip = "" then
    [EditorEffect.toast requiredFieldsToast]
  else if !regexTest macRegex deviceData.mac then
    [EditorEffect.toast invalidMacToast]
  else if !regexTest ipRegex deviceData.ip then
    [EditorEffect.toast invalidIpToast]
  else
    [EditorEffect.onSave port.number deviceData, EditorEffect.onClose]

/-- Embeds `handleRemoveAction` of `DeviceModal`. -/
def handleRemoveAction (port : Port) : List EditorEffect :=
  [EditorEffect.onRemove port.number, EditorEffect.onClose]

/-- The device handed to `onSave`, if `onSave` is called. -/
def committed (effects : List EditorEffect) : Option (Nat × DeviceData) :=
  effects.findSome? (fun e => match e with
    | EditorEffect.onSave n d => some (n, d)
    | _ => none)

/-! ## `SwitchDashboard`: filter and blocks -/

/-- Embeds `s.includes(search)`. -/
def jsIncludes (s search : String) : Bool := decide (search.data <:+: s.data)

/-- Embeds `filteredPorts`; `toLowerCase` stands for
`String.prototype.toLowerCase`. -/
def filteredPorts (toLowerCase : String → String) (ports : List Port) (searchTerm : String) :
    List Port :=
  ports.filter (fun port =>
    if searchTerm = "" then true
    else
      let searchLower := toLowerCase searchTerm
      let portMatch := jsIncludes (toString port.number) searchTerm
      let deviceMatch :=
        match port.device with
        | none => false
        | some device =>
          (match device.name with
            | some name => jsIncludes (toLowerCase name) searchLower
            | none => false) ||
          (match device.ip with
            | some ip => jsIncludes ip searchTerm
            | none => false) ||
          (match device.mac with
            | some mac => jsIncludes (toLowerCase mac) searchLower
            | none => false)
      portMatch || deviceMatch)

/-- The constant `PORTS_PER_BLOCK`. -/
def PORTS_PER_BLOCK : Nat := 16

/-- Embeds `a.slice(start, stop)` for `0 ≤ start ≤ stop`. -/
def slice {α : Type} (a : List α) (start stop : Nat) : List α :=
  (a.drop start).take (stop - start)

/-- Embeds the `for` loop that fills `portBlocks`, from index `i` on; `fuel`
bounds the number of rounds. -/
def portBlocksLoop (filteredPorts : List Port) :
    Nat → Nat → List (List Port) → List (List Port)
  | 0, _, portBlocks => portBlocks
  | fuel + 1, i, portBlocks =>
    if i < filteredPorts.length then
      portBlocksLoop filteredPorts fuel (i + PORTS_PER_BLOCK)
        (portBlocks ++ [slice filteredPorts i (i + PORTS_PER_BLOCK)])
    else portBlocks

/-- Embeds `portBlocks`: the loop runs at most once per port. -/
def portBlocks (filteredPorts : List Port) : List (List Port) :=
  if filteredPorts.length > 0 then
    portBlocksLoop filteredPorts filteredPorts.length 0 []
  else []

/-! ## Notions used to state the editor and dashboard properties -/

/-- A hexadecimal digit, either case. -/
def isHexDigit (c : Char) : Bool :=
  ('0' ≤ c && c ≤ '9') || ('A' ≤ c && c ≤ 'F') || ('a' ≤ c && c ≤ 'f')

/-- A separator of MAC groups. -/
def isMacSeparator (c : Char) : Bool := c == ':' || c == '-'

/-- Digits and separators of a string of the form `hh s hh s hh s hh s hh s hh`:
six groups of two characters and the five characters between them. -/
def macParts : List Char → Option (List Char × List Char)
  | [a1, a2, s1, b1, b2, s2, c1, c2, s3, d1, d2, s4, e1, e2, s5, f1, f2] =>
    some ([a1, a2, b1, b2, c1, c2, d1, d2, e1, e2, f1, f2], [s1, s2, s3, s4, s5])
  | _ => none

/-- Six groups of exactly two hexadecimal digits, separated by five separators
each of which is `:` or `-`. -/
def isSeparatedMac (l : List Char) : Bool :=
  match macParts l with
  | some (digits, separators) => digits.all isHexDigit && separators.all isMacSeparator
  | none => false

/-- Six groups of exactly two hexadecimal digits, separated by five separators
that are all `:` or all `-`. -/
def isUniformMac (l : List Char) : Bool :=
  match macParts l with
  | some (digits, separators) =>
    digits.all isHexDigit && (separators.all (· == ':') || separators.all (· == '-'))
  | none => false

/-- Value of a string of decimal digits. -/
def decimalValue (l : List Char) : Nat :=
  l.foldl (fun n c => 10 * n + (c.toNat - '0'.toNat)) 0

/-- A decimal octet: one to three decimal digits of value 0 to 255. -/
def isOctet (l : List Char) : Bool :=
  1 ≤ l.length && l.length ≤ 3 && l.all Char.isDigit && decimalValue l ≤ 255

/-- Four decimal octets separated by `.`. -/
def isDottedQuad (l : List Char) : Prop :=
  ∃ a b c d, l = a ++ '.' :: (b ++ '.' :: (c ++ '.' :: d)) ∧
    isOctet a = true ∧ isOctet b = true ∧ isOctet c = true ∧ isOctet d = true

/-- The form state passes the checks of the specification: name, MAC and IP are
non-empty, the MAC matches the MAC pattern and the IP matches the IP pattern. -/
def passesChecks (d : DeviceData) : Prop :=
  d.name ≠ "" ∧ d.mac ≠ "" ∧ d.ip ≠ "" ∧
    regexTest macRegex d.mac = true ∧ regexTest ipRegex d.ip = true

instance (d : DeviceData) : Decidable (passesChecks d) := by
  unfold passesChecks; infer_instance

/-- A column of an upsert row carries a device field: the field itself when it
is a non-empty string, `null` when the field is `null` or empty. -/
def carriesField (field column : Option String) : Prop :=
  (jsTruthy field = true → column = field) ∧ (jsTruthy field = false → column = none)

/-- A string has a lowercase ASCII letter. -/
def hasLowercase (s : String) : Bool := s.data.any Char.isLower

/-- The port matches the search term, in the words of the specification:
the term is empty, or the port number in decimal contains it, or the port has a
device whose name contains it without regard to case, whose IP contains it, or
whose MAC contains it without regard to case (case is removed by `lower`). -/
def portMatches (lower : String → String) (term : String) (port : Port) : Prop :=
  term = "" ∨
  term.data <:+: (Nat.repr port.number).data ∨
  ∃ device, port.device = some device ∧
    ((∃ name, device.name = some name ∧ (lower term).data <:+: (lower name).data) ∨
     (∃ ip, device.ip = some ip ∧ term.data <:+: ip.data) ∨
     (∃ mac, device.mac = some mac ∧ (lower term).data <:+: (lower mac).data))

/-- Lowers the ASCII letters of a string; it agrees with `toLowerCase` on
strings whose other characters have no lowercase form of their own. -/
def asciiToLower (s : String) : String := String.mk (s.data.map Char.toLower)

/-- Raises the ASCII letters of a string; it agrees with `toUpperCase` on
strings of ASCII characters. -/
def asciiToUpper (s : String) : String := String.mk (s.data.map Char.toUpper)

end SwitchMap

namespace SwitchMap

/-- Opens the editor on `port`, applies the field edits in order and presses
the save button. -/
def editAndSave (toUpperCase : String → String) (port : Port) (edits : List FieldEdit) :
    List EditorEffect :=
  handleSave port (edits.foldl (applyEdit toUpperCase) (openEditor (some port)))

/-! ## Example devices and ports -/

/-- A port without device. -/
def freePort : Port := { number := 1, device := none }

/-- Form state that passes every check of `handleSave`. -/
def validDeviceData : DeviceData :=
  { name := "PC-01", mac := "00:1B:44:11:3A:B7", ip := "192.168.1.100", type := "computer" }

/-- As `validDeviceData`, with a name made of three spaces. -/
def blankNameDeviceData : DeviceData := { validDeviceData with name := "   " }

/-- As `validDeviceData`, with an empty name. -/
def emptyNameDeviceData : DeviceData := { validDeviceData with name := "" }

/-- Port 1 holding a device whose stored MAC address is written in lower case. -/
def lowercaseMacPort : Port :=
  { number := 1,
    device := some { name := some "PC-01", mac := some "00:1b:44:11:3a:b7",
                     ip := some "192.168.1.100", type := some "computer" } }

/-- Port 1 holding a device whose MAC address is the empty string. -/
def emptyMacPort : Port :=
  { number := 1,
    device := some { name := some "PC-01", mac := some "", ip := some "192.168.1.100",
                     type := some "computer" } }

/-- Ports of the filtering example: port 1 free, port 2 holding a device named
"Recepção". -/
def receptionPorts : List Port :=
  [{ number := 1, device := none },
   { number := 2,
     device := some { name := some "Recepção", mac := none, ip := none, type := none } }]

/-- Twenty free ports, numbered 1 to 20. -/
def twentyPorts : List Port :=
  (List.range 20).map (fun i => { number := i + 1, device := none })

end SwitchMap

/-! ## `SwitchDashboard`: statistics and empty states -/

namespace SwitchMap

/-- Embeds `connectedPorts`: `ports.filter(port => port.device !== null).length`. -/
def connectedPorts (ports : List Port) : Nat :=
  (ports.filter (fun port => port.device != none)).length

/-- Embeds `disconnectedPorts`: `ports.length - connectedPorts`. -/
def disconnectedPorts (ports : List Port) : Int :=
  (ports.length : Int) - (connectedPorts ports : Int)

/-- Nearest integer to a rational number, a tie going to the even neighbour:
the rounding of the significand in IEEE 754 binary64 arithmetic. -/
def roundHalfEven (m : ℚ) : ℤ :=
  if m - ⌊m⌋ < 1 / 2 then ⌊m⌋
  else if 1 / 2 < m - ⌊m⌋ then ⌊m⌋ + 1
  else if ⌊m⌋ % 2 = 0 then ⌊m⌋ else ⌊m⌋ + 1

/-- The binary64 number nearest to the real number `q` (round to nearest, ties
to even): a significand of 53 bits scaled by the power of two of the binade of
`q`. The numbers of this program lie between `2 ^ (-32)` and `100`, far from
the overflow and subnormal ranges, which are not rendered. -/
def toDouble (q : ℚ) : ℚ :=
  if q = 0 then 0
  else
    let e : ℤ := Int.log 2 |q| - 52
    (if 0 < q then 1 else -1) * (roundHalfEven (|q| / 2 ^ e) : ℚ) * 2 ^ e

/-- Embeds `a / b` on binary64 numbers, `b` not zero. -/
def jsDiv (a b : ℚ) : ℚ := toDouble (a / b)

/-- Embeds `a * b` on binary64 numbers. -/
def jsMul (a b : ℚ) : ℚ := toDouble (a * b)

/-- Embeds `Math.round(x)`: the integer nearest to `x`, a tie going up. -/
def mathRound (x : ℚ) : ℤ := ⌊x + 1 / 2⌋

/-- Embeds the number shown by the utilization card:
`ports.length > 0 ? Math.round((connectedPorts / ports.length) * 100) : 0`.
The two lengths are integers below `2 ^ 32`, which binary64 holds exactly. -/
def utilization (ports : List Port) : Int :=
  if ports.length > 0 then
    mathRound (jsMul (jsDiv (connectedPorts ports) ports.length) 100)
  else 0

/-- Embeds the condition of the first empty-state message,
`portBlocks.length === 0 && searchTerm`. -/
def showsNoMatchForTerm (toLowerCase : String → String) (ports : List Port)
    (searchTerm : String) : Bool :=
  (portBlocks (filteredPorts toLowerCase ports searchTerm)).length == 0 && searchTerm != ""

/-- Embeds the condition of the second empty-state message,
`portBlocks.length === 0 && !searchTerm && ports.length === 0`. -/
def showsNoPorts (toLowerCase : String → String) (ports : List Port)
    (searchTerm : String) : Bool :=
  (portBlocks (filteredPorts toLowerCase ports searchTerm)).length == 0 &&
    !(searchTerm != "") && ports.length == 0

/-- Embeds the condition of the third empty-state message,
`portBlocks.length === 0 && !searchTerm && ports.length > 0 &&
filteredPorts.length === 0`. -/
def showsNoMatchForCriteria (toLowerCase : String → String) (ports : List Port)
    (searchTerm : String) : Bool :=
  (portBlocks (filteredPorts toLowerCase ports searchTerm)).length == 0 &&
    !(searchTerm != "") && decide (ports.length > 0) &&
    (filteredPorts toLowerCase ports searchTerm).length == 0

/-- What one render of `SwitchDashboard` shows for a port list and a search
term: the four statistic cards, the blocks of port cards and the three
empty-state messages. -/
structure DashboardRender where
  total : Nat
  connected : Nat
  free : Int
  utilization : Int
  blocks : List (List Port)
  noMatchForTerm : Bool
  noPorts : Bool
  noMatchForCriteria : Bool
  deriving DecidableEq

/-- Embeds the part of the render of `SwitchDashboard` that depends on `ports`
and `searchTerm`. -/
def renderDashboard (toLowerCase : String → String) (ports : List Port)
    (searchTerm : String) : DashboardRender :=
  { total := ports.length
    connected := connectedPorts ports
    free := disconnectedPorts ports
    utilization := utilization ports
    blocks := portBlocks (filteredPorts toLowerCase ports searchTerm)
    noMatchForTerm := showsNoMatchForTerm toLowerCase ports searchTerm
    noPorts := showsNoPorts toLowerCase ports searchTerm
    noMatchForCriteria := showsNoMatchForCriteria toLowerCase ports searchTerm }

/-- Number of empty-state messages shown by a render. -/
def DashboardRender.messageCount (r : DashboardRender) : Nat :=
  (if r.noMatchForTerm then 1 else 0) + (if r.noPorts then 1 else 0) +
    (if r.noMatchForCriteria then 1 else 0)

end SwitchMap

/-! ## `App`: profile lookup, session guard and routes -/

namespace SwitchMap

/-- The `user` object of a session. -/
structure AuthUser where
  id : String
  deriving DecidableEq, Repr

/-- A session handed out by the auth provider. -/
structure Session where
  user : AuthUser
  deriving DecidableEq, Repr

/-- A row of `user_profiles`, as selected by `fetchProfile`. -/
structure Profile where
  id : String
  email : String
  role : String
  full_name : Option String
  deriving DecidableEq, Repr

/-- The `error` object of a gateway answer. -/
structure PostgrestError where
  code : String
  details : String
  message : String
  deriving DecidableEq, Repr

/-- The `{ data, error }` answer of the profile query. -/
structure ProfileResponse where
  data : Option Profile
  error : Option PostgrestError
  deriving DecidableEq, Repr

/-- Requests `App` sends to the auth provider and to the gateway. -/
inductive AppCall where
  | getSession
  | selectProfile (id : String)
  | signOut
  deriving DecidableEq, Repr

/-- State cells of `App`, and the requests sent so far. -/
structure AppState where
  session : Option Session
  userProfile : Option Profile
  loading : Bool
  authAttempted : Bool
  calls : List AppCall
  deriving DecidableEq, Repr

/-- State of `App` at mount: the initial values of the four `useState` cells. -/
def initialAppState : AppState :=
  { session := none, userProfile := none, loading := true, authAttempted := false, calls := [] }

/-- Embeds the auth listener registered by `onAuthStateChange` when it is
handed a null session. -/
def onAuthStateChangeNull (st : AppState) : AppState :=
  { st with session := none, userProfile := none, loading := false, authAttempted := true }

/-- Awaits `supabase.auth.signOut()`. When `notifies` holds the provider drops
the session and tells the listener, which then runs with a null session. -/
def AppState.signOut (st : AppState) (notifies : Bool) : AppState :=
  let st1 := { st with calls := st.calls ++ [AppCall.signOut] }
  if notifies then onAuthStateChangeNull st1 else st1

/-- Embeds `fetchProfile`; `response` is the answer of the profile query and
`notifies` tells whether a sign-out reaches the listener. -/
def fetchProfile (currentUser : Option AuthUser) (response : ProfileResponse)
    (notifies : Bool) (st : AppState) : Option Profile × AppState :=
  match currentUser with
  | none => (none, { st with userProfile := none })
  | some currentUser =>
    let st1 := { st with calls := st.calls ++ [AppCall.selectProfile currentUser.id] }
    match response.error with
    | some profileError =>
      let st2 := { st1 with userProfile := none }
      if profileError.code == "PGRST116" && jsIncludes profileError.details "0 rows" then
        (none, st2.signOut notifies)
      else (none, st2)
    | none =>
      match response.data with
      | none => (none, { st1 with userProfile := none })
      | some profile => (some profile, { st1 with userProfile := some profile })

/-- Embeds `getInitialSessionAndProfile`; `currentSession` is what
`getSession` answers. -/
def getInitialSessionAndProfile (currentSession : Option Session)
    (response : ProfileResponse) (notifies : Bool) (st : AppState) : AppState :=
  let st1 := { st with loading := true, calls := st.calls ++ [AppCall.getSession] }
  let st2 := { st1 with session := currentSession }
  let st3 :=
    match currentSession with
    | some s => (fetchProfile (some s.user) response notifies st2).2
    | none => st2
  { st3 with loading := false, authAttempted := true }

/-- Embeds the auth listener registered by `onAuthStateChange`. -/
def onAuthStateChange (newSession : Option Session) (response : ProfileResponse)
    (notifies : Bool) (st : AppState) : AppState :=
  match newSession with
  | some s =>
    let st1 := { st with session := some s, loading := true }
    let st2 := (fetchProfile (some s.user) response notifies st1).2
    { st2 with loading := false, authAttempted := true }
  | none => onAuthStateChangeNull st

/-- What `App` renders. -/
inductive View where
  | starting
  | loadingProfile
  | loginPage
  | dashboard
  | userManagement
  | navigate (target : String)
  | nothing
  deriving DecidableEq, Repr

/-- Embeds the `Routes` element: the element of the route whose path is the
location, compared as written. -/
def routes (session : Option Session) (path : String) : View :=
  if path = "/login" then
    if session.isNone then View.loginPage else View.navigate "/"
  else if path = "/" then
    if session.isSome then View.dashboard else View.navigate "/login"
  else if path = "/user-management" then
    if session.isSome then View.userManagement else View.navigate "/login"
  else View.nothing

/-- Embeds the render of `App` at a location. -/
def renderApp (st : AppState) (path : String) : View :=
  if !st.authAttempted then View.starting
  else if st.loading && st.session.isSome then View.loadingProfile
  else routes st.session path

/-- A view that needs a session: the dashboard or the user-management page. -/
def View.isProtected (v : View) : Bool :=
  v == View.dashboard || v == View.userManagement

/-- States `App` can be in: the state at mount, and every state left by the
initial lookup or by the auth listener, whatever the provider and the gateway
answer. -/
inductive AppState.Reachable : AppState → Prop where
  | mount : AppState.Reachable initialAppState
  | initial (st : AppState) (currentSession : Option Session) (response : ProfileResponse)
      (notifies : Bool) : AppState.Reachable st →
      AppState.Reachable (getInitialSessionAndProfile currentSession response notifies st)
  | listener (st : AppState) (newSession : Option Session) (response : ProfileResponse)
      (notifies : Bool) : AppState.Reachable st →
      AppState.Reachable (onAuthStateChange newSession response notifies st)

/-- The profile query found no row: `maybeSingle()` answers with no data and
no error. -/
def noRowResponse : ProfileResponse := { data := none, error := none }

/-- The profile query failed with the gateway error for an empty result. -/
def zeroRowsError : PostgrestError :=
  { code := "PGRST116",
    details := "The result contains 0 rows",
    message := "JSON object requested, multiple (or no) rows returned" }

/-- A session of the examples. -/
def exampleSession : Session := { user := { id := "user-1" } }

end SwitchMap

/-! ## Notions used to state the busy flag, round trip and statistics properties -/

namespace SwitchMap

/-- No gateway call follows the first lowering of the busy flag in a log
segment. -/
def noCallAfterLowering : List Event → Bool
  | [] => true
  | Event.setIsLoading false :: rest => (callsOf rest).isEmpty
  | _ :: rest => noCallAfterLowering rest

/-- The busy flag discipline of the log segment of one operation: the segment
starts by raising the flag, no gateway call follows a lowering of the flag, and
the segment ends by lowering the flag. -/
def busyDiscipline (seg : List Event) : Bool :=
  seg.head? == some (Event.setIsLoading true) && noCallAfterLowering seg &&
    seg.getLast? == some (Event.setIsLoading false)

/-- An operation that takes the world from `w` to `w'` keeps the busy flag
discipline: the log grows by a segment that starts by raising the flag, has no
gateway call after a lowering of the flag and ends by lowering it; a success
toast in the segment comes with the registry query of a reload in it; and the
flag is false in `w'`. -/
def keepsBusy (w w' : World) : Prop :=
  ∃ seg, w'.log = w.log ++ seg ∧ busyDiscipline seg = true ∧
    ((∃ t ∈ toastsOf seg, t.destructive = false) → Call.selectSwitches ∈ callsOf seg) ∧
    w'.isLoading = false

/-- A device whose four fields are all set and non-empty. -/
def Device.isComplete (d : Device) : Bool :=
  jsTruthy d.name && jsTruthy d.mac && jsTruthy d.ip && jsTruthy d.type

/-- Ten ports numbered 1 to 10, the first three holding a device. -/
def tenPorts : List Port :=
  (List.range 10).map (fun i =>
    { number := i + 1, device := if i < 3 then some pcDevice else none })

/-- A store row with MAC, IP and type set but no device name. -/
def namelessRow : PortRow :=
  { switch_id := 1, port_number := 4, device_name := none,
    device_mac := some "00:1B:44:11:3A:B7", device_ip := some "192.168.1.100",
    device_type := some "computer" }

/-- As `twoSwitchWorld`, with a selection, 7, that is not a stored switch. -/
def staleSelectionWorld : World :=
  { twoSwitchWorld with activeSwitchId := some 7 }

end SwitchMap

/-! ## Basic facts -/

namespace SwitchMap

theorem jsTrim_eq_empty_iff (s : String) : jsTrim s = "" ↔ isBlank s := by
  have key : ∀ l : List Char,
      (l.dropWhile jsIsWhiteSpace).reverse.dropWhile jsIsWhiteSpace = [] ↔
        ∀ c ∈ l, jsIsWhiteSpace c = true := by
    intro l
    rw [List.dropWhile_eq_nil_iff]
    constructor
    · intro h
      have h2 : l.dropWhile jsIsWhiteSpace = [] := by
        cases hd : l.dropWhile jsIsWhiteSpace with
        | nil => rfl
        | cons a t =>
          have hm : a ∈ (l.dropWhile jsIsWhiteSpace).reverse := by simp [hd]
          have h1 := h a hm
          have h3 := List.head_dropWhile_not jsIsWhiteSpace l (by simp [hd])
          simp [hd] at h3
          simp [h3] at h1
      exact List.dropWhile_eq_nil_iff.mp h2
    · intro h c hc
      have h2 : l.dropWhile jsIsWhiteSpace = [] := List.dropWhile_eq_nil_iff.mpr h
      simp [h2] at hc
  unfold jsTrim isBlank
  rw [← key s.data]
  constructor
  · intro h
    have := congrArg String.data h
    simpa using this
  · intro h
    simp [h]

end SwitchMap

/-! ## Effects of the primitives -/

namespace SwitchMap

@[simp] theorem callsOf_append (a b : List Event) :
    callsOf (a ++ b) = callsOf a ++ callsOf b := by
  simp [callsOf]

@[simp] theorem toastsOf_append (a b : List Event) :
    toastsOf (a ++ b) = toastsOf a ++ toastsOf b := by
  simp [toastsOf]

@[simp] theorem callsOf_nil : callsOf [] = [] := rfl

@[simp] theorem callsOf_call (c : Call) (l : List Event) :
    callsOf (Event.call c :: l) = c :: callsOf l := rfl

@[simp] theorem callsOf_setSwitches (v : List Switch) (l : List Event) :
    callsOf (Event.setSwitches v :: l) = callsOf l := rfl

@[simp] theorem callsOf_setActiveSwitchId (v : Option SwitchId) (l : List Event) :
    callsOf (Event.setActiveSwitchId v :: l) = callsOf l := rfl

@[simp] theorem callsOf_setIsLoading (v : Bool) (l : List Event) :
    callsOf (Event.setIsLoading v :: l) = callsOf l := rfl

@[simp] theorem callsOf_toast (t : Toast) (l : List Event) :
    callsOf (Event.toast t :: l) = callsOf l := rfl

@[simp] theorem callsOf_confirm (m : String) (l : List Event) :
    callsOf (Event.confirm m :: l) = callsOf l := rfl

@[simp] theorem toastsOf_nil : toastsOf [] = [] := rfl

@[simp] theorem toastsOf_call (c : Call) (l : List Event) :
    toastsOf (Event.call c :: l) = toastsOf l := rfl

@[simp] theorem toastsOf_setSwitches (v : List Switch) (l : List Event) :
    toastsOf (Event.setSwitches v :: l) = toastsOf l := rfl

@[simp] theorem toastsOf_setActiveSwitchId (v : Option SwitchId) (l : List Event) :
    toastsOf (Event.setActiveSwitchId v :: l) = toastsOf l := rfl

@[simp] theorem toastsOf_setIsLoading (v : Bool) (l : List Event) :
    toastsOf (Event.setIsLoading v :: l) = toastsOf l := rfl

@[simp] theorem toastsOf_toast (t : Toast) (l : List Event) :
    toastsOf (Event.toast t :: l) = t :: toastsOf l := rfl

@[simp] theorem toastsOf_confirm (m : String) (l : List Event) :
    toastsOf (Event.confirm m :: l) = toastsOf l := rfl

@[simp] theorem World.confirm_switches (w : World) (m : String) :
    (w.confirm m).switches = w.switches := rfl

@[simp] theorem World.confirm_activeSwitchId (w : World) (m : String) :
    (w.confirm m).activeSwitchId = w.activeSwitchId := rfl

@[simp] theorem World.confirm_isLoading (w : World) (m : String) :
    (w.confirm m).isLoading = w.isLoading := rfl

@[simp] theorem World.confirm_store (w : World) (m : String) :
    (w.confirm m).store = w.store := rfl

@[simp] theorem World.confirm_faults (w : World) (m : String) :
    (w.confirm m).faults = w.faults := rfl

@[simp] theorem World.confirm_log (w : World) (m : String) :
    (w.confirm m).log = w.log ++ [Event.confirm m] := rfl

@[simp] theorem World.setSwitches_switches (w : World) (v : List Switch) :
    (w.setSwitches v).switches = v := rfl

@[simp] theorem World.setSwitches_activeSwitchId (w : World) (v : List Switch) :
    (w.setSwitches v).activeSwitchId = w.activeSwitchId := rfl

@[simp] theorem World.setSwitches_isLoading (w : World) (v : List Switch) :
    (w.setSwitches v).isLoading = w.isLoading := rfl

@[simp] theorem World.setSwitches_store (w : World) (v : List Switch) :
    (w.setSwitches v).store = w.store := rfl

@[simp] theorem World.setSwitches_faults (w : World) (v : List Switch) :
    (w.setSwitches v).faults = w.faults := rfl

@[simp] theorem World.setSwitches_log (w : World) (v : List Switch) :
    (w.setSwitches v).log = w.log ++ [Event.setSwitches v] := rfl

@[simp] theorem World.setActiveSwitchId_switches (w : World) (v : Option SwitchId) :
    (w.setActiveSwitchId v).switches = w.switches := rfl

@[simp] theorem World.setActiveSwitchId_activeSwitchId (w : World) (v : Option SwitchId) :
    (w.setActiveSwitchId v).activeSwitchId = v := rfl

@[simp] theorem World.setActiveSwitchId_isLoading (w : World) (v : Option SwitchId) :
    (w.setActiveSwitchId v).isLoading = w.isLoading := rfl

@[simp] theorem World.setActiveSwitchId_store (w : World) (v : Option SwitchId) :
    (w.setActiveSwitchId v).store = w.store := rfl

@[simp] theorem World.setActiveSwitchId_faults (w : World) (v : Option SwitchId) :
    (w.setActiveSwitchId v).faults = w.faults := rfl

@[simp] theorem World.setActiveSwitchId_log (w : World) (v : Option SwitchId) :
    (w.setActiveSwitchId v).log = w.log ++ [Event.setActiveSwitchId v] := rfl

@[simp] theorem World.setIsLoading_switches (w : World) (v : Bool) :
    (w.setIsLoading v).switches = w.switches := rfl

@[simp] theorem World.setIsLoading_activeSwitchId (w : World) (v : Bool) :
    (w.setIsLoading v).activeSwitchId = w.activeSwitchId := rfl

@[simp] theorem World.setIsLoading_isLoading (w : World) (v : Bool) :
    (w.setIsLoading v).isLoading = v := rfl

@[simp] theorem World.setIsLoading_store (w : World) (v : Bool) :
    (w.setIsLoading v).store = w.store := rfl

@[simp] theorem World.setIsLoading_faults (w : World) (v : Bool) :
    (w.setIsLoading v).faults = w.faults := rfl

@[simp] theorem World.setIsLoading_log (w : World) (v : Bool) :
    (w.setIsLoading v).log = w.log ++ [Event.setIsLoading v] := rfl

@[simp] theorem World.toast_switches (w : World) (t : Toast) :
    (w.toast t).switches = w.switches := rfl

@[simp] theorem World.toast_activeSwitchId (w : World) (t : Toast) :
    (w.toast t).activeSwitchId = w.activeSwitchId := rfl

@[simp] theorem World.toast_isLoading (w : World) (t : Toast) :
    (w.toast t).isLoading = w.isLoading := rfl

@[simp] theorem World.toast_store (w : World) (t : Toast) :
    (w.toast t).store = w.store := rfl

@[simp] theorem World.toast_faults (w : World) (t : Toast) :
    (w.toast t).faults = w.faults := rfl

@[simp] theorem World.toast_log (w : World) (t : Toast) :
    (w.toast t).log = w.log ++ [Event.toast t] := rfl

@[simp] theorem World.selectSwitches_switches (w : World)  :
    (w.selectSwitches).2.switches = w.switches := by
  unfold World.selectSwitches World.issue
  cases w.faults.head?.join <;> rfl

@[simp] theorem World.selectSwitches_activeSwitchId (w : World)  :
    (w.selectSwitches).2.activeSwitchId = w.activeSwitchId := by
  unfold World.selectSwitches World.issue
  cases w.faults.head?.join <;> rfl

@[simp] theorem World.selectSwitches_isLoading (w : World)  :
    (w.selectSwitches).2.isLoading = w.isLoading := by
  unfold World.selectSwitches World.issue
  cases w.faults.head?.join <;> rfl

@[simp] theorem World.selectSwitches_faults (w : World)  :
    (w.selectSwitches).2.faults = w.faults.tail := by
  unfold World.selectSwitches World.issue
  cases w.faults.head?.join <;> rfl

@[simp] theorem World.selectSwitches_log (w : World)  :
    (w.selectSwitches).2.log = w.log ++ [Event.call (Call.selectSwitches)] := by
  unfold World.selectSwitches World.issue
  cases w.faults.head?.join <;> rfl

@[simp] theorem World.selectSwitches_store (w : World)  :
    (w.selectSwitches).2.store = w.store := by
  unfold World.selectSwitches World.issue
  cases w.faults.head?.join <;> rfl

@[simp] theorem World.selectPorts_switches (w : World) (id : SwitchId) :
    (w.selectPorts id).2.switches = w.switches := by
  unfold World.selectPorts World.issue
  cases w.faults.head?.join <;> rfl

@[simp] theorem World.selectPorts_activeSwitchId (w : World) (id : SwitchId) :
    (w.selectPorts id).2.activeSwitchId = w.activeSwitchId := by
  unfold World.selectPorts World.issue
  cases w.faults.head?.join <;> rfl

@[simp] theorem World.selectPorts_isLoading (w : World) (id : SwitchId) :
    (w.selectPorts id).2.isLoading = w.isLoading := by
  unfold World.selectPorts World.issue
  cases w.faults.head?.join <;> rfl

@[simp] theorem World.selectPorts_faults (w : World) (id : SwitchId) :
    (w.selectPorts id).2.faults = w.faults.tail := by
  unfold World.selectPorts World.issue
  cases w.faults.head?.join <;> rfl

@[simp] theorem World.selectPorts_log (w : World) (id : SwitchId) :
    (w.selectPorts id).2.log = w.log ++ [Event.call (Call.selectPorts id)] := by
  unfold World.selectPorts World.issue
  cases w.faults.head?.join <;> rfl

@[simp] theorem World.selectPorts_store (w : World) (id : SwitchId) :
    (w.selectPorts id).2.store = w.store := by
  unfold World.selectPorts World.issue
  cases w.faults.head?.join <;> rfl

@[simp] theorem World.insertSwitch_switches (w : World) (name : String) :
    (w.insertSwitch name).2.switches = w.switches := by
  unfold World.insertSwitch World.issue
  cases w.faults.head?.join <;> rfl

@[simp] theorem World.insertSwitch_activeSwitchId (w : World) (name : String) :
    (w.insertSwitch name).2.activeSwitchId = w.activeSwitchId := by
  unfold World.insertSwitch World.issue
  cases w.faults.head?.join <;> rfl

@[simp] theorem World.insertSwitch_isLoading (w : World) (name : String) :
    (w.insertSwitch name).2.isLoading = w.isLoading := by
  unfold World.insertSwitch World.issue
  cases w.faults.head?.join <;> rfl

@[simp] theorem World.insertSwitch_faults (w : World) (name : String) :
    (w.insertSwitch name).2.faults = w.faults.tail := by
  unfold World.insertSwitch World.issue
  cases w.faults.head?.join <;> rfl

@[simp] theorem World.insertSwitch_log (w : World) (name : String) :
    (w.insertSwitch name).2.log = w.log ++ [Event.call (Call.insertSwitch name)] := by
  unfold World.insertSwitch World.issue
  cases w.faults.head?.join <;> rfl

@[simp] theorem World.insertPorts_switches (w : World) (rows : List PortRow) :
    (w.insertPorts rows).2.switches = w.switches := by
  unfold World.insertPorts World.issue
  cases w.faults.head?.join with
  | some e => rfl
  | none => dsimp only; split <;> rfl

@[simp] theorem World.insertPorts_activeSwitchId (w : World) (rows : List PortRow) :
    (w.insertPorts rows).2.activeSwitchId = w.activeSwitchId := by
  unfold World.insertPorts World.issue
  cases w.faults.head?.join with
  | some e => rfl
  | none => dsimp only; split <;> rfl

@[simp] theorem World.insertPorts_isLoading (w : World) (rows : List PortRow) :
    (w.insertPorts rows).2.isLoading = w.isLoading := by
  unfold World.insertPorts World.issue
  cases w.faults.head?.join with
  | some e => rfl
  | none => dsimp only; split <;> rfl

@[simp] theorem World.insertPorts_faults (w : World) (rows : List PortRow) :
    (w.insertPorts rows).2.faults = w.faults.tail := by
  unfold World.insertPorts World.issue
  cases w.faults.head?.join with
  | some e => rfl
  | none => dsimp only; split <;> rfl

@[simp] theorem World.insertPorts_log (w : World) (rows : List PortRow) :
    (w.insertPorts rows).2.log = w.log ++ [Event.call (Call.insertPorts rows)] := by
  unfold World.insertPorts World.issue
  cases w.faults.head?.join with
  | some e => rfl
  | none => dsimp only; split <;> rfl

@[simp] theorem World.updateSwitchName_switches (w : World) (id : SwitchId) (name : String) :
    (w.updateSwitchName id name).2.switches = w.switches := by
  unfold World.updateSwitchName World.issue
  cases w.faults.head?.join <;> rfl

@[simp] theorem World.updateSwitchName_activeSwitchId (w : World) (id : SwitchId) (name : String) :
    (w.updateSwitchName id name).2.activeSwitchId = w.activeSwitchId := by
  unfold World.updateSwitchName World.issue
  cases w.faults.head?.join <;> rfl

@[simp] theorem World.updateSwitchName_isLoading (w : World) (id : SwitchId) (name : String) :
    (w.updateSwitchName id name).2.isLoading = w.isLoading := by
  unfold World.updateSwitchName World.issue
  cases w.faults.head?.join <;> rfl

@[simp] theorem World.updateSwitchName_faults (w : World) (id : SwitchId) (name : String) :
    (w.updateSwitchName id name).2.faults = w.faults.tail := by
  unfold World.updateSwitchName World.issue
  cases w.faults.head?.join <;> rfl

@[simp] theorem World.updateSwitchName_log (w : World) (id : SwitchId) (name : String) :
    (w.updateSwitchName id name).2.log = w.log ++ [Event.call (Call.updateSwitchName id name)] := by
  unfold World.updateSwitchName World.issue
  cases w.faults.head?.join <;> rfl

@[simp] theorem World.deleteSwitchRow_switches (w : World) (id : SwitchId) :
    (w.deleteSwitchRow id).2.switches = w.switches := by
  unfold World.deleteSwitchRow World.issue
  cases w.faults.head?.join <;> rfl

@[simp] theorem World.deleteSwitchRow_activeSwitchId (w : World) (id : SwitchId) :
    (w.deleteSwitchRow id).2.activeSwitchId = w.activeSwitchId := by
  unfold World.deleteSwitchRow World.issue
  cases w.faults.head?.join <;> rfl

@[simp] theorem World.deleteSwitchRow_isLoading (w : World) (id : SwitchId) :
    (w.deleteSwitchRow id).2.isLoading = w.isLoading := by
  unfold World.deleteSwitchRow World.issue
  cases w.faults.head?.join <;> rfl

@[simp] theorem World.deleteSwitchRow_faults (w : World) (id : SwitchId) :
    (w.deleteSwitchRow id).2.faults = w.faults.tail := by
  unfold World.deleteSwitchRow World.issue
  cases w.faults.head?.join <;> rfl

@[simp] theorem World.deleteSwitchRow_log (w : World) (id : SwitchId) :
    (w.deleteSwitchRow id).2.log = w.log ++ [Event.call (Call.deleteSwitchRow id)] := by
  unfold World.deleteSwitchRow World.issue
  cases w.faults.head?.join <;> rfl

@[simp] theorem World.deletePorts_switches (w : World) (id : SwitchId) :
    (w.deletePorts id).2.switches = w.switches := by
  unfold World.deletePorts World.issue
  cases w.faults.head?.join <;> rfl

@[simp] theorem World.deletePorts_activeSwitchId (w : World) (id : SwitchId) :
    (w.deletePorts id).2.activeSwitchId = w.activeSwitchId := by
  unfold World.deletePorts World.issue
  cases w.faults.head?.join <;> rfl

@[simp] theorem World.deletePorts_isLoading (w : World) (id : SwitchId) :
    (w.deletePorts id).2.isLoading = w.isLoading := by
  unfold World.deletePorts World.issue
  cases w.faults.head?.join <;> rfl

@[simp] theorem World.deletePorts_faults (w : World) (id : SwitchId) :
    (w.deletePorts id).2.faults = w.faults.tail := by
  unfold World.deletePorts World.issue
  cases w.faults.head?.join <;> rfl

@[simp] theorem World.deletePorts_log (w : World) (id : SwitchId) :
    (w.deletePorts id).2.log = w.log ++ [Event.call (Call.deletePorts id)] := by
  unfold World.deletePorts World.issue
  cases w.faults.head?.join <;> rfl

@[simp] theorem World.upsertPort_switches (w : World) (row : PortRow) :
    (w.upsertPort row).2.switches = w.switches := by
  unfold World.upsertPort World.issue
  cases w.faults.head?.join <;> rfl

@[simp] theorem World.upsertPort_activeSwitchId (w : World) (row : PortRow) :
    (w.upsertPort row).2.activeSwitchId = w.activeSwitchId := by
  unfold World.upsertPort World.issue
  cases w.faults.head?.join <;> rfl

@[simp] theorem World.upsertPort_isLoading (w : World) (row : PortRow) :
    (w.upsertPort row).2.isLoading = w.isLoading := by
  unfold World.upsertPort World.issue
  cases w.faults.head?.join <;> rfl

@[simp] theorem World.upsertPort_faults (w : World) (row : PortRow) :
    (w.upsertPort row).2.faults = w.faults.tail := by
  unfold World.upsertPort World.issue
  cases w.faults.head?.join <;> rfl

@[simp] theorem World.upsertPort_log (w : World) (row : PortRow) :
    (w.upsertPort row).2.log = w.log ++ [Event.call (Call.upsertPort row)] := by
  unfold World.upsertPort World.issue
  cases w.faults.head?.join <;> rfl

end SwitchMap

/-! ## Results of the gateway calls -/

namespace SwitchMap

theorem World.selectSwitches_fst (w : World) :
    w.selectSwitches.1 =
      match w.faults.head?.join with
      | some e => .error e
      | none => .ok w.store.switches := by
  unfold World.selectSwitches World.issue
  cases w.faults.head?.join <;> rfl

theorem World.selectPorts_fst (w : World) (id : SwitchId) :
    (w.selectPorts id).1 =
      match w.faults.head?.join with
      | some e => .error e
      | none => .ok (w.store.selectPorts id) := by
  unfold World.selectPorts World.issue
  cases w.faults.head?.join <;> rfl

theorem World.insertSwitch_fst (w : World) (name : String) :
    (w.insertSwitch name).1 =
      match w.faults.head?.join with
      | some e => .error e
      | none => .ok { id := w.store.freshId, name := name } := by
  unfold World.insertSwitch World.issue
  cases w.faults.head?.join <;> rfl

theorem World.insertSwitch_store (w : World) (name : String) :
    (w.insertSwitch name).2.store =
      match w.faults.head?.join with
      | some _ => w.store
      | none => (w.store.insertSwitch name).2 := by
  unfold World.insertSwitch World.issue
  cases w.faults.head?.join <;> rfl

theorem World.insertPorts_fst (w : World) (rows : List PortRow) :
    (w.insertPorts rows).1 =
      match w.faults.head?.join with
      | some e => some e
      | none => if ((w.store.ports ++ rows).map PortRow.key).Nodup then none
                else some duplicateKeyMessage := by
  unfold World.insertPorts World.issue Store.insertPorts
  cases w.faults.head?.join with
  | some e => rfl
  | none => dsimp only; split_ifs <;> rfl

theorem World.insertPorts_store (w : World) (rows : List PortRow) :
    (w.insertPorts rows).2.store =
      if (w.insertPorts rows).1 = none then { w.store with ports := w.store.ports ++ rows }
      else w.store := by
  unfold World.insertPorts World.issue Store.insertPorts
  cases w.faults.head?.join with
  | some e => rfl
  | none => dsimp only; split_ifs <;> simp_all

theorem World.updateSwitchName_fst (w : World) (id : SwitchId) (name : String) :
    (w.updateSwitchName id name).1 = w.faults.head?.join := by
  unfold World.updateSwitchName World.issue
  cases w.faults.head?.join <;> rfl

theorem World.updateSwitchName_store (w : World) (id : SwitchId) (name : String) :
    (w.updateSwitchName id name).2.store =
      if w.faults.head?.join = none then w.store.updateSwitchName id name else w.store := by
  unfold World.updateSwitchName World.issue
  cases w.faults.head?.join <;> simp

theorem World.deleteSwitchRow_fst (w : World) (id : SwitchId) :
    (w.deleteSwitchRow id).1 = w.faults.head?.join := by
  unfold World.deleteSwitchRow World.issue
  cases w.faults.head?.join <;> rfl

theorem World.deleteSwitchRow_store (w : World) (id : SwitchId) :
    (w.deleteSwitchRow id).2.store =
      if w.faults.head?.join = none then w.store.deleteSwitchRow id else w.store := by
  unfold World.deleteSwitchRow World.issue
  cases w.faults.head?.join <;> simp

theorem World.deletePorts_fst (w : World) (id : SwitchId) :
    (w.deletePorts id).1 = w.faults.head?.join := by
  unfold World.deletePorts World.issue
  cases w.faults.head?.join <;> rfl

theorem World.deletePorts_store (w : World) (id : SwitchId) :
    (w.deletePorts id).2.store =
      if w.faults.head?.join = none then w.store.deletePorts id else w.store := by
  unfold World.deletePorts World.issue
  cases w.faults.head?.join <;> simp

theorem World.upsertPort_fst (w : World) (row : PortRow) :
    (w.upsertPort row).1 = w.faults.head?.join := by
  unfold World.upsertPort World.issue
  cases w.faults.head?.join <;> rfl

theorem World.upsertPort_store (w : World) (row : PortRow) :
    (w.upsertPort row).2.store =
      if w.faults.head?.join = none then w.store.upsertPort row else w.store := by
  unfold World.upsertPort World.issue
  cases w.faults.head?.join <;> simp

/-! ## Reload -/

theorem fetchAllPorts_frame (rows : List SwitchRow) (w : World) :
    (fetchAllPorts rows w).2.switches = w.switches ∧
    (fetchAllPorts rows w).2.activeSwitchId = w.activeSwitchId ∧
    (fetchAllPorts rows w).2.isLoading = w.isLoading ∧
    (fetchAllPorts rows w).2.store = w.store ∧
    (fetchAllPorts rows w).2.faults = w.faults.drop rows.length ∧
    (fetchAllPorts rows w).2.log =
      w.log ++ rows.map (fun s => Event.call (Call.selectPorts s.id)) := by
  induction rows generalizing w with
  | nil => simp [fetchAllPorts]
  | cons s rest ih =>
    obtain ⟨h1, h2, h3, h4, h5, h6⟩ := ih (w.selectPorts s.id).2
    simp only [fetchAllPorts]
    refine ⟨?_, ?_, ?_, ?_, ?_, ?_⟩
    · rw [h1]; simp
    · rw [h2]; simp
    · rw [h3]; simp
    · rw [h4]; simp
    · rw [h5]; simp
    · rw [h6]; simp

@[simp] theorem fetchAllPorts_switches (rows : List SwitchRow) (w : World) :
    (fetchAllPorts rows w).2.switches = w.switches := (fetchAllPorts_frame rows w).1

@[simp] theorem fetchAllPorts_activeSwitchId (rows : List SwitchRow) (w : World) :
    (fetchAllPorts rows w).2.activeSwitchId = w.activeSwitchId := (fetchAllPorts_frame rows w).2.1

@[simp] theorem fetchAllPorts_isLoading (rows : List SwitchRow) (w : World) :
    (fetchAllPorts rows w).2.isLoading = w.isLoading := (fetchAllPorts_frame rows w).2.2.1

@[simp] theorem fetchAllPorts_store (rows : List SwitchRow) (w : World) :
    (fetchAllPorts rows w).2.store = w.store := (fetchAllPorts_frame rows w).2.2.2.1

@[simp] theorem fetchAllPorts_faults (rows : List SwitchRow) (w : World) :
    (fetchAllPorts rows w).2.faults = w.faults.drop rows.length :=
  (fetchAllPorts_frame rows w).2.2.2.2.1

@[simp] theorem fetchAllPorts_log (rows : List SwitchRow) (w : World) :
    (fetchAllPorts rows w).2.log =
      w.log ++ rows.map (fun s => Event.call (Call.selectPorts s.id)) :=
  (fetchAllPorts_frame rows w).2.2.2.2.2

/-- Switches read for a list of switch rows when no ports query fails. -/
theorem fetchAllPorts_ok (rows : List SwitchRow) (w : World) (l : List Switch)
    (h : (fetchAllPorts rows w).1 = .ok l) :
    l = rows.map (fun r =>
      { id := r.id, name := r.name, ports := (w.store.selectPorts r.id).map formatPort }) := by
  induction rows generalizing w l with
  | nil => simp [fetchAllPorts] at h; simp [h]
  | cons s rest ih =>
    simp only [fetchAllPorts] at h
    have hs := World.selectPorts_fst w s.id
    have hst : (w.selectPorts s.id).2.store = w.store := by simp
    cases hr : (w.selectPorts s.id).1 with
    | error e => rw [hr] at h; simp at h
    | ok portsData =>
      rw [hr] at h
      cases hrs : (fetchAllPorts rest (w.selectPorts s.id).2).1 with
      | error e => rw [hrs] at h; simp at h
      | ok l2 =>
        rw [hrs] at h
        have := ih _ _ hrs
        rw [hst] at this
        simp only [Except.ok.injEq] at h
        rw [hr] at hs
        cases hf : w.faults.head?.join with
        | some e => rw [hf] at hs; simp at hs
        | none =>
          rw [hf] at hs
          simp only [Except.ok.injEq] at hs
          subst hs
          rw [← h, this]
          simp

end SwitchMap

namespace SwitchMap

theorem fetchAllPorts_error_iff (rows : List SwitchRow) (w : World) :
    (∃ e, (fetchAllPorts rows w).1 = .error e) ↔
      ∃ i e, i < rows.length ∧ w.faults[i]? = some (some e) := by
  induction rows generalizing w with
  | nil => simp [fetchAllPorts]
  | cons s rest ih =>
    have ih2 := ih (w.selectPorts s.id).2
    have hs := World.selectPorts_fst w s.id
    simp only [World.selectPorts_faults] at ih2
    simp only [fetchAllPorts]
    cases hw : w.faults with
    | nil =>
      rw [hw] at hs ih2
      simp at hs ih2
      rw [hs]
      constructor
      · rintro ⟨e, he⟩
        cases hrs : (fetchAllPorts rest (w.selectPorts s.id).2).1 with
        | error e2 => exact absurd hrs (ih2 e2)
        | ok l => rw [hrs] at he; simp at he
      · rintro ⟨i, e, _, h⟩
        simp at h
    | cons f fs =>
      rw [hw] at hs ih2
      simp only [List.head?_cons, List.tail_cons] at hs ih2
      cases f with
      | some e0 =>
        change (w.selectPorts s.id).1 = Except.error e0 at hs
        rw [hs]
        constructor
        · intro _
          exact ⟨0, e0, by simp, by simp⟩
        · intro _
          exact ⟨e0, rfl⟩
      | none =>
        change (w.selectPorts s.id).1 = Except.ok (w.store.selectPorts s.id) at hs
        rw [hs]
        constructor
        · rintro ⟨e, he⟩
          cases hrs : (fetchAllPorts rest (w.selectPorts s.id).2).1 with
          | error e2 =>
            obtain ⟨i, e3, hi, h3⟩ := ih2.mp ⟨e2, hrs⟩
            exact ⟨i + 1, e3, by simpa using hi, by simpa using h3⟩
          | ok l => rw [hrs] at he; simp at he
        · rintro ⟨i, e, hi, h⟩
          cases i with
          | zero => simp at h
          | succ j =>
            obtain ⟨e2, h2⟩ := ih2.mpr ⟨j, e, by simpa using hi, by simpa using h⟩
            exact ⟨e2, by rw [h2]⟩

end SwitchMap

namespace SwitchMap

theorem fetchSwitches_store (a : Option SwitchId) (w : World) :
    (fetchSwitches a w).store = w.store := by
  unfold fetchSwitches
  dsimp only
  rcases h1 : (w.setIsLoading true).selectSwitches with ⟨r, w2⟩
  have e2 : w2 = ((w.setIsLoading true).selectSwitches).2 := by rw [h1]
  cases r with
  | error e => simp [e2]
  | ok rows =>
    dsimp only
    rcases h3 : fetchAllPorts rows w2 with ⟨r3, w3⟩
    have e3 : w3 = (fetchAllPorts rows w2).2 := by rw [h3]
    cases r3 with
    | error e => simp [e3, e2]
    | ok l =>
      dsimp only
      split_ifs <;> simp [e3, e2]

theorem fetchSwitches_isLoading (a : Option SwitchId) (w : World) :
    (fetchSwitches a w).isLoading = false := by
  unfold fetchSwitches
  dsimp only
  rcases (w.setIsLoading true).selectSwitches with ⟨r, w2⟩
  cases r with
  | error e => simp
  | ok rows =>
    dsimp only
    rcases fetchAllPorts rows w2 with ⟨r3, w3⟩
    cases r3 with
    | error e => simp
    | ok l => simp

theorem fetchSwitches_log (a : Option SwitchId) (w : World) :
    ∃ l, (fetchSwitches a w).log = w.log ++ l ∧ ∀ c ∈ callsOf l, c.isRead = true := by
  unfold fetchSwitches
  dsimp only
  rcases h1 : (w.setIsLoading true).selectSwitches with ⟨r, w2⟩
  have e2 : w2 = ((w.setIsLoading true).selectSwitches).2 := by rw [h1]
  have hl2 : w2.log = w.log ++ [Event.setIsLoading true, Event.call Call.selectSwitches] := by
    rw [e2]; simp
  cases r with
  | error e =>
    refine ⟨[Event.setIsLoading true, Event.call Call.selectSwitches,
      Event.toast (fetchErrorToast e), Event.setIsLoading false], ?_, ?_⟩
    · simp [hl2]
    · simp [callsOf, Call.isRead]
  | ok rows =>
    dsimp only
    rcases h3 : fetchAllPorts rows w2 with ⟨r3, w3⟩
    have e3 : w3 = (fetchAllPorts rows w2).2 := by rw [h3]
    have hl3 : w3.log = w.log ++ ([Event.setIsLoading true, Event.call Call.selectSwitches] ++
        rows.map (fun s => Event.call (Call.selectPorts s.id))) := by
      rw [e3, fetchAllPorts_log, hl2]; simp
    have hreads : ∀ c ∈ callsOf ([Event.setIsLoading true, Event.call Call.selectSwitches] ++
        rows.map (fun s => Event.call (Call.selectPorts s.id))), c.isRead = true := by
      intro c hc
      simp only [callsOf, List.filterMap_append, List.mem_append, List.mem_filterMap,
        List.mem_map] at hc
      rcases hc with ⟨ev, hev, hc⟩ | ⟨ev, ⟨s, _, rfl⟩, hc⟩
      · simp at hev
        rcases hev with rfl | rfl
        · simp at hc
        · simp at hc; subst hc; rfl
      · simp at hc; subst hc; rfl
    cases r3 with
    | error e =>
      refine ⟨([Event.setIsLoading true, Event.call Call.selectSwitches] ++
        rows.map (fun s => Event.call (Call.selectPorts s.id))) ++
          [Event.toast (fetchErrorToast e), Event.setIsLoading false], ?_, ?_⟩
      · simp [hl3]
      · intro c hc
        rw [callsOf_append] at hc
        simp only [List.mem_append] at hc
        rcases hc with hc | hc
        · exact hreads c hc
        · simp [callsOf] at hc
    | ok l =>
      dsimp only
      split_ifs
      · refine ⟨([Event.setIsLoading true, Event.call Call.selectSwitches] ++
          rows.map (fun s => Event.call (Call.selectPorts s.id))) ++
            [Event.setSwitches l, Event.setActiveSwitchId (l.head?.map (·.id)),
              Event.setIsLoading false], ?_, ?_⟩
        · simp [hl3]
        · intro c hc
          rw [callsOf_append] at hc
          simp only [List.mem_append] at hc
          rcases hc with hc | hc
          · exact hreads c hc
          · simp [callsOf] at hc
      · refine ⟨([Event.setIsLoading true, Event.call Call.selectSwitches] ++
          rows.map (fun s => Event.call (Call.selectPorts s.id))) ++
            [Event.setSwitches l, Event.setActiveSwitchId none,
              Event.setIsLoading false], ?_, ?_⟩
        · simp [hl3]
        · intro c hc
          rw [callsOf_append] at hc
          simp only [List.mem_append] at hc
          rcases hc with hc | hc
          · exact hreads c hc
          · simp [callsOf] at hc
      · refine ⟨([Event.setIsLoading true, Event.call Call.selectSwitches] ++
          rows.map (fun s => Event.call (Call.selectPorts s.id))) ++
            [Event.setSwitches l, Event.setIsLoading false], ?_, ?_⟩
        · simp [hl3]
        · intro c hc
          rw [callsOf_append] at hc
          simp only [List.mem_append] at hc
          rcases hc with hc | hc
          · exact hreads c hc
          · simp [callsOf] at hc

end SwitchMap

namespace SwitchMap

theorem fetchFails_iff (w : World) :
    fetchFails w ↔
      (∃ e, w.faults.head?.join = some e) ∨
      (w.faults.head?.join = none ∧
        ∃ e, (fetchAllPorts w.store.switches ((w.setIsLoading true).selectSwitches).2).1 =
          .error e) := by
  rw [fetchAllPorts_error_iff]
  simp only [World.selectSwitches_faults, World.setIsLoading_faults]
  unfold fetchFails
  cases hw : w.faults with
  | nil => simp
  | cons f fs =>
    cases f with
    | some e0 =>
      constructor
      · intro _; left; exact ⟨e0, rfl⟩
      · intro _; exact ⟨0, e0, by simp, by simp⟩
    | none =>
      constructor
      · rintro ⟨i, e, hi, h⟩
        right
        refine ⟨rfl, ?_⟩
        cases i with
        | zero => simp at h
        | succ j => exact ⟨j, e, by omega, by simpa using h⟩
      · rintro (⟨e, he⟩ | ⟨_, j, e, hj, h⟩)
        · change (none : Option String) = some e at he
          cases he
        · exact ⟨j + 1, e, by omega, by simpa using h⟩

theorem fetchSwitches_of_fails (a : Option SwitchId) (w : World) (h : fetchFails w) :
    (fetchSwitches a w).switches = w.switches ∧
    (fetchSwitches a w).activeSwitchId = w.activeSwitchId ∧
    ∃ e, toastsOf (fetchSwitches a w).log = toastsOf w.log ++ [fetchErrorToast e] := by
  rw [fetchFails_iff] at h
  have hs := World.selectSwitches_fst (w.setIsLoading true)
  simp only [World.setIsLoading_faults, World.setIsLoading_store] at hs
  unfold fetchSwitches
  dsimp only
  rcases h1 : (w.setIsLoading true).selectSwitches with ⟨r, w2⟩
  have e2 : w2 = ((w.setIsLoading true).selectSwitches).2 := by rw [h1]
  have er : r = ((w.setIsLoading true).selectSwitches).1 := by rw [h1]
  rw [← er] at hs
  rcases h with ⟨e, he⟩ | ⟨hn, e, he⟩
  · rw [he] at hs
    subst hs
    refine ⟨?_, ?_, e, ?_⟩ <;> simp [e2, toastsOf]
  · rw [hn] at hs
    subst hs
    dsimp only
    rw [← e2] at he
    rcases h3 : fetchAllPorts w.store.switches w2 with ⟨r3, w3⟩
    have e3 : w3 = (fetchAllPorts w.store.switches w2).2 := by rw [h3]
    rw [h3] at he
    dsimp only at he
    subst he
    refine ⟨?_, ?_, e, ?_⟩ <;> simp [e3, e2, toastsOf]

theorem fetchSwitches_of_not_fails (a : Option SwitchId) (w : World) (h : ¬ fetchFails w) :
    (fetchSwitches a w).switches = w.store.load ∧
    (fetchSwitches a w).activeSwitchId =
      selectionAfterLoad w.store.load a w.activeSwitchId ∧
    toastsOf (fetchSwitches a w).log = toastsOf w.log := by
  rw [fetchFails_iff] at h
  push_neg at h
  obtain ⟨hA, hB⟩ := h
  have hn : w.faults.head?.join = none := by
    cases hj : w.faults.head?.join with
    | none => rfl
    | some e => exact absurd hj (hA e)
  have hB2 := hB hn
  have hs := World.selectSwitches_fst (w.setIsLoading true)
  simp only [World.setIsLoading_faults, World.setIsLoading_store] at hs
  rw [hn] at hs
  unfold fetchSwitches
  dsimp only
  rcases h1 : (w.setIsLoading true).selectSwitches with ⟨r, w2⟩
  have e2 : w2 = ((w.setIsLoading true).selectSwitches).2 := by rw [h1]
  have er : r = ((w.setIsLoading true).selectSwitches).1 := by rw [h1]
  rw [← er] at hs
  subst hs
  dsimp only
  rw [← e2] at hB2
  rcases h3 : fetchAllPorts w.store.switches w2 with ⟨r3, w3⟩
  have e3 : w3 = (fetchAllPorts w.store.switches w2).2 := by rw [h3]
  have e3r : (fetchAllPorts w.store.switches w2).1 = r3 := by rw [h3]
  cases r3 with
  | error e => exact absurd e3r (hB2 e)
  | ok l =>
    have hl := fetchAllPorts_ok _ _ _ e3r
    have hst : w2.store = w.store := by rw [e2]; simp
    rw [hst] at hl
    have hl2 : l = w.store.load := hl
    dsimp only
    unfold selectionAfterLoad
    rw [← hl2]
    split_ifs <;> simp [e3, e2, toastsOf]

end SwitchMap

/-! ## `addSwitch` -/

namespace SwitchMap

theorem addSwitch_invalid (w : World) (name : String) (N : Int)
    (h : isBlank name ∨ N ≤ 0) :
    addSwitch w name N = (none, w.toast addSwitchInvalidToast) := by
  unfold addSwitch
  rw [if_pos]
  rwa [jsTrim_eq_empty_iff]

theorem addSwitch_insert_error (w : World) (name : String) (N : Int) (e : String)
    (hname : ¬ isBlank name) (hN : 0 < N)
    (h : ((w.setIsLoading true).insertSwitch name).1 = .error e) :
    addSwitch w name N =
      (none, ((((w.setIsLoading true).insertSwitch name).2.toast
        (addSwitchErrorToast e)).setIsLoading false)) := by
  unfold addSwitch parseInt
  rw [if_neg (by rw [jsTrim_eq_empty_iff]; push_neg; exact ⟨hname, hN⟩)]
  dsimp only
  rcases h1 : (w.setIsLoading true).insertSwitch name with ⟨r, w2⟩
  rw [h1] at h
  dsimp only at h
  subst h
  rfl

theorem addSwitch_ports_error (w : World) (name : String) (N : Int) (row : SwitchRow)
    (e : String) (hname : ¬ isBlank name) (hN : 0 < N)
    (h : ((w.setIsLoading true).insertSwitch name).1 = .ok row)
    (hp : (((w.setIsLoading true).insertSwitch name).2.insertPorts
      (portsPayload row.id N)).1 = some e) :
    addSwitch w name N =
      (none, ((((((w.setIsLoading true).insertSwitch name).2.insertPorts
        (portsPayload row.id N)).2.deleteSwitchRow row.id).2.toast
          (addSwitchErrorToast e)).setIsLoading false)) := by
  unfold addSwitch parseInt
  rw [if_neg (by rw [jsTrim_eq_empty_iff]; push_neg; exact ⟨hname, hN⟩)]
  dsimp only
  rcases h1 : (w.setIsLoading true).insertSwitch name with ⟨r, w2⟩
  rw [h1] at h hp
  dsimp only at h hp
  subst h
  dsimp only
  rcases h2 : w2.insertPorts (portsPayload row.id N) with ⟨r3, w3⟩
  rw [h2] at hp
  dsimp only at hp
  subst hp
  rfl

theorem addSwitch_ok (w : World) (name : String) (N : Int) (row : SwitchRow)
    (hname : ¬ isBlank name) (hN : 0 < N)
    (h : ((w.setIsLoading true).insertSwitch name).1 = .ok row)
    (hp : (((w.setIsLoading true).insertSwitch name).2.insertPorts
      (portsPayload row.id N)).1 = none) :
    addSwitch w name N =
      (some row, ((((fetchSwitches w.activeSwitchId
        (((w.setIsLoading true).insertSwitch name).2.insertPorts
          (portsPayload row.id N)).2).setActiveSwitchId (some row.id)).toast
            { title := "Sucesso",
              description := "Switch \"" ++ name ++ "\" adicionado!",
              destructive := false }).setIsLoading false)) := by
  unfold addSwitch parseInt
  rw [if_neg (by rw [jsTrim_eq_empty_iff]; push_neg; exact ⟨hname, hN⟩)]
  dsimp only
  rcases h1 : (w.setIsLoading true).insertSwitch name with ⟨r, w2⟩
  rw [h1] at h hp
  dsimp only at h hp
  subst h
  dsimp only
  rcases h2 : w2.insertPorts (portsPayload row.id N) with ⟨r3, w3⟩
  rw [h2] at hp
  dsimp only at hp
  subst hp
  rfl

theorem portsPayload_length (id : SwitchId) (n : Int) :
    (portsPayload id n).length = n.toNat := by
  simp [portsPayload, arrayFrom]

theorem portsPayload_numbers (id : SwitchId) (n : Int) :
    (portsPayload id n).map (·.port_number) = List.range' 1 n.toNat := by
  simp only [portsPayload, arrayFrom, List.map_map]
  rw [List.range'_eq_map_range]
  apply List.map_congr_left
  intro j _
  simp [Nat.add_comm]

theorem portsPayload_mem (id : SwitchId) (n : Int) (r : PortRow) (h : r ∈ portsPayload id n) :
    r.switch_id = id ∧ r.noDevice := by
  simp only [portsPayload, arrayFrom, List.mem_map] at h
  obtain ⟨j, _, rfl⟩ := h
  simp [PortRow.noDevice]

end SwitchMap

namespace SwitchMap

theorem Store.lt_freshId (s : Store) (r : SwitchRow) (h : r ∈ s.switches) :
    r.id < s.freshId := by
  have key : ∀ (l : List Nat) (x : Nat), x ∈ l → x ≤ l.foldr max 0 := by
    intro l
    induction l with
    | nil => intro x hx; simp at hx
    | cons a t ih =>
      intro x hx
      simp only [List.foldr_cons]
      rcases List.mem_cons.mp hx with rfl | hx
      · exact le_max_left _ _
      · exact le_trans (ih x hx) (le_max_right _ _)
  unfold Store.freshId
  have : r.id ∈ s.switches.map (·.id) ++ s.ports.map (·.switch_id) := by
    simp only [List.mem_append, List.mem_map]
    exact Or.inl ⟨r, h, rfl⟩
  exact Nat.lt_succ_of_le (key _ _ this)

theorem addSwitch_valid_calls (w : World) (name : String) (N : Int)
    (hname : ¬ isBlank name) (hN : 0 < N) :
    ∃ rest, callsOf (addSwitch w name N).2.log =
      callsOf w.log ++ Call.insertSwitch name :: rest := by
  cases h : ((w.setIsLoading true).insertSwitch name).1 with
  | error e =>
    rw [addSwitch_insert_error w name N e hname hN h]
    exact ⟨[], by simp⟩
  | ok row =>
    cases hp : (((w.setIsLoading true).insertSwitch name).2.insertPorts
        (portsPayload row.id N)).1 with
    | some e =>
      rw [addSwitch_ports_error w name N row e hname hN h hp]
      exact ⟨_, by simp; rfl⟩
    | none =>
      rw [addSwitch_ok w name N row hname hN h hp]
      obtain ⟨l, hl, _⟩ := fetchSwitches_log w.activeSwitchId
        (((w.setIsLoading true).insertSwitch name).2.insertPorts
          (portsPayload row.id N)).2
      exact ⟨_, by simp [hl]; rfl⟩

/-- C1: for a positive port count `N` and a non-blank name, once the switch
insert has returned the new row, `addSwitch` sends as its next gateway call a
ports insert whose payload has exactly `N` records, numbered 1, 2, .., `N` in
that order, each carrying the new switch's id and no device field. -/
theorem addSwitch_builds_ports_payload (w : World) (name : String) (N : Int)
    (row : SwitchRow) (hname : ¬ isBlank name) (hN : 0 < N)
    (hins : ((w.setIsLoading true).insertSwitch name).1 = .ok row) :
    ∃ payload rest,
      callsOf (addSwitch w name N).2.log =
        callsOf w.log ++ Call.insertSwitch name :: Call.insertPorts payload :: rest ∧
      payload.length = N.toNat ∧
      payload.map (·.port_number) = List.range' 1 N.toNat ∧
      ∀ r ∈ payload, r.switch_id = row.id ∧ r.noDevice := by
  refine ⟨portsPayload row.id N, ?_⟩
  have hrest : ∃ rest, callsOf (addSwitch w name N).2.log =
      callsOf w.log ++ Call.insertSwitch name :: Call.insertPorts (portsPayload row.id N) ::
        rest := by
    cases hp : (((w.setIsLoading true).insertSwitch name).2.insertPorts
        (portsPayload row.id N)).1 with
    | some e =>
      rw [addSwitch_ports_error w name N row e hname hN hins hp]
      exact ⟨[Call.deleteSwitchRow row.id], by simp⟩
    | none =>
      rw [addSwitch_ok w name N row hname hN hins hp]
      obtain ⟨l, hl, _⟩ := fetchSwitches_log w.activeSwitchId
        (((w.setIsLoading true).insertSwitch name).2.insertPorts
          (portsPayload row.id N)).2
      exact ⟨callsOf l, by simp [hl]⟩
  obtain ⟨rest, hrest⟩ := hrest
  exact ⟨rest, hrest, portsPayload_length _ _, portsPayload_numbers _ _,
    fun r hr => portsPayload_mem _ _ r hr⟩

/-- Witness for C1: creating "Core" with 3 ports in the empty world. -/
theorem addSwitch_builds_ports_payload_witness :
    ∃ payload rest,
      callsOf (addSwitch emptyWorld "Core" 3).2.log =
        callsOf emptyWorld.log ++ Call.insertSwitch "Core" :: Call.insertPorts payload :: rest ∧
      payload.length = (3 : Int).toNat ∧
      payload.map (·.port_number) = List.range' 1 (3 : Int).toNat ∧
      ∀ r ∈ payload, r.switch_id = 1 ∧ r.noDevice :=
  addSwitch_builds_ports_payload emptyWorld "Core" 3 { id := 1, name := "Core" }
    (by decide) (by decide) (by rfl)

/-- C2: `addSwitch` rejects its input (returns `null`, issues no gateway call
and leaves `switches`, the active selection and the busy flag as they were)
exactly when the name is empty or white space only, or the port count is not
positive. -/
theorem addSwitch_rejects_iff (w : World) (name : String) (N : Int) :
    ((addSwitch w name N).1 = none ∧
      callsOf (addSwitch w name N).2.log = callsOf w.log ∧
      (addSwitch w name N).2.switches = w.switches ∧
      (addSwitch w name N).2.activeSwitchId = w.activeSwitchId ∧
      (addSwitch w name N).2.isLoading = w.isLoading) ↔
    (isBlank name ∨ N ≤ 0) := by
  constructor
  · rintro ⟨_, hcalls, _⟩
    by_contra hv
    push_neg at hv
    obtain ⟨rest, hrest⟩ := addSwitch_valid_calls w name N hv.1 hv.2
    rw [hrest] at hcalls
    simp at hcalls
  · intro h
    rw [addSwitch_invalid w name N h]
    simp

end SwitchMap

namespace SwitchMap

theorem Store.deleteSwitchRow_insertSwitch (s : Store) (name : String) :
    (s.insertSwitch name).2.deleteSwitchRow (s.insertSwitch name).1.id = s := by
  unfold Store.deleteSwitchRow Store.insertSwitch
  cases s with
  | mk sw ps =>
    simp only [Store.mk.injEq, and_true]
    rw [List.filter_append]
    have h1 : sw.filter (fun r => r.id != Store.freshId ⟨sw, ps⟩) = sw := by
      rw [List.filter_eq_self]
      intro r hr
      have := Store.lt_freshId ⟨sw, ps⟩ r hr
      simp only [bne_iff_ne, ne_eq]
      exact Nat.ne_of_lt this
    rw [h1]
    simp

/-- C3 (amended): when the switch insert succeeds and the ports insert returns
an error, `addSwitch` issues, after these two calls, exactly one more gateway
call, the delete of the switch just created (by its id); it returns `null`,
reports the error, and leaves the active selection and the in-memory list as
they were. When that compensating delete itself returns no error, the store is
back to what it was before the call, so it holds no record of the new switch. -/
theorem addSwitch_ports_error_rolls_back (w : World) (name : String) (N : Int)
    (row : SwitchRow) (e : String) (hname : ¬ isBlank name) (hN : 0 < N)
    (hins : ((w.setIsLoading true).insertSwitch name).1 = .ok row)
    (hports : (((w.setIsLoading true).insertSwitch name).2.insertPorts
      (portsPayload row.id N)).1 = some e) :
    (addSwitch w name N).1 = none ∧
    callsOf (addSwitch w name N).2.log =
      callsOf w.log ++ [Call.insertSwitch name, Call.insertPorts (portsPayload row.id N),
        Call.deleteSwitchRow row.id] ∧
    (addSwitch w name N).2.activeSwitchId = w.activeSwitchId ∧
    (addSwitch w name N).2.switches = w.switches ∧
    (addSwitch w name N).2.isLoading = false ∧
    toastsOf (addSwitch w name N).2.log = toastsOf w.log ++ [addSwitchErrorToast e] ∧
    (((((w.setIsLoading true).insertSwitch name).2.insertPorts
        (portsPayload row.id N)).2.deleteSwitchRow row.id).1 = none →
      (addSwitch w name N).2.store = w.store) := by
  rw [addSwitch_ports_error w name N row e hname hN hins hports]
  refine ⟨rfl, by simp, by simp, by simp, by simp, by simp, ?_⟩
  intro hdel
  rw [World.deleteSwitchRow_fst] at hdel
  simp only [World.setIsLoading_store, World.toast_store]
  rw [World.deleteSwitchRow_store, if_pos hdel, World.insertPorts_store, hports]
  simp only [reduceCtorEq, if_false]
  rw [World.insertSwitch_fst] at hins
  rw [World.insertSwitch_store]
  simp only [World.setIsLoading_faults, World.setIsLoading_store] at hins ⊢
  cases hf : w.faults.head?.join with
  | some e2 => rw [hf] at hins; simp at hins
  | none =>
    rw [hf] at hins
    simp only [Except.ok.injEq] at hins
    subst hins
    exact Store.deleteSwitchRow_insertSwitch w.store name

/-- Witness for C3: the ports insert fails and the compensating delete works. -/
theorem addSwitch_ports_error_rolls_back_witness :
    (addSwitch portsInsertFailsWorld "Core" 2).1 = none ∧
    callsOf (addSwitch portsInsertFailsWorld "Core" 2).2.log =
      callsOf portsInsertFailsWorld.log ++ [Call.insertSwitch "Core",
        Call.insertPorts (portsPayload 1 2), Call.deleteSwitchRow 1] ∧
    (addSwitch portsInsertFailsWorld "Core" 2).2.activeSwitchId =
      portsInsertFailsWorld.activeSwitchId ∧
    (addSwitch portsInsertFailsWorld "Core" 2).2.switches = portsInsertFailsWorld.switches ∧
    (addSwitch portsInsertFailsWorld "Core" 2).2.isLoading = false ∧
    toastsOf (addSwitch portsInsertFailsWorld "Core" 2).2.log =
      toastsOf portsInsertFailsWorld.log ++ [addSwitchErrorToast "ports insert failed"] ∧
    (((((portsInsertFailsWorld.setIsLoading true).insertSwitch "Core").2.insertPorts
        (portsPayload 1 2)).2.deleteSwitchRow 1).1 = none →
      (addSwitch portsInsertFailsWorld "Core" 2).2.store = portsInsertFailsWorld.store) :=
  addSwitch_ports_error_rolls_back portsInsertFailsWorld "Core" 2 { id := 1, name := "Core" }
    "ports insert failed" (by decide) (by decide) (by rfl) (by rfl)

/-- Counterexample to C3 as stated: the switch insert succeeds, the ports insert
returns an error and so does the compensating delete, whose result `addSwitch`
does not look at; the failed create leaves switch 1 in the store with no port. -/
theorem addSwitch_failed_rollback_keeps_switch :
    ((rollbackFailsWorld.setIsLoading true).insertSwitch "Core").1 =
      .ok { id := 1, name := "Core" } ∧
    (((rollbackFailsWorld.setIsLoading true).insertSwitch "Core").2.insertPorts
      (portsPayload 1 2)).1 = some "ports insert failed" ∧
    (addSwitch rollbackFailsWorld "Core" 2).1 = none ∧
    (addSwitch rollbackFailsWorld "Core" 2).2.store.switches = [{ id := 1, name := "Core" }] ∧
    (addSwitch rollbackFailsWorld "Core" 2).2.store.portsOf 1 = [] := by
  refine ⟨by rfl, by rfl, by rfl, by rfl, by rfl⟩

/-- C10: when the switches query or the ports query of a switch returns an
error, `fetchSwitches` leaves the in-memory list and the active selection as
they were, reports the error in a destructive toast carrying its message, and
ends with the busy flag false. -/
theorem fetchSwitches_error_keeps_state (a : Option SwitchId) (w : World)
    (h : fetchFails w) :
    (fetchSwitches a w).switches = w.switches ∧
    (fetchSwitches a w).activeSwitchId = w.activeSwitchId ∧
    (∃ e, toastsOf (fetchSwitches a w).log = toastsOf w.log ++ [fetchErrorToast e] ∧
      (fetchErrorToast e).destructive = true) ∧
    (fetchSwitches a w).isLoading = false := by
  obtain ⟨h1, h2, e, h3⟩ := fetchSwitches_of_fails a w h
  exact ⟨h1, h2, ⟨e, h3, rfl⟩, fetchSwitches_isLoading a w⟩

/-- Witness for C10: the ports query of the second stored switch fails. -/
theorem fetchSwitches_error_keeps_state_witness :
    fetchFails reloadFailsWorld ∧
    (fetchSwitches (some 1) reloadFailsWorld).switches = reloadFailsWorld.switches ∧
    (fetchSwitches (some 1) reloadFailsWorld).activeSwitchId =
      reloadFailsWorld.activeSwitchId ∧
    (∃ e, toastsOf (fetchSwitches (some 1) reloadFailsWorld).log =
        toastsOf reloadFailsWorld.log ++ [fetchErrorToast e] ∧
      (fetchErrorToast e).destructive = true) ∧
    (fetchSwitches (some 1) reloadFailsWorld).isLoading = false :=
  ⟨⟨2, "timeout", by decide, by rfl⟩,
    fetchSwitches_error_keeps_state (some 1) reloadFailsWorld ⟨2, "timeout", by decide, by rfl⟩⟩

end SwitchMap

/-! ## `editSwitch` -/

namespace SwitchMap

theorem editSwitch_invalid (w : World) (sw : Switch) (name : String) (M : Int)
    (h : isBlank name ∨ M ≤ 0) :
    editSwitch w (some sw) name M = (false, w.toast editSwitchInvalidToast) := by
  unfold editSwitch
  dsimp only
  rw [if_pos]
  rwa [jsTrim_eq_empty_iff]

theorem editSwitch_update_error (w : World) (sw : Switch) (name : String) (M : Int)
    (e : String) (hname : ¬ isBlank name) (hM : 0 < M)
    (hu : ((w.setIsLoading true).updateSwitchName sw.id name).1 = some e) :
    editSwitch w (some sw) name M =
      (false, ((((w.setIsLoading true).updateSwitchName sw.id name).2.toast
        (editSwitchErrorToast e)).setIsLoading false)) := by
  unfold editSwitch parseInt
  dsimp only
  rw [if_neg (by rw [jsTrim_eq_empty_iff]; push_neg; exact ⟨hname, hM⟩)]
  rcases h1 : (w.setIsLoading true).updateSwitchName sw.id name with ⟨r, w2⟩
  rw [h1] at hu
  dsimp only at hu
  subst hu
  rfl

theorem editSwitch_same_count (w : World) (sw : Switch) (name : String) (M : Int)
    (hname : ¬ isBlank name) (hM : 0 < M)
    (hu : ((w.setIsLoading true).updateSwitchName sw.id name).1 = none)
    (hc : M = sw.ports.length) :
    editSwitch w (some sw) name M =
      (true, (((fetchSwitches w.activeSwitchId
        ((w.setIsLoading true).updateSwitchName sw.id name).2).toast
          { title := "Sucesso",
            description := "Switch \"" ++ name ++ "\" atualizado!",
            destructive := false }).setIsLoading false)) := by
  unfold editSwitch parseInt
  dsimp only
  rw [if_neg (by rw [jsTrim_eq_empty_iff]; push_neg; exact ⟨hname, hM⟩)]
  rcases h1 : (w.setIsLoading true).updateSwitchName sw.id name with ⟨r, w2⟩
  rw [h1] at hu
  dsimp only at hu
  subst hu
  dsimp only
  rw [if_neg (by simp [hc])]

theorem editSwitch_resize_error (w : World) (sw : Switch) (name : String) (M : Int)
    (e : String) (hname : ¬ isBlank name) (hM : 0 < M)
    (hu : ((w.setIsLoading true).updateSwitchName sw.id name).1 = none)
    (hc : M ≠ sw.ports.length)
    (hp : ((((w.setIsLoading true).updateSwitchName sw.id name).2.deletePorts sw.id).2.insertPorts
      (portsPayload sw.id M)).1 = some e) :
    editSwitch w (some sw) name M =
      (false, ((((((w.setIsLoading true).updateSwitchName sw.id name).2.deletePorts
        sw.id).2.insertPorts (portsPayload sw.id M)).2.toast
          (editSwitchErrorToast e)).setIsLoading false)) := by
  unfold editSwitch parseInt
  dsimp only
  rw [if_neg (by rw [jsTrim_eq_empty_iff]; push_neg; exact ⟨hname, hM⟩)]
  rcases h1 : (w.setIsLoading true).updateSwitchName sw.id name with ⟨r, w2⟩
  rw [h1] at hu hp
  dsimp only at hu hp
  subst hu
  dsimp only
  rw [if_pos hc]
  rcases h2 : (w2.deletePorts sw.id).2.insertPorts (portsPayload sw.id M) with ⟨r3, w3⟩
  rw [h2] at hp
  dsimp only at hp
  subst hp
  rfl

theorem editSwitch_resize_ok (w : World) (sw : Switch) (name : String) (M : Int)
    (hname : ¬ isBlank name) (hM : 0 < M)
    (hu : ((w.setIsLoading true).updateSwitchName sw.id name).1 = none)
    (hc : M ≠ sw.ports.length)
    (hp : ((((w.setIsLoading true).updateSwitchName sw.id name).2.deletePorts sw.id).2.insertPorts
      (portsPayload sw.id M)).1 = none) :
    editSwitch w (some sw) name M =
      (true, (((fetchSwitches w.activeSwitchId
        ((((w.setIsLoading true).updateSwitchName sw.id name).2.deletePorts
          sw.id).2.insertPorts (portsPayload sw.id M)).2).toast
          { title := "Sucesso",
            description := "Switch \"" ++ name ++ "\" atualizado!",
            destructive := false }).setIsLoading false)) := by
  unfold editSwitch parseInt
  dsimp only
  rw [if_neg (by rw [jsTrim_eq_empty_iff]; push_neg; exact ⟨hname, hM⟩)]
  rcases h1 : (w.setIsLoading true).updateSwitchName sw.id name with ⟨r, w2⟩
  rw [h1] at hu hp
  dsimp only at hu hp
  subst hu
  dsimp only
  rw [if_pos hc]
  rcases h2 : (w2.deletePorts sw.id).2.insertPorts (portsPayload sw.id M) with ⟨r3, w3⟩
  rw [h2] at hp
  dsimp only at hp
  subst hp
  rfl

end SwitchMap

namespace SwitchMap

theorem portsPayload_sorted (id : SwitchId) (n : Int) :
    (portsPayload id n).Sorted (fun a b => a.port_number ≤ b.port_number) := by
  unfold List.Sorted
  have h := portsPayload_numbers id n
  have h2 : (List.range' 1 n.toNat).Pairwise (· ≤ ·) :=
    (List.pairwise_lt_range' 1 n.toNat).imp (fun h => Nat.le_of_lt h)
  rw [← h, List.pairwise_map] at h2
  exact h2

theorem portsPayload_formatPort (id : SwitchId) (n : Int) :
    (portsPayload id n).map formatPort =
      (List.range' 1 n.toNat).map (fun k => { number := k, device := none }) := by
  rw [← portsPayload_numbers, List.map_map]
  apply List.map_congr_left
  intro r hr
  have := (portsPayload_mem id n r hr).2
  simp [formatPort, this.1, jsTruthy]

theorem selectPorts_after_resize (ps : List PortRow) (sws : List SwitchRow) (id : SwitchId)
    (n : Int) :
    Store.selectPorts
      { switches := sws, ports := ps.filter (fun r => r.switch_id != id) ++ portsPayload id n }
      id = portsPayload id n := by
  unfold Store.selectPorts
  dsimp only
  rw [List.filter_append, List.filter_filter]
  have h1 : ps.filter (fun r => (r.switch_id == id) && (r.switch_id != id)) = [] := by
    rw [List.filter_eq_nil_iff]
    intro r _
    cases h : r.switch_id == id <;> simp [h, bne]
  have h2 : (portsPayload id n).filter (fun r => r.switch_id == id) = portsPayload id n := by
    rw [List.filter_eq_self]
    intro r hr
    simp [(portsPayload_mem id n r hr).1]
  rw [h1, h2, List.nil_append]
  exact List.Sorted.insertionSort_eq (portsPayload_sorted id n)

end SwitchMap

namespace SwitchMap

theorem Store.load_ports (s : Store) (x : Switch) (h : x ∈ s.load) :
    x.ports = (s.selectPorts x.id).map formatPort := by
  unfold Store.load at h
  simp only [List.mem_map] at h
  obtain ⟨r, _, rfl⟩ := h
  rfl

/-- C4 (amended): for every switch, whatever its ports and devices, and every
positive `M` different from the number of ports the switch has in memory, an
`editSwitch` that returns `true` and whose ports delete returned no error
leaves the store with exactly the ports numbered 1..`M` for that switch, all
without device; and when the reload that follows meets no error, every
in-memory switch of that id has exactly these ports. -/
theorem editSwitch_resize_resets_ports (w : World) (sw : Switch) (name : String) (M : Int)
    (hname : ¬ isBlank name) (hM : 0 < M) (hdiff : M ≠ sw.ports.length)
    (hdel : (((w.setIsLoading true).updateSwitchName sw.id name).2.deletePorts sw.id).1 = none)
    (hok : (editSwitch w (some sw) name M).1 = true) :
    ((editSwitch w (some sw) name M).2.store.selectPorts sw.id).map formatPort =
      (List.range' 1 M.toNat).map (fun k => { number := k, device := none }) ∧
    (¬ fetchFails ((((w.setIsLoading true).updateSwitchName sw.id name).2.deletePorts
        sw.id).2.insertPorts (portsPayload sw.id M)).2 →
      ∀ x ∈ (editSwitch w (some sw) name M).2.switches, x.id = sw.id →
        x.ports = (List.range' 1 M.toNat).map (fun k => { number := k, device := none })) := by
  cases hu : ((w.setIsLoading true).updateSwitchName sw.id name).1 with
  | some e =>
    rw [editSwitch_update_error w sw name M e hname hM hu] at hok
    simp at hok
  | none =>
    cases hp : ((((w.setIsLoading true).updateSwitchName sw.id name).2.deletePorts
        sw.id).2.insertPorts (portsPayload sw.id M)).1 with
    | some e =>
      rw [editSwitch_resize_error w sw name M e hname hM hu hdiff hp] at hok
      simp at hok
    | none =>
      rw [editSwitch_resize_ok w sw name M hname hM hu hdiff hp]
      rw [World.deletePorts_fst] at hdel
      have hstore : (fetchSwitches w.activeSwitchId
          ((((w.setIsLoading true).updateSwitchName sw.id name).2.deletePorts
            sw.id).2.insertPorts (portsPayload sw.id M)).2).store =
          { switches := (w.store.updateSwitchName sw.id name).switches,
            ports := w.store.ports.filter (fun r => r.switch_id != sw.id) ++
              portsPayload sw.id M } := by
        rw [fetchSwitches_store, World.insertPorts_store, if_pos hp,
          World.deletePorts_store, if_pos hdel, World.updateSwitchName_store]
        rw [World.updateSwitchName_fst] at hu
        rw [if_pos hu]
        rfl
      have hsel : ((fetchSwitches w.activeSwitchId
          ((((w.setIsLoading true).updateSwitchName sw.id name).2.deletePorts
            sw.id).2.insertPorts (portsPayload sw.id M)).2).store.selectPorts sw.id).map
              formatPort =
          (List.range' 1 M.toNat).map (fun k => { number := k, device := none }) := by
        rw [hstore, selectPorts_after_resize, portsPayload_formatPort]
      simp only [World.setIsLoading_store, World.toast_store, World.setIsLoading_switches,
        World.toast_switches]
      refine ⟨hsel, ?_⟩
      intro hload x hx hid
      rw [(fetchSwitches_of_not_fails _ _ hload).1] at hx
      rw [Store.load_ports _ x hx, hid]
      rw [fetchSwitches_store] at hsel
      exact hsel

/-- Witness for C4: switch 1, holding a device on its single port, resized to
three ports. -/
theorem editSwitch_resize_resets_ports_witness :
    ((editSwitch deviceWorld (some coreSwitch) "Core" 3).2.store.selectPorts
        coreSwitch.id).map formatPort =
      (List.range' 1 (3 : Int).toNat).map (fun k => { number := k, device := none }) ∧
    (¬ fetchFails ((((deviceWorld.setIsLoading true).updateSwitchName coreSwitch.id
        "Core").2.deletePorts coreSwitch.id).2.insertPorts (portsPayload coreSwitch.id 3)).2 →
      ∀ x ∈ (editSwitch deviceWorld (some coreSwitch) "Core" 3).2.switches,
        x.id = coreSwitch.id →
          x.ports = (List.range' 1 (3 : Int).toNat).map
            (fun k => { number := k, device := none })) :=
  editSwitch_resize_resets_ports deviceWorld coreSwitch "Core" 3
    (by decide) (by decide) (by decide) (by rfl) (by rfl)

/-- Counterexample to C4 as stated: switch 1 has one port, holding a device;
`editSwitch` with port count 1 succeeds, and the port still holds the device,
in the store and in memory. -/
theorem editSwitch_same_count_keeps_devices :
    (editSwitch deviceWorld (some coreSwitch) "Core" 1).1 = true ∧
    ((editSwitch deviceWorld (some coreSwitch) "Core" 1).2.store.selectPorts 1).map
      formatPort = [{ number := 1, device := some pcDevice }] ∧
    (editSwitch deviceWorld (some coreSwitch) "Core" 1).2.switches = [coreSwitch] := by
  refine ⟨by rfl, by rfl, by rfl⟩

/-- C5 (amended): `editSwitch` with valid input always issues the name update
first. When that update returns an error, no other call is issued. When it
returns no error, the switch's ports are deleted and a fresh set numbered
1..`M` is inserted if and only if `M` differs from the number of ports the
switch has in memory; when the counts are equal only reads follow the update and
the port rows of the store are unchanged. -/
theorem editSwitch_resizes_iff_count_differs (w : World) (sw : Switch) (name : String)
    (M : Int) (hname : ¬ isBlank name) (hM : 0 < M) :
    ∃ issued,
      callsOf (editSwitch w (some sw) name M).2.log =
        callsOf w.log ++ Call.updateSwitchName sw.id name :: issued ∧
      (((w.setIsLoading true).updateSwitchName sw.id name).1 ≠ none → issued = []) ∧
      (((w.setIsLoading true).updateSwitchName sw.id name).1 = none →
        ((Call.deletePorts sw.id ∈ issued ∧ Call.insertPorts (portsPayload sw.id M) ∈ issued) ↔
          M ≠ sw.ports.length)) ∧
      (portsPayload sw.id M).map (·.port_number) = List.range' 1 M.toNat ∧
      (M = sw.ports.length →
        (∀ c ∈ issued, c.isRead = true) ∧
        (editSwitch w (some sw) name M).2.store.ports = w.store.ports) := by
  cases hu : ((w.setIsLoading true).updateSwitchName sw.id name).1 with
  | some e =>
    rw [editSwitch_update_error w sw name M e hname hM hu]
    refine ⟨[], by simp, fun _ => rfl, fun h => by simp at h, portsPayload_numbers _ _, ?_⟩
    intro _
    refine ⟨by simp, ?_⟩
    simp only [World.setIsLoading_store, World.toast_store]
    rw [World.updateSwitchName_store]
    rw [World.updateSwitchName_fst] at hu
    simp only [World.setIsLoading_faults, World.setIsLoading_store] at hu ⊢
    split_ifs <;> rfl
  | none =>
    by_cases hc : M = sw.ports.length
    · rw [editSwitch_same_count w sw name M hname hM hu hc]
      obtain ⟨l, hl, hreads⟩ := fetchSwitches_log w.activeSwitchId
        ((w.setIsLoading true).updateSwitchName sw.id name).2
      refine ⟨callsOf l, by simp [hl], fun h => absurd rfl h, fun _ => ?_,
        portsPayload_numbers _ _, fun _ => ⟨hreads, ?_⟩⟩
      · constructor
        · rintro ⟨h1, _⟩
          have := hreads _ h1
          simp [Call.isRead] at this
        · intro h; exact absurd hc h
      · simp only [World.setIsLoading_store, World.toast_store, fetchSwitches_store]
        rw [World.updateSwitchName_store]
        split_ifs <;> rfl
    · cases hp : ((((w.setIsLoading true).updateSwitchName sw.id name).2.deletePorts
          sw.id).2.insertPorts (portsPayload sw.id M)).1 with
      | some e =>
        rw [editSwitch_resize_error w sw name M e hname hM hu hc hp]
        refine ⟨[Call.deletePorts sw.id, Call.insertPorts (portsPayload sw.id M)],
          by simp, fun h => absurd rfl h, fun _ => ?_, portsPayload_numbers _ _,
          fun h => absurd h hc⟩
        simp [hc]
      | none =>
        rw [editSwitch_resize_ok w sw name M hname hM hu hc hp]
        obtain ⟨l, hl, _⟩ := fetchSwitches_log w.activeSwitchId
          ((((w.setIsLoading true).updateSwitchName sw.id name).2.deletePorts
            sw.id).2.insertPorts (portsPayload sw.id M)).2
        refine ⟨Call.deletePorts sw.id :: Call.insertPorts (portsPayload sw.id M) :: callsOf l,
          by simp [hl], fun h => absurd rfl h, fun _ => ?_, portsPayload_numbers _ _,
          fun h => absurd h hc⟩
        simp [hc]

/-- Witness for C5: switch 1 of one port, renamed and resized to three ports. -/
theorem editSwitch_resizes_iff_count_differs_witness :
    ∃ issued,
      callsOf (editSwitch deviceWorld (some coreSwitch) "Core 2" 3).2.log =
        callsOf deviceWorld.log ++ Call.updateSwitchName coreSwitch.id "Core 2" :: issued ∧
      (((deviceWorld.setIsLoading true).updateSwitchName coreSwitch.id "Core 2").1 ≠ none →
        issued = []) ∧
      (((deviceWorld.setIsLoading true).updateSwitchName coreSwitch.id "Core 2").1 = none →
        ((Call.deletePorts coreSwitch.id ∈ issued ∧
            Call.insertPorts (portsPayload coreSwitch.id 3) ∈ issued) ↔
          (3 : Int) ≠ coreSwitch.ports.length)) ∧
      (portsPayload coreSwitch.id 3).map (·.port_number) = List.range' 1 (3 : Int).toNat ∧
      ((3 : Int) = coreSwitch.ports.length →
        (∀ c ∈ issued, c.isRead = true) ∧
        (editSwitch deviceWorld (some coreSwitch) "Core 2" 3).2.store.ports =
          deviceWorld.store.ports) :=
  editSwitch_resizes_iff_count_differs deviceWorld coreSwitch "Core 2" 3 (by decide) (by decide)

/-- Counterexample to C5 as stated: the requested count 3 differs from the
current count 1, yet the name update fails and neither the ports delete nor the
ports insert is issued. -/
theorem editSwitch_update_error_skips_resize :
    (3 : Int) ≠ coreSwitch.ports.length ∧
    callsOf (editSwitch firstCallFailsWorld (some coreSwitch) "Core 2" 3).2.log =
      [Call.updateSwitchName 1 "Core 2"] := by
  refine ⟨by decide, by rfl⟩

end SwitchMap

/-! ## `addPortsToSwitch` -/

namespace SwitchMap

theorem addPortsToSwitch_not_found (w : World) (id : SwitchId) (k : Int)
    (h : w.switches.find? (fun s => s.id == id) = none) :
    addPortsToSwitch w id k = w := by
  unfold addPortsToSwitch
  rw [h]

theorem addPortsToSwitch_error (w : World) (id : SwitchId) (k : Int) (cur : Switch)
    (e : String) (h : w.switches.find? (fun s => s.id == id) = some cur)
    (hp : ((w.setIsLoading true).insertPorts (newPortsPayload id cur.ports.length k)).1 =
      some e) :
    addPortsToSwitch w id k =
      ((((w.setIsLoading true).insertPorts (newPortsPayload id cur.ports.length k)).2.toast
        (addPortsErrorToast e)).setIsLoading false) := by
  unfold addPortsToSwitch
  rw [h]
  dsimp only
  rcases h2 : (w.setIsLoading true).insertPorts (newPortsPayload id cur.ports.length k)
    with ⟨r, w2⟩
  rw [h2] at hp
  dsimp only at hp
  subst hp
  rfl

theorem addPortsToSwitch_ok (w : World) (id : SwitchId) (k : Int) (cur : Switch)
    (h : w.switches.find? (fun s => s.id == id) = some cur)
    (hp : ((w.setIsLoading true).insertPorts (newPortsPayload id cur.ports.length k)).1 =
      none) :
    addPortsToSwitch w id k =
      (((fetchSwitches w.activeSwitchId
        ((w.setIsLoading true).insertPorts (newPortsPayload id cur.ports.length k)).2).toast
          { title := "Sucesso",
            description := toString k ++ " portas adicionadas ao " ++ cur.name ++ "!",
            destructive := false }).setIsLoading false) := by
  unfold addPortsToSwitch
  rw [h]
  dsimp only
  rcases h2 : (w.setIsLoading true).insertPorts (newPortsPayload id cur.ports.length k)
    with ⟨r, w2⟩
  rw [h2] at hp
  dsimp only at hp
  subst hp
  rfl

theorem newPortsPayload_length (id : SwitchId) (L : Nat) (k : Int) :
    (newPortsPayload id L k).length = k.toNat := by
  simp [newPortsPayload, arrayFrom]

theorem newPortsPayload_numbers (id : SwitchId) (L : Nat) (k : Int) :
    (newPortsPayload id L k).map (·.port_number) = List.range' (L + 1) k.toNat := by
  simp only [newPortsPayload, arrayFrom, List.map_map]
  rw [List.range'_eq_map_range]
  apply List.map_congr_left
  intro j _
  simp only [Function.comp_apply]
  omega

theorem newPortsPayload_mem (id : SwitchId) (L : Nat) (k : Int) (r : PortRow)
    (h : r ∈ newPortsPayload id L k) : r.switch_id = id ∧ r.noDevice := by
  simp only [newPortsPayload, arrayFrom, List.mem_map] at h
  obtain ⟨j, _, rfl⟩ := h
  simp [PortRow.noDevice]

/-- C6 (amended): for every switch of the in-memory list, with `L` ports, and
every positive `k`, `addPortsToSwitch` issues one ports insert of exactly `k`
records numbered `L`+1, .., `L`+`k` (which is `P`+1, .., `P`+`k` whenever the
switch's ports are numbered 1..`P`), carrying the switch id and no device
field; every other call it issues is a read, and the port rows already in the
store are kept as they are, the new rows being appended when the insert is
accepted. -/
theorem addPortsToSwitch_appends (w : World) (id : SwitchId) (k : Int) (cur : Switch)
    (hfind : w.switches.find? (fun s => s.id == id) = some cur) (hk : 0 < k) :
    ∃ payload reads,
      callsOf (addPortsToSwitch w id k).log =
        callsOf w.log ++ Call.insertPorts payload :: reads ∧
      (∀ c ∈ reads, c.isRead = true) ∧
      payload.length = k.toNat ∧ 0 < payload.length ∧
      payload.map (·.port_number) = List.range' (cur.ports.length + 1) k.toNat ∧
      (∀ P, cur.ports.map (·.number) = List.range' 1 P →
        payload.map (·.port_number) = List.range' (P + 1) k.toNat) ∧
      (∀ r ∈ payload, r.switch_id = id ∧ r.noDevice) ∧
      ((addPortsToSwitch w id k).store.ports = w.store.ports ∨
        (addPortsToSwitch w id k).store.ports = w.store.ports ++ payload) ∧
      (addPortsToSwitch w id k).store.switches = w.store.switches := by
  refine ⟨newPortsPayload id cur.ports.length k, ?_⟩
  have hP : ∀ P, cur.ports.map (·.number) = List.range' 1 P →
      (newPortsPayload id cur.ports.length k).map (·.port_number) =
        List.range' (P + 1) k.toNat := by
    intro P h
    have hl : cur.ports.length = P := by
      have := congrArg List.length h
      simpa using this
    rw [newPortsPayload_numbers, hl]
  have hpos : 0 < (newPortsPayload id cur.ports.length k).length := by
    rw [newPortsPayload_length]
    omega
  cases hp : ((w.setIsLoading true).insertPorts (newPortsPayload id cur.ports.length k)).1 with
  | some e =>
    rw [addPortsToSwitch_error w id k cur e hfind hp]
    refine ⟨[], by simp, by simp, newPortsPayload_length _ _ _, hpos, newPortsPayload_numbers _ _ _,
      hP, fun r hr => newPortsPayload_mem _ _ _ r hr, Or.inl ?_, ?_⟩
    · simp only [World.setIsLoading_store, World.toast_store]
      rw [World.insertPorts_store, hp]
      simp
    · simp only [World.setIsLoading_store, World.toast_store]
      rw [World.insertPorts_store, hp]
      simp
  | none =>
    rw [addPortsToSwitch_ok w id k cur hfind hp]
    obtain ⟨l, hl, hreads⟩ := fetchSwitches_log w.activeSwitchId
      ((w.setIsLoading true).insertPorts (newPortsPayload id cur.ports.length k)).2
    refine ⟨callsOf l, by simp [hl], hreads, newPortsPayload_length _ _ _, hpos,
      newPortsPayload_numbers _ _ _, hP, fun r hr => newPortsPayload_mem _ _ _ r hr,
      Or.inr ?_, ?_⟩
    · simp only [World.setIsLoading_store, World.toast_store, fetchSwitches_store]
      rw [World.insertPorts_store, if_pos hp]
      simp
    · simp only [World.setIsLoading_store, World.toast_store, fetchSwitches_store]
      rw [World.insertPorts_store, if_pos hp]
      simp

/-- Witness for C6: eight ports added to switch 1, which has one port. -/
theorem addPortsToSwitch_appends_witness :
    ∃ payload reads,
      callsOf (addPortsToSwitch deviceWorld 1 8).log =
        callsOf deviceWorld.log ++ Call.insertPorts payload :: reads ∧
      (∀ c ∈ reads, c.isRead = true) ∧
      payload.length = (8 : Int).toNat ∧ 0 < payload.length ∧
      payload.map (·.port_number) = List.range' (coreSwitch.ports.length + 1) (8 : Int).toNat ∧
      (∀ P, coreSwitch.ports.map (·.number) = List.range' 1 P →
        payload.map (·.port_number) = List.range' (P + 1) (8 : Int).toNat) ∧
      (∀ r ∈ payload, r.switch_id = 1 ∧ r.noDevice) ∧
      ((addPortsToSwitch deviceWorld 1 8).store.ports = deviceWorld.store.ports ∨
        (addPortsToSwitch deviceWorld 1 8).store.ports = deviceWorld.store.ports ++ payload) ∧
      (addPortsToSwitch deviceWorld 1 8).store.switches = deviceWorld.store.switches :=
  addPortsToSwitch_appends deviceWorld 1 8 coreSwitch (by rfl) (by decide)

/-- Counterexample to C6 as stated: the largest port number of switch 1 is 5,
and the one port added is numbered 2 (number of ports plus one), not 6. -/
theorem addPortsToSwitch_numbers_from_count :
    gapWorld.switches.find? (fun s => s.id == 1) = some gapSwitch ∧
    gapSwitch.ports.map (·.number) = [5] ∧
    callsOf (addPortsToSwitch gapWorld 1 1).log =
      [Call.insertPorts [freePortRow 1 2], Call.selectSwitches, Call.selectPorts 1] ∧
    (addPortsToSwitch gapWorld 1 1).store.ports = [freePortRow 1 5, freePortRow 1 2] := by
  refine ⟨by rfl, by rfl, by rfl, by rfl⟩

end SwitchMap

/-! ## `updateSwitchData` -/

namespace SwitchMap

theorem upsertAll_frame (id : SwitchId) (ports : List Port) (w : World) :
    (upsertAll id ports w).2.switches = w.switches ∧
    (upsertAll id ports w).2.activeSwitchId = w.activeSwitchId ∧
    (upsertAll id ports w).2.isLoading = w.isLoading ∧
    (upsertAll id ports w).2.faults = w.faults.drop ports.length ∧
    (upsertAll id ports w).2.log =
      w.log ++ ports.map (fun p => Event.call (Call.upsertPort (upsertRow id p))) := by
  induction ports generalizing w with
  | nil => simp [upsertAll]
  | cons p rest ih =>
    obtain ⟨h1, h2, h3, h4, h5⟩ := ih (w.upsertPort (upsertRow id p)).2
    simp only [upsertAll]
    refine ⟨?_, ?_, ?_, ?_, ?_⟩
    · rw [h1]; simp
    · rw [h2]; simp
    · rw [h3]; simp
    · rw [h4]; simp
    · rw [h5]; simp

@[simp] theorem upsertAll_switches (id : SwitchId) (ports : List Port) (w : World) :
    (upsertAll id ports w).2.switches = w.switches := (upsertAll_frame id ports w).1

@[simp] theorem upsertAll_activeSwitchId (id : SwitchId) (ports : List Port) (w : World) :
    (upsertAll id ports w).2.activeSwitchId = w.activeSwitchId :=
  (upsertAll_frame id ports w).2.1

@[simp] theorem upsertAll_isLoading (id : SwitchId) (ports : List Port) (w : World) :
    (upsertAll id ports w).2.isLoading = w.isLoading := (upsertAll_frame id ports w).2.2.1

@[simp] theorem upsertAll_faults (id : SwitchId) (ports : List Port) (w : World) :
    (upsertAll id ports w).2.faults = w.faults.drop ports.length :=
  (upsertAll_frame id ports w).2.2.2.1

@[simp] theorem upsertAll_log (id : SwitchId) (ports : List Port) (w : World) :
    (upsertAll id ports w).2.log =
      w.log ++ ports.map (fun p => Event.call (Call.upsertPort (upsertRow id p))) :=
  (upsertAll_frame id ports w).2.2.2.2

theorem updateSwitchData_update_error (w : World) (id : SwitchId) (data : Switch) (e : String)
    (hu : ((w.setIsLoading true).updateSwitchName id data.name).1 = some e) :
    updateSwitchData w id data =
      ((((w.setIsLoading true).updateSwitchName id data.name).2.toast
        (updateErrorToast e)).setIsLoading false) := by
  unfold updateSwitchData
  dsimp only
  rcases h1 : (w.setIsLoading true).updateSwitchName id data.name with ⟨r, w2⟩
  rw [h1] at hu
  dsimp only at hu
  subst hu
  rfl

theorem updateSwitchData_upsert_error (w : World) (id : SwitchId) (data : Switch) (e : String)
    (hu : ((w.setIsLoading true).updateSwitchName id data.name).1 = none)
    (hp : (upsertAll id data.ports
      ((w.setIsLoading true).updateSwitchName id data.name).2).1 = some e) :
    updateSwitchData w id data =
      (((upsertAll id data.ports
        ((w.setIsLoading true).updateSwitchName id data.name).2).2.toast
          (updateErrorToast e)).setIsLoading false) := by
  unfold updateSwitchData
  dsimp only
  rcases h1 : (w.setIsLoading true).updateSwitchName id data.name with ⟨r, w2⟩
  rw [h1] at hu hp
  dsimp only at hu hp
  subst hu
  dsimp only
  rcases h2 : upsertAll id data.ports w2 with ⟨r3, w3⟩
  rw [h2] at hp
  dsimp only at hp
  subst hp
  rfl

theorem updateSwitchData_ok (w : World) (id : SwitchId) (data : Switch)
    (hu : ((w.setIsLoading true).updateSwitchName id data.name).1 = none)
    (hp : (upsertAll id data.ports
      ((w.setIsLoading true).updateSwitchName id data.name).2).1 = none) :
    updateSwitchData w id data =
      (((fetchSwitches w.activeSwitchId (upsertAll id data.ports
        ((w.setIsLoading true).updateSwitchName id data.name).2).2).toast
          { title := "Sucesso!",
            description := "Switch \"" ++ data.name ++ "\" atualizado.",
            destructive := false }).setIsLoading false) := by
  unfold updateSwitchData
  dsimp only
  rcases h1 : (w.setIsLoading true).updateSwitchName id data.name with ⟨r, w2⟩
  rw [h1] at hu hp
  dsimp only at hu hp
  subst hu
  dsimp only
  rcases h2 : upsertAll id data.ports w2 with ⟨r3, w3⟩
  rw [h2] at hp
  dsimp only at hp
  subst hp
  rfl

/-! ## Uniqueness of port numbers -/

theorem Store.upsertPort_keys (s : Store) (row : PortRow)
    (h : s.ports.any (fun r => r.key == row.key) = true) :
    (s.upsertPort row).ports.map PortRow.key = s.ports.map PortRow.key := by
  unfold Store.upsertPort
  rw [if_pos h]
  dsimp only
  rw [List.map_map]
  apply List.map_congr_left
  intro r _
  simp only [Function.comp_apply]
  by_cases hk : r.key == row.key
  · rw [if_pos hk]
    exact (beq_iff_eq.mp hk).symm
  · rw [if_neg hk]

theorem Store.upsertPort_keeps_unique (s : Store) (row : PortRow) (h : s.portsUnique) :
    (s.upsertPort row).portsUnique := by
  unfold Store.portsUnique at *
  by_cases ha : s.ports.any (fun r => r.key == row.key) = true
  · rw [Store.upsertPort_keys s row ha]
    exact h
  · unfold Store.upsertPort
    rw [if_neg ha]
    dsimp only
    rw [List.map_append, List.nodup_append]
    refine ⟨h, by simp, ?_⟩
    intro k hk hk2
    simp only [List.map_cons, List.map_nil, List.mem_singleton] at hk2
    subst hk2
    apply ha
    simp only [List.mem_map] at hk
    obtain ⟨r, hr, hrk⟩ := hk
    rw [List.any_eq_true]
    exact ⟨r, hr, by simp [hrk]⟩

theorem Store.deletePorts_keeps_unique (s : Store) (id : SwitchId) (h : s.portsUnique) :
    (s.deletePorts id).portsUnique := by
  unfold Store.portsUnique Store.deletePorts at *
  exact h.sublist ((List.filter_sublist _).map _)

theorem World.insertSwitch_unique (w : World) (name : String) (h : w.store.portsUnique) :
    (w.insertSwitch name).2.store.portsUnique := by
  rw [World.insertSwitch_store]
  split
  · exact h
  · exact h

theorem World.insertPorts_unique (w : World) (rows : List PortRow) (h : w.store.portsUnique) :
    (w.insertPorts rows).2.store.portsUnique := by
  rw [World.insertPorts_store]
  split_ifs with hn
  · rw [World.insertPorts_fst] at hn
    cases hf : w.faults.head?.join with
    | some e => rw [hf] at hn; simp at hn
    | none =>
      rw [hf] at hn
      dsimp only at hn
      by_cases hd : ((w.store.ports ++ rows).map PortRow.key).Nodup
      · exact hd
      · rw [if_neg hd] at hn; simp at hn
  · exact h

theorem World.updateSwitchName_unique (w : World) (id : SwitchId) (name : String)
    (h : w.store.portsUnique) : (w.updateSwitchName id name).2.store.portsUnique := by
  rw [World.updateSwitchName_store]
  split_ifs
  · exact h
  · exact h

theorem World.deleteSwitchRow_unique (w : World) (id : SwitchId) (h : w.store.portsUnique) :
    (w.deleteSwitchRow id).2.store.portsUnique := by
  rw [World.deleteSwitchRow_store]
  split_ifs
  · exact h
  · exact h

theorem World.deletePorts_unique (w : World) (id : SwitchId) (h : w.store.portsUnique) :
    (w.deletePorts id).2.store.portsUnique := by
  rw [World.deletePorts_store]
  split_ifs
  · exact Store.deletePorts_keeps_unique _ _ h
  · exact h

theorem World.upsertPort_unique (w : World) (row : PortRow) (h : w.store.portsUnique) :
    (w.upsertPort row).2.store.portsUnique := by
  rw [World.upsertPort_store]
  split_ifs
  · exact Store.upsertPort_keeps_unique _ _ h
  · exact h

theorem upsertAll_unique (id : SwitchId) (ports : List Port) (w : World)
    (h : w.store.portsUnique) : (upsertAll id ports w).2.store.portsUnique := by
  induction ports generalizing w with
  | nil => exact h
  | cons p rest ih =>
    simp only [upsertAll]
    exact ih _ (World.upsertPort_unique w _ h)

end SwitchMap

namespace SwitchMap

theorem formatPort_number (l : List PortRow) :
    (l.map formatPort).map (·.number) = l.map (·.port_number) := by
  rw [List.map_map]
  rfl

theorem Store.selectPorts_numbers_nodup (s : Store) (id : SwitchId) (h : s.portsUnique) :
    ((s.selectPorts id).map (·.port_number)).Nodup := by
  unfold Store.selectPorts
  have hperm := List.perm_insertionSort (fun a b : PortRow => a.port_number ≤ b.port_number)
    (s.ports.filter (fun r => r.switch_id == id))
  rw [(hperm.map _).nodup_iff]
  have h1 : ((s.ports.filter (fun r => r.switch_id == id)).map PortRow.key).Nodup :=
    h.sublist ((List.filter_sublist _).map _)
  have h2 : (s.ports.filter (fun r => r.switch_id == id)).map PortRow.key =
      ((s.ports.filter (fun r => r.switch_id == id)).map (·.port_number)).map
        (fun n => (id, n)) := by
    rw [List.map_map]
    apply List.map_congr_left
    intro r hr
    have := (List.mem_filter.mp hr).2
    simp only [beq_iff_eq] at this
    simp [PortRow.key, this]
  rw [h2] at h1
  exact h1.of_map _

theorem Store.load_unique (s : Store) (h : s.portsUnique) :
    ∀ x ∈ s.load, (x.ports.map (·.number)).Nodup := by
  intro x hx
  rw [Store.load_ports s x hx, formatPort_number]
  exact Store.selectPorts_numbers_nodup s x.id h

theorem portNumbersUnique_fetchSwitches (a : Option SwitchId) (w : World)
    (h : portNumbersUnique w) : portNumbersUnique (fetchSwitches a w) := by
  unfold portNumbersUnique at *
  rw [fetchSwitches_store]
  refine ⟨h.1, ?_⟩
  by_cases hf : fetchFails w
  · rw [(fetchSwitches_of_fails a w hf).1]
    exact h.2
  · rw [(fetchSwitches_of_not_fails a w hf).1]
    exact Store.load_unique w.store h.1

/-- A world with the same in-memory list and a store that still meets the
uniqueness constraint keeps port numbers unique. -/
theorem portNumbersUnique_of (w w2 : World) (h : portNumbersUnique w)
    (hs : w2.switches = w.switches) (hst : w2.store.portsUnique) : portNumbersUnique w2 := by
  unfold portNumbersUnique at *
  rw [hs]
  exact ⟨hst, h.2⟩

theorem portNumbersUnique_addSwitch (w : World) (name : String) (N : Int)
    (h : portNumbersUnique w) : portNumbersUnique (addSwitch w name N).2 := by
  by_cases hv : isBlank name ∨ N ≤ 0
  · rw [addSwitch_invalid w name N hv]
    exact portNumbersUnique_of w _ h rfl h.1
  · push_neg at hv
    have hst2 : ((w.setIsLoading true).insertSwitch name).2.store.portsUnique :=
      World.insertSwitch_unique _ _ h.1
    cases hi : ((w.setIsLoading true).insertSwitch name).1 with
    | error e =>
      rw [addSwitch_insert_error w name N e hv.1 hv.2 hi]
      exact portNumbersUnique_of w _ h (by simp) hst2
    | ok row =>
      have hst3 := World.insertPorts_unique ((w.setIsLoading true).insertSwitch name).2
        (portsPayload row.id N) hst2
      cases hp : (((w.setIsLoading true).insertSwitch name).2.insertPorts
          (portsPayload row.id N)).1 with
      | some e =>
        rw [addSwitch_ports_error w name N row e hv.1 hv.2 hi hp]
        exact portNumbersUnique_of w _ h (by simp) (World.deleteSwitchRow_unique _ _ hst3)
      | none =>
        rw [addSwitch_ok w name N row hv.1 hv.2 hi hp]
        have := portNumbersUnique_fetchSwitches w.activeSwitchId _
          (portNumbersUnique_of w (((w.setIsLoading true).insertSwitch name).2.insertPorts
            (portsPayload row.id N)).2 h (by simp) hst3)
        exact portNumbersUnique_of _ _ this (by simp) this.1

theorem portNumbersUnique_editSwitch (w : World) (sw : Option Switch) (name : String)
    (M : Int) (h : portNumbersUnique w) : portNumbersUnique (editSwitch w sw name M).2 := by
  cases sw with
  | none => exact portNumbersUnique_of w _ h rfl h.1
  | some sw =>
    by_cases hv : isBlank name ∨ M ≤ 0
    · rw [editSwitch_invalid w sw name M hv]
      exact portNumbersUnique_of w _ h rfl h.1
    · push_neg at hv
      have hst2 : ((w.setIsLoading true).updateSwitchName sw.id name).2.store.portsUnique :=
        World.updateSwitchName_unique _ _ _ h.1
      cases hu : ((w.setIsLoading true).updateSwitchName sw.id name).1 with
      | some e =>
        rw [editSwitch_update_error w sw name M e hv.1 hv.2 hu]
        exact portNumbersUnique_of w _ h (by simp) hst2
      | none =>
        by_cases hc : M = sw.ports.length
        · rw [editSwitch_same_count w sw name M hv.1 hv.2 hu hc]
          have := portNumbersUnique_fetchSwitches w.activeSwitchId _
            (portNumbersUnique_of w ((w.setIsLoading true).updateSwitchName sw.id name).2 h
              (by simp) hst2)
          exact portNumbersUnique_of _ _ this (by simp) this.1
        · have hst4 := World.insertPorts_unique
            (((w.setIsLoading true).updateSwitchName sw.id name).2.deletePorts sw.id).2
            (portsPayload sw.id M) (World.deletePorts_unique _ _ hst2)
          cases hp : ((((w.setIsLoading true).updateSwitchName sw.id name).2.deletePorts
              sw.id).2.insertPorts (portsPayload sw.id M)).1 with
          | some e =>
            rw [editSwitch_resize_error w sw name M e hv.1 hv.2 hu hc hp]
            exact portNumbersUnique_of w _ h (by simp) hst4
          | none =>
            rw [editSwitch_resize_ok w sw name M hv.1 hv.2 hu hc hp]
            have := portNumbersUnique_fetchSwitches w.activeSwitchId _
              (portNumbersUnique_of w
                ((((w.setIsLoading true).updateSwitchName sw.id name).2.deletePorts
                  sw.id).2.insertPorts (portsPayload sw.id M)).2 h (by simp) hst4)
            exact portNumbersUnique_of _ _ this (by simp) this.1

theorem portNumbersUnique_addPortsToSwitch (w : World) (id : SwitchId) (k : Int)
    (h : portNumbersUnique w) : portNumbersUnique (addPortsToSwitch w id k) := by
  cases hfind : w.switches.find? (fun s => s.id == id) with
  | none => rw [addPortsToSwitch_not_found w id k hfind]; exact h
  | some cur =>
    have hst2 := World.insertPorts_unique (w.setIsLoading true)
      (newPortsPayload id cur.ports.length k) h.1
    cases hp : ((w.setIsLoading true).insertPorts
        (newPortsPayload id cur.ports.length k)).1 with
    | some e =>
      rw [addPortsToSwitch_error w id k cur e hfind hp]
      exact portNumbersUnique_of w _ h (by simp) hst2
    | none =>
      rw [addPortsToSwitch_ok w id k cur hfind hp]
      have := portNumbersUnique_fetchSwitches w.activeSwitchId _
        (portNumbersUnique_of w ((w.setIsLoading true).insertPorts
          (newPortsPayload id cur.ports.length k)).2 h (by simp) hst2)
      exact portNumbersUnique_of _ _ this (by simp) this.1

theorem portNumbersUnique_updateSwitchData (w : World) (id : SwitchId) (data : Switch)
    (h : portNumbersUnique w) : portNumbersUnique (updateSwitchData w id data) := by
  have hst2 : ((w.setIsLoading true).updateSwitchName id data.name).2.store.portsUnique :=
    World.updateSwitchName_unique _ _ _ h.1
  cases hu : ((w.setIsLoading true).updateSwitchName id data.name).1 with
  | some e =>
    rw [updateSwitchData_update_error w id data e hu]
    exact portNumbersUnique_of w _ h (by simp) hst2
  | none =>
    have hst3 := upsertAll_unique id data.ports _ hst2
    cases hp : (upsertAll id data.ports
        ((w.setIsLoading true).updateSwitchName id data.name).2).1 with
    | some e =>
      rw [updateSwitchData_upsert_error w id data e hu hp]
      exact portNumbersUnique_of w _ h (by simp) hst3
    | none =>
      rw [updateSwitchData_ok w id data hu hp]
      have := portNumbersUnique_fetchSwitches w.activeSwitchId _
        (portNumbersUnique_of w (upsertAll id data.ports
          ((w.setIsLoading true).updateSwitchName id data.name).2).2 h (by simp) hst3)
      exact portNumbersUnique_of _ _ this (by simp) this.1

theorem handleSaveDevice_numbers (sd : Switch) (ports : List Port) (n : Nat) (d : Device) :
    (handleSaveDevice sd ports n d).2.ports.map (·.number) = ports.map (·.number) := by
  unfold handleSaveDevice
  dsimp only
  rw [List.map_map]
  apply List.map_congr_left
  intro p _
  simp only [Function.comp_apply]
  split_ifs <;> rfl

theorem handleRemoveDevice_numbers (sd : Switch) (ports : List Port) (n : Nat) :
    (handleRemoveDevice sd ports n).2.ports.map (·.number) = ports.map (·.number) := by
  unfold handleRemoveDevice
  dsimp only
  rw [List.map_map]
  apply List.map_congr_left
  intro p _
  simp only [Function.comp_apply]
  split_ifs <;> rfl

end SwitchMap

namespace SwitchMap

/-- C7: uniqueness of port numbers within a switch, in the store and in the
in-memory list, is preserved by `addSwitch`, `editSwitch`, `addPortsToSwitch`
and `updateSwitchData`; `handleSaveDevice` and `handleRemoveDevice` hand over a
port list with the same numbers, hence again pairwise distinct, and the
`updateSwitchData` they feed keeps the invariant. The payloads the operations
build have pairwise distinct numbers themselves. -/
theorem portNumbersUnique_invariant (w : World) (h : portNumbersUnique w) :
    (∀ name N, portNumbersUnique (addSwitch w name N).2) ∧
    (∀ sw name M, portNumbersUnique (editSwitch w sw name M).2) ∧
    (∀ id k, portNumbersUnique (addPortsToSwitch w id k)) ∧
    (∀ id data, portNumbersUnique (updateSwitchData w id data)) ∧
    (∀ sd ports n d, (ports.map (·.number)).Nodup →
      ((handleSaveDevice sd ports n d).2.ports.map (·.number)).Nodup ∧
      portNumbersUnique (updateSwitchData w (handleSaveDevice sd ports n d).1
        (handleSaveDevice sd ports n d).2)) ∧
    (∀ sd ports n, (ports.map (·.number)).Nodup →
      ((handleRemoveDevice sd ports n).2.ports.map (·.number)).Nodup ∧
      portNumbersUnique (updateSwitchData w (handleRemoveDevice sd ports n).1
        (handleRemoveDevice sd ports n).2)) ∧
    (∀ id N, ((portsPayload id N).map (·.port_number)).Nodup) ∧
    (∀ id L k, ((newPortsPayload id L k).map (·.port_number)).Nodup) := by
  refine ⟨fun name N => portNumbersUnique_addSwitch w name N h,
    fun sw name M => portNumbersUnique_editSwitch w sw name M h,
    fun id k => portNumbersUnique_addPortsToSwitch w id k h,
    fun id data => portNumbersUnique_updateSwitchData w id data h, ?_, ?_,
    fun id N => by rw [portsPayload_numbers]; exact List.nodup_range' 1 N.toNat,
    fun id L k => by rw [newPortsPayload_numbers]; exact List.nodup_range' (L + 1) k.toNat⟩
  · intro sd ports n d hn
    refine ⟨?_, portNumbersUnique_updateSwitchData w _ _ h⟩
    rw [handleSaveDevice_numbers]
    exact hn
  · intro sd ports n hn
    refine ⟨?_, portNumbersUnique_updateSwitchData w _ _ h⟩
    rw [handleRemoveDevice_numbers]
    exact hn

/-- Witness for C7: every operation run from `deviceWorld`. -/
theorem portNumbersUnique_invariant_witness :
    portNumbersUnique deviceWorld ∧
    portNumbersUnique (addSwitch deviceWorld "Edge" 2).2 ∧
    portNumbersUnique (editSwitch deviceWorld (some coreSwitch) "Core" 3).2 ∧
    portNumbersUnique (addPortsToSwitch deviceWorld 1 8) ∧
    portNumbersUnique (updateSwitchData deviceWorld 1 coreSwitch) ∧
    ((handleSaveDevice coreSwitch coreSwitch.ports 1 pcDevice).2.ports.map (·.number)).Nodup ∧
    ((handleRemoveDevice coreSwitch coreSwitch.ports 1).2.ports.map (·.number)).Nodup ∧
    ((portsPayload 1 3).map (·.port_number)).Nodup ∧
    ((newPortsPayload 1 1 8).map (·.port_number)).Nodup :=
  have h : portNumbersUnique deviceWorld := by decide
  have t := portNumbersUnique_invariant deviceWorld h
  ⟨h, t.1 "Edge" 2, t.2.1 (some coreSwitch) "Core" 3, t.2.2.1 1 8, t.2.2.2.1 1 coreSwitch,
    (t.2.2.2.2.1 coreSwitch coreSwitch.ports 1 pcDevice (by decide)).1,
    (t.2.2.2.2.2.1 coreSwitch coreSwitch.ports 1 (by decide)).1,
    t.2.2.2.2.2.2.1 1 3, t.2.2.2.2.2.2.2 1 1 8⟩

/-! ## `deleteSwitch` -/

theorem deleteSwitch_not_found (w : World) (confirmed : Bool) (id : SwitchId)
    (h : w.switches.find? (fun s => s.id == id) = none) :
    deleteSwitch w confirmed id = (false, w) := by
  unfold deleteSwitch
  rw [h]

theorem deleteSwitch_declined (w : World) (id : SwitchId) (sw : Switch)
    (h : w.switches.find? (fun s => s.id == id) = some sw) :
    deleteSwitch w false id = (false, w.confirm (deleteConfirmMessage sw.name)) := by
  unfold deleteSwitch
  rw [h]
  rfl

theorem deleteSwitch_error (w : World) (id : SwitchId) (sw : Switch) (e : String)
    (h : w.switches.find? (fun s => s.id == id) = some sw)
    (hd : (((((w.confirm (deleteConfirmMessage sw.name)).setIsLoading true).deletePorts
      id).2.deleteSwitchRow id).1) = some e) :
    deleteSwitch w true id =
      (false, ((((((w.confirm (deleteConfirmMessage sw.name)).setIsLoading true).deletePorts
        id).2.deleteSwitchRow id).2.toast (deleteSwitchErrorToast e)).setIsLoading false)) := by
  unfold deleteSwitch
  rw [h]
  dsimp only
  rw [if_neg (by simp)]
  rcases h2 : ((((w.confirm (deleteConfirmMessage sw.name)).setIsLoading true).deletePorts
      id).2.deleteSwitchRow id) with ⟨r, w3⟩
  rw [h2] at hd
  dsimp only at hd
  subst hd
  rfl

theorem deleteSwitch_ok (w : World) (id : SwitchId) (sw : Switch)
    (h : w.switches.find? (fun s => s.id == id) = some sw)
    (hd : (((((w.confirm (deleteConfirmMessage sw.name)).setIsLoading true).deletePorts
      id).2.deleteSwitchRow id).1) = none) :
    deleteSwitch w true id =
      (true, (((if w.activeSwitchId = some id then
          (fetchSwitches w.activeSwitchId
            ((((w.confirm (deleteConfirmMessage sw.name)).setIsLoading true).deletePorts
              id).2.deleteSwitchRow id).2).setActiveSwitchId
            (if w.switches.length > 1 then
              (w.switches.find? (fun s => s.id != id)).map (·.id)
             else none)
        else
          fetchSwitches w.activeSwitchId
            ((((w.confirm (deleteConfirmMessage sw.name)).setIsLoading true).deletePorts
              id).2.deleteSwitchRow id).2).toast
          { title := "Sucesso",
            description := "Switch \"" ++ sw.name ++ "\" removido!",
            destructive := false }).setIsLoading false)) := by
  unfold deleteSwitch
  rw [h]
  dsimp only
  rw [if_neg (by simp)]
  rcases h2 : ((((w.confirm (deleteConfirmMessage sw.name)).setIsLoading true).deletePorts
      id).2.deleteSwitchRow id) with ⟨r, w3⟩
  rw [h2] at hd
  dsimp only at hd
  subst hd
  rfl

end SwitchMap

namespace SwitchMap

theorem find?_eq_none_of_absent (l : List Switch) (id : SwitchId)
    (h : ∀ s ∈ l, s.id ≠ id) : l.find? (fun s => s.id == id) = none := by
  rw [List.find?_eq_none]
  intro s hs
  simpa using h s hs

/-- C9: when the user's confirmation is negative, or the id is not in the
in-memory list, `deleteSwitch` returns `false`, issues no gateway call and
leaves `switches`, the active selection, the busy flag and the store as they
were; whenever it issues a gateway call, the confirmation was affirmative and
the prompt was shown before anything else. -/
theorem deleteSwitch_needs_confirmation (w : World) (confirmed : Bool) (id : SwitchId) :
    ((confirmed = false ∨ ∀ s ∈ w.switches, s.id ≠ id) →
      (deleteSwitch w confirmed id).1 = false ∧
      callsOf (deleteSwitch w confirmed id).2.log = callsOf w.log ∧
      (deleteSwitch w confirmed id).2.switches = w.switches ∧
      (deleteSwitch w confirmed id).2.activeSwitchId = w.activeSwitchId ∧
      (deleteSwitch w confirmed id).2.isLoading = w.isLoading ∧
      (deleteSwitch w confirmed id).2.store = w.store) ∧
    (callsOf (deleteSwitch w confirmed id).2.log ≠ callsOf w.log →
      confirmed = true ∧
      ∃ sw rest, sw ∈ w.switches ∧ sw.id = id ∧
        (deleteSwitch w confirmed id).2.log =
          w.log ++ Event.confirm (deleteConfirmMessage sw.name) :: rest) := by
  have hneg : (confirmed = false ∨ ∀ s ∈ w.switches, s.id ≠ id) →
      (deleteSwitch w confirmed id).1 = false ∧
      callsOf (deleteSwitch w confirmed id).2.log = callsOf w.log ∧
      (deleteSwitch w confirmed id).2.switches = w.switches ∧
      (deleteSwitch w confirmed id).2.activeSwitchId = w.activeSwitchId ∧
      (deleteSwitch w confirmed id).2.isLoading = w.isLoading ∧
      (deleteSwitch w confirmed id).2.store = w.store := by
    intro h
    cases hfind : w.switches.find? (fun s => s.id == id) with
    | none =>
      rw [deleteSwitch_not_found w confirmed id hfind]
      exact ⟨rfl, rfl, rfl, rfl, rfl, rfl⟩
    | some sw =>
      rcases h with h | h
      · subst h
        rw [deleteSwitch_declined w id sw hfind]
        exact ⟨rfl, by simp, rfl, rfl, rfl, rfl⟩
      · rw [find?_eq_none_of_absent w.switches id h] at hfind
        cases hfind
  refine ⟨hneg, ?_⟩
  intro hcalls
  cases hc : confirmed with
  | false => exact absurd (hneg (Or.inl hc)).2.1 hcalls
  | true =>
    refine ⟨rfl, ?_⟩
    subst hc
    cases hfind : w.switches.find? (fun s => s.id == id) with
    | none =>
      rw [deleteSwitch_not_found w true id hfind] at hcalls
      exact absurd rfl hcalls
    | some sw =>
      have hmem := List.mem_of_find?_eq_some hfind
      have hid : sw.id = id := by
        have := List.find?_some hfind
        simpa using this
      refine ⟨sw, ?_⟩
      cases hd : (((((w.confirm (deleteConfirmMessage sw.name)).setIsLoading true).deletePorts
          id).2.deleteSwitchRow id).1) with
      | some e =>
        rw [deleteSwitch_error w id sw e hfind hd]
        exact ⟨_, hmem, hid, by simp; rfl⟩
      | none =>
        rw [deleteSwitch_ok w id sw hfind hd]
        obtain ⟨l, hl, _⟩ := fetchSwitches_log w.activeSwitchId
          ((((w.confirm (deleteConfirmMessage sw.name)).setIsLoading true).deletePorts
            id).2.deleteSwitchRow id).2
        split_ifs <;> exact ⟨_, hmem, hid, by simp [hl]; rfl⟩

/-- Witness for C9: the deletion of switch 1 is declined at the prompt. -/
theorem deleteSwitch_needs_confirmation_witness :
    (deleteSwitch twoSwitchWorld false 1).1 = false ∧
    callsOf (deleteSwitch twoSwitchWorld false 1).2.log = callsOf twoSwitchWorld.log ∧
    (deleteSwitch twoSwitchWorld false 1).2.switches = twoSwitchWorld.switches ∧
    (deleteSwitch twoSwitchWorld false 1).2.activeSwitchId = twoSwitchWorld.activeSwitchId ∧
    (deleteSwitch twoSwitchWorld false 1).2.isLoading = twoSwitchWorld.isLoading ∧
    (deleteSwitch twoSwitchWorld false 1).2.store = twoSwitchWorld.store :=
  (deleteSwitch_needs_confirmation twoSwitchWorld false 1).1 (Or.inl rfl)

end SwitchMap

namespace SwitchMap

theorem exists_other_of_nodup (l : List Switch) (id : SwitchId)
    (hlen : 1 < l.length) (hnd : (l.map (·.id)).Nodup) : ∃ s ∈ l, s.id ≠ id := by
  match l, hlen, hnd with
  | a :: b :: t, _, hnd =>
    simp only [List.map_cons, List.nodup_cons, List.mem_cons, not_or] at hnd
    by_cases ha : a.id = id
    · refine ⟨b, by simp, ?_⟩
      intro hb
      exact hnd.1.1 (ha.trans hb.symm)
    · exact ⟨a, by simp, ha⟩

theorem find?_other (l : List Switch) (id : SwitchId) (h : ∃ s ∈ l, s.id ≠ id) :
    ∃ s ∈ l, s.id ≠ id ∧ (l.find? (fun s => s.id != id)).map (·.id) = some s.id := by
  cases hf : l.find? (fun s => s.id != id) with
  | none =>
    rw [List.find?_eq_none] at hf
    obtain ⟨s, hs, hne⟩ := h
    exact absurd (by simpa using hne) (hf s hs)
  | some s =>
    have h1 := List.find?_some hf
    exact ⟨s, List.mem_of_find?_eq_some hf, by simpa using h1, rfl⟩

theorem Store.load_length (s : Store) : s.load.length = s.switches.length := by
  simp [Store.load]

/-- C8 (amended): for every world and every switch id found in the in-memory
list, a confirmed `deleteSwitch` that returns `true` issues the delete of the
switch's ports and then the delete of the switch record, followed by reads
only; afterwards the store holds no record of the switch and, when the ports
delete returned no error, none of its ports. If the id was the active
selection, the new selection is the id of another switch of the in-memory list
when that list had more than one switch (its ids being pairwise distinct), and
`null` when it had only one. If another switch was the active selection and the
store still holds a switch other than the deleted one, the selection is
unchanged. -/
theorem deleteSwitch_success (w : World) (id : SwitchId) (sw : Switch)
    (hfind : w.switches.find? (fun s => s.id == id) = some sw)
    (hok : (deleteSwitch w true id).1 = true) :
    (∃ reads, callsOf (deleteSwitch w true id).2.log =
        callsOf w.log ++ Call.deletePorts id :: Call.deleteSwitchRow id :: reads ∧
      ∀ c ∈ reads, c.isRead = true) ∧
    (∀ r ∈ (deleteSwitch w true id).2.store.switches, r.id ≠ id) ∧
    ((((w.confirm (deleteConfirmMessage sw.name)).setIsLoading true).deletePorts id).1 = none →
      ∀ r ∈ (deleteSwitch w true id).2.store.ports, r.switch_id ≠ id) ∧
    (w.activeSwitchId = some id → 1 < w.switches.length → (w.switches.map (·.id)).Nodup →
      ∃ s ∈ w.switches, s.id ≠ id ∧ (deleteSwitch w true id).2.activeSwitchId = some s.id) ∧
    (w.activeSwitchId = some id → w.switches.length ≤ 1 →
      (deleteSwitch w true id).2.activeSwitchId = none) ∧
    (∀ a, w.activeSwitchId = some a → a ≠ id → (∃ r ∈ w.store.switches, r.id ≠ id) →
      (deleteSwitch w true id).2.activeSwitchId = some a) := by
  cases hd : (((((w.confirm (deleteConfirmMessage sw.name)).setIsLoading true).deletePorts
      id).2.deleteSwitchRow id).1) with
  | some e =>
    rw [deleteSwitch_error w id sw e hfind hd] at hok
    simp at hok
  | none =>
    rw [deleteSwitch_ok w id sw hfind hd]
    obtain ⟨l, hl, hreads⟩ := fetchSwitches_log w.activeSwitchId
      ((((w.confirm (deleteConfirmMessage sw.name)).setIsLoading true).deletePorts
        id).2.deleteSwitchRow id).2
    have hd2 := hd
    rw [World.deleteSwitchRow_fst] at hd2
    have hstore : ((((w.confirm (deleteConfirmMessage sw.name)).setIsLoading true).deletePorts
        id).2.deleteSwitchRow id).2.store =
        ((((w.confirm (deleteConfirmMessage sw.name)).setIsLoading true).deletePorts
          id).2.store).deleteSwitchRow id := by
      rw [World.deleteSwitchRow_store, if_pos hd2]
    have hsw : ((((w.confirm (deleteConfirmMessage sw.name)).setIsLoading true).deletePorts
        id).2.deleteSwitchRow id).2.store.switches =
        w.store.switches.filter (fun r => r.id != id) := by
      rw [hstore, World.deletePorts_store]
      split_ifs <;> rfl
    refine ⟨⟨callsOf l, ?_, hreads⟩, ?_, ?_, ?_, ?_, ?_⟩
    · split_ifs <;> simp [hl]
    · intro r hr
      have hr2 : r ∈ w.store.switches.filter (fun r => r.id != id) := by
        rw [← hsw]
        split_ifs at hr <;> simpa [fetchSwitches_store] using hr
      simpa using (List.mem_filter.mp hr2).2
    · intro hdp r hr
      rw [World.deletePorts_fst] at hdp
      have hr2 : r ∈ w.store.ports.filter (fun r => r.switch_id != id) := by
        have hps : ((((w.confirm (deleteConfirmMessage sw.name)).setIsLoading true).deletePorts
            id).2.deleteSwitchRow id).2.store.ports =
            w.store.ports.filter (fun r => r.switch_id != id) := by
          rw [hstore, World.deletePorts_store, if_pos hdp]
          rfl
        rw [← hps]
        split_ifs at hr <;> simpa [fetchSwitches_store] using hr
      simpa using (List.mem_filter.mp hr2).2
    · intro hact hlen hnd
      obtain ⟨s, hs, hne, hfo⟩ := find?_other w.switches id
        (exists_other_of_nodup w.switches id hlen hnd)
      refine ⟨s, hs, hne, ?_⟩
      rw [if_pos hact]
      simp only [World.setIsLoading_activeSwitchId, World.toast_activeSwitchId,
        World.setActiveSwitchId_activeSwitchId]
      rw [if_pos hlen, hfo]
    · intro hact hlen
      rw [if_pos hact]
      simp only [World.setIsLoading_activeSwitchId, World.toast_activeSwitchId,
        World.setActiveSwitchId_activeSwitchId]
      rw [if_neg (by omega)]
    · intro a hact hne hex
      have hna : ¬ w.activeSwitchId = some id := by
        rw [hact]
        intro h
        exact hne (Option.some.inj h)
      rw [if_neg hna]
      simp only [World.setIsLoading_activeSwitchId, World.toast_activeSwitchId]
      by_cases hf : fetchFails ((((w.confirm (deleteConfirmMessage sw.name)).setIsLoading
          true).deletePorts id).2.deleteSwitchRow id).2
      · rw [(fetchSwitches_of_fails _ _ hf).2.1]
        simpa using hact
      · rw [(fetchSwitches_of_not_fails _ _ hf).2.1]
        unfold selectionAfterLoad
        have hlen : 0 < (((((w.confirm (deleteConfirmMessage sw.name)).setIsLoading
            true).deletePorts id).2.deleteSwitchRow id).2.store.load).length := by
          rw [Store.load_length, hsw]
          obtain ⟨r, hr, hrne⟩ := hex
          exact List.length_pos_of_mem (List.mem_filter.mpr ⟨hr, by simpa using hrne⟩)
        rw [if_neg (by rw [hact]; simp), if_neg (by omega)]
        simpa using hact

/-- Witness for C8: switch 1, the active one of two, is deleted. -/
theorem deleteSwitch_success_witness :
    (∃ reads, callsOf (deleteSwitch twoSwitchWorld true 1).2.log =
        callsOf twoSwitchWorld.log ++ Call.deletePorts 1 :: Call.deleteSwitchRow 1 :: reads ∧
      ∀ c ∈ reads, c.isRead = true) ∧
    (∀ r ∈ (deleteSwitch twoSwitchWorld true 1).2.store.switches, r.id ≠ 1) ∧
    ((((twoSwitchWorld.confirm (deleteConfirmMessage "Core")).setIsLoading true).deletePorts
        1).1 = none →
      ∀ r ∈ (deleteSwitch twoSwitchWorld true 1).2.store.ports, r.switch_id ≠ 1) ∧
    (twoSwitchWorld.activeSwitchId = some 1 → 1 < twoSwitchWorld.switches.length →
      (twoSwitchWorld.switches.map (·.id)).Nodup →
      ∃ s ∈ twoSwitchWorld.switches, s.id ≠ 1 ∧
        (deleteSwitch twoSwitchWorld true 1).2.activeSwitchId = some s.id) ∧
    (twoSwitchWorld.activeSwitchId = some 1 → twoSwitchWorld.switches.length ≤ 1 →
      (deleteSwitch twoSwitchWorld true 1).2.activeSwitchId = none) ∧
    (∀ a, twoSwitchWorld.activeSwitchId = some a → a ≠ 1 →
      (∃ r ∈ twoSwitchWorld.store.switches, r.id ≠ 1) →
      (deleteSwitch twoSwitchWorld true 1).2.activeSwitchId = some a) :=
  deleteSwitch_success twoSwitchWorld 1
    { id := 1, name := "Core", ports := [{ number := 1, device := none }] } (by rfl) (by rfl)

/-- Counterexample to C8 as stated: no switch is selected, so switch 1 is not
the active selection; its confirmed deletion succeeds and the reload selects
switch 2, so the selection is not left unchanged. -/
theorem deleteSwitch_changes_empty_selection :
    noSelectionWorld.activeSwitchId = none ∧
    (deleteSwitch noSelectionWorld true 1).1 = true ∧
    (deleteSwitch noSelectionWorld true 1).2.activeSwitchId = some 2 := by
  refine ⟨by rfl, by rfl, by rfl⟩

end SwitchMap

/-! ## Regular expressions of the device editor -/

namespace SwitchMap

theorem mem_charClass (cs : List Char) (x : List Char) :
    x ∈ (charClass cs).matches' ↔ ∃ c, x = [c] ∧ c ∈ cs := by
  induction cs with
  | nil => simp [charClass, Language.not_mem_zero]
  | cons a t ih =>
    have : charClass (a :: t) = RegularExpression.char a + charClass t := rfl
    rw [this, RegularExpression.matches'_add, Language.mem_add, ih,
      RegularExpression.matches'_char]
    constructor
    · rintro (h | ⟨c, rfl, hc⟩)
      · exact ⟨a, h, by simp⟩
      · exact ⟨c, rfl, by simp [hc]⟩
    · rintro ⟨c, rfl, hc⟩
      rcases List.mem_cons.mp hc with rfl | hc
      · left; rfl
      · right; exact ⟨c, rfl, hc⟩

theorem mem_charClass_mul (cs : List Char) (M : Language Char) (x : List Char) :
    x ∈ (charClass cs).matches' * M ↔ ∃ c rest, x = c :: rest ∧ c ∈ cs ∧ rest ∈ M := by
  rw [Language.mem_mul]
  constructor
  · rintro ⟨a, ha, b, hb, rfl⟩
    obtain ⟨c, rfl, hc⟩ := (mem_charClass cs a).mp ha
    exact ⟨c, b, rfl, hc, hb⟩
  · rintro ⟨c, rest, rfl, hc, hr⟩
    exact ⟨[c], (mem_charClass cs [c]).mpr ⟨c, rfl, hc⟩, rest, hr, rfl⟩

theorem mem_hexDigitChars (c : Char) : c ∈ hexDigitChars ↔ isHexDigit c = true := by
  constructor
  · have : ∀ c ∈ hexDigitChars, isHexDigit c = true := by decide
    exact this c
  · intro h
    have hc := Char.ofNat_toNat c
    simp only [isHexDigit, Bool.or_eq_true, Bool.and_eq_true, decide_eq_true_eq] at h
    have h2 : (48 ≤ c.toNat ∧ c.toNat ≤ 57) ∨ (65 ≤ c.toNat ∧ c.toNat ≤ 70) ∨
        (97 ≤ c.toNat ∧ c.toNat ≤ 102) := by
      rcases h with (h | h) | h
      · exact Or.inl h
      · exact Or.inr (Or.inl h)
      · exact Or.inr (Or.inr h)
    rw [← hc]
    generalize c.toNat = n at h2
    rcases h2 with ⟨h1, h2⟩ | ⟨h1, h2⟩ | ⟨h1, h2⟩ <;> interval_cases n <;> decide

theorem macRegex_matches (l : List Char) :
    l ∈ macRegex.matches' ↔ isSeparatedMac l = true := by
  unfold macRegex
  simp only [RegularExpression.matches'_mul, RegularExpression.matches'_pow, pow_succ, pow_zero,
    one_mul, mul_assoc]
  simp only [mem_charClass_mul, mem_charClass]
  constructor
  · rintro ⟨a1, _, rfl, h1, a2, _, rfl, h2, s1, _, rfl, hs1, b1, _, rfl, h3, b2, _, rfl, h4,
      s2, _, rfl, hs2, c1, _, rfl, h5, c2, _, rfl, h6, s3, _, rfl, hs3, d1, _, rfl, h7,
      d2, _, rfl, h8, s4, _, rfl, hs4, e1, _, rfl, h9, e2, _, rfl, h10, s5, _, rfl, hs5,
      f1, _, rfl, h11, f2, rfl, h12⟩
    rw [mem_hexDigitChars] at h1 h2 h3 h4 h5 h6 h7 h8 h9 h10 h11 h12
    simp only [List.mem_cons, List.mem_singleton, List.not_mem_nil, or_false] at hs1 hs2 hs3 hs4 hs5
    simp [isSeparatedMac, macParts, isMacSeparator, *]
  · intro h
    unfold isSeparatedMac at h
    split at h
    · rename_i digits seps hp
      unfold macParts at hp
      split at hp
      · simp only [Option.some.injEq, Prod.mk.injEq] at hp
        obtain ⟨rfl, rfl⟩ := hp
        simp only [List.all_cons, List.all_nil, Bool.and_true, Bool.and_eq_true] at h
        simp only [← mem_hexDigitChars] at h
        simp only [isMacSeparator, Bool.or_eq_true, beq_iff_eq] at h
        obtain ⟨⟨h1, h2, h3, h4, h5, h6, h7, h8, h9, h10, h11, h12⟩, s1, s2, s3, s4, s5⟩ := h
        exact ⟨_, _, rfl, h1, _, _, rfl, h2, _, _, rfl, by simpa using s1,
          _, _, rfl, h3, _, _, rfl, h4, _, _, rfl, by simpa using s2,
          _, _, rfl, h5, _, _, rfl, h6, _, _, rfl, by simpa using s3,
          _, _, rfl, h7, _, _, rfl, h8, _, _, rfl, by simpa using s4,
          _, _, rfl, h9, _, _, rfl, h10, _, _, rfl, by simpa using s5,
          _, _, rfl, h11, _, rfl, h12⟩
      · simp at hp
    · simp at h
theorem mem_char_mul (a : Char) (M : Language Char) (x : List Char) :
    x ∈ (RegularExpression.char a).matches' * M ↔ ∃ rest, x = a :: rest ∧ rest ∈ M := by
  rw [Language.mem_mul, RegularExpression.matches'_char]
  constructor
  · rintro ⟨u, hu, v, hv, rfl⟩
    rw [Set.mem_singleton_iff] at hu
    subst hu
    exact ⟨v, rfl, hv⟩
  · rintro ⟨rest, rfl, hr⟩
    exact ⟨[a], rfl, rest, hr, rfl⟩

theorem mem_chars_iff (cs : List Char) (lo hi : Nat)
    (h1 : ∀ c ∈ cs, lo ≤ c.toNat ∧ c.toNat ≤ hi)
    (h2 : ∀ n, lo ≤ n → n ≤ hi → Char.ofNat n ∈ cs) (c : Char) :
    c ∈ cs ↔ lo ≤ c.toNat ∧ c.toNat ≤ hi := by
  constructor
  · exact h1 c
  · rintro ⟨ha, hb⟩
    rw [← Char.ofNat_toNat c]
    exact h2 _ ha hb

theorem mem_digitChars (c : Char) : c ∈ digitChars ↔ 48 ≤ c.toNat ∧ c.toNat ≤ 57 :=
  mem_chars_iff _ 48 57 (by decide) (by intro n a b; interval_cases n <;> decide) c

theorem mem_chars01 (c : Char) : c ∈ ['0', '1'] ↔ 48 ≤ c.toNat ∧ c.toNat ≤ 49 :=
  mem_chars_iff _ 48 49 (by decide) (by intro n a b; interval_cases n <;> decide) c

theorem mem_chars04 (c : Char) : c ∈ ['0', '1', '2', '3', '4'] ↔ 48 ≤ c.toNat ∧ c.toNat ≤ 52 :=
  mem_chars_iff _ 48 52 (by decide) (by intro n a b; interval_cases n <;> decide) c

theorem mem_chars05 (c : Char) : c ∈ ['0', '1', '2', '3', '4', '5'] ↔ 48 ≤ c.toNat ∧ c.toNat ≤ 53 :=
  mem_chars_iff _ 48 53 (by decide) (by intro n a b; interval_cases n <;> decide) c

theorem char_eq_of_toNat (c : Char) (n : Nat) (h : c.toNat = n) : c = Char.ofNat n := by
  rw [← h, Char.ofNat_toNat]

theorem isDigit_iff (c : Char) : c.isDigit = true ↔ 48 ≤ c.toNat ∧ c.toNat ≤ 57 := by
  simp only [Char.isDigit, Bool.and_eq_true, decide_eq_true_eq]
  exact Iff.rfl

theorem ipOctet_matches (x : List Char) :
    x ∈ ipOctetRegex.matches' ↔ isOctet x = true := by
  unfold ipOctetRegex zeroOrOne
  simp only [RegularExpression.matches'_mul, RegularExpression.matches'_add,
    RegularExpression.matches'_epsilon, add_mul, mul_add, one_mul, mul_one, mul_assoc,
    Language.mem_add, mem_char_mul, mem_charClass_mul, mem_charClass, mem_digitChars,
    mem_chars01, mem_chars04, mem_chars05]
  have hv1 : ∀ a : Char, decimalValue [a] = a.toNat - 48 := by
    intro a; simp [decimalValue]
  have hv2 : ∀ a b : Char, decimalValue [a, b] = 10 * (a.toNat - 48) + (b.toNat - 48) := by
    intro a b; simp [decimalValue]
  have hv3 : ∀ a b c : Char, decimalValue [a, b, c] =
      10 * (10 * (a.toNat - 48) + (b.toNat - 48)) + (c.toNat - 48) := by
    intro a b c; simp [decimalValue]
  have h2 : ('2' : Char).toNat = 50 := by decide
  have h5 : ('5' : Char).toNat = 53 := by decide
  constructor
  · rintro ((⟨_, rfl, _, rfl, c, rfl, hc⟩ | ⟨_, rfl, c, _, rfl, hc, d, rfl, hd⟩) |
      (⟨c, rfl, hc⟩ | ⟨z, _, rfl, hz, c, rfl, hc⟩) |
      (⟨c, _, rfl, hc, d, rfl, hd⟩ | ⟨z, _, rfl, hz, c, _, rfl, hc, d, rfl, hd⟩))
    all_goals
      simp only [isOctet, List.length_cons, List.length_nil, List.all_cons, List.all_nil,
        Bool.and_true, Bool.and_eq_true, decide_eq_true_eq, isDigit_iff, hv1, hv2, hv3, h2, h5]
      omega
  · intro h
    match x, h with
    | [], h => simp [isOctet] at h
    | [a], h =>
      simp only [isOctet, List.length_cons, List.length_nil, List.all_cons, List.all_nil,
        Bool.and_true, Bool.and_eq_true, decide_eq_true_eq, isDigit_iff, hv1] at h
      exact Or.inr (Or.inl (Or.inl ⟨a, rfl, h.1.2⟩))
    | [a, b], h =>
      simp only [isOctet, List.length_cons, List.length_nil, List.all_cons, List.all_nil,
        Bool.and_true, Bool.and_eq_true, decide_eq_true_eq, isDigit_iff, hv2] at h
      exact Or.inr (Or.inr (Or.inl ⟨a, _, rfl, h.1.2.1, b, rfl, h.1.2.2⟩))
    | [a, b, c], h =>
      simp only [isOctet, List.length_cons, List.length_nil, List.all_cons, List.all_nil,
        Bool.and_true, Bool.and_eq_true, decide_eq_true_eq, isDigit_iff, hv3] at h
      obtain ⟨⟨_, ha, hb, hc⟩, hv⟩ := h
      by_cases h01 : a.toNat ≤ 49
      · exact Or.inr (Or.inr (Or.inr ⟨a, _, rfl, ⟨ha.1, h01⟩, b, _, rfl, hb, c, rfl, hc⟩))
      · have ha2 : a = '2' := char_eq_of_toNat a 50 (by omega)
        subst ha2
        by_cases h04 : b.toNat ≤ 52
        · exact Or.inl (Or.inr ⟨_, rfl, b, _, rfl, ⟨hb.1, h04⟩, c, rfl, hc⟩)
        · have hb5 : b = '5' := char_eq_of_toNat b 53 (by rw [h2] at hv; omega)
          subst hb5
          exact Or.inl (Or.inl ⟨_, rfl, _, rfl, c, rfl, ⟨hc.1, by rw [h2, h5] at hv; omega⟩⟩)
    | _ :: _ :: _ :: _ :: _, h =>
      simp [isOctet] at h

theorem ipRegex_matches (l : List Char) : l ∈ ipRegex.matches' ↔ isDottedQuad l := by
  unfold ipRegex isDottedQuad
  simp only [RegularExpression.matches'_mul, RegularExpression.matches'_pow, pow_succ, pow_zero,
    one_mul, mul_assoc]
  simp only [Language.mem_mul, RegularExpression.matches'_char, Set.mem_singleton_iff,
    ipOctet_matches]
  constructor
  · rintro ⟨a, ha, _, ⟨_, rfl, _, ⟨b, hb, _, ⟨_, rfl, _, ⟨c, hc, _, ⟨_, rfl, d, hd, rfl⟩, rfl⟩,
      rfl⟩, rfl⟩, rfl⟩, rfl⟩
    exact ⟨a, b, c, d, by simp, ha, hb, hc, hd⟩
  · rintro ⟨a, b, c, d, rfl, ha, hb, hc, hd⟩
    exact ⟨a, ha, _, ⟨_, rfl, _, ⟨b, hb, _, ⟨_, rfl, _, ⟨c, hc, _, ⟨_, rfl, d, hd, rfl⟩, rfl⟩,
      rfl⟩, rfl⟩, rfl⟩, by simp⟩
end SwitchMap

/-! ## `DeviceModal`: checks of `handleSave` -/

namespace SwitchMap

theorem macRegexTest_iff (s : String) :
    regexTest macRegex s = true ↔ isSeparatedMac s.data = true := by
  unfold regexTest
  rw [RegularExpression.rmatch_iff_matches']
  exact macRegex_matches s.data

theorem ipRegexTest_iff (s : String) : regexTest ipRegex s = true ↔ isDottedQuad s.data := by
  unfold regexTest
  rw [RegularExpression.rmatch_iff_matches']
  exact ipRegex_matches s.data

theorem isSeparatedMac_of_uniform (l : List Char) (h : isUniformMac l = true) :
    isSeparatedMac l = true := by
  unfold isUniformMac at h
  unfold isSeparatedMac
  split at h
  · rename_i digits separators hp
    simp only [Bool.and_eq_true, Bool.or_eq_true, List.all_eq_true, beq_iff_eq] at h ⊢
    refine ⟨h.1, ?_⟩
    intro c hc
    rcases h.2 with h2 | h2
    · simp [isMacSeparator, h2 c hc]
    · simp [isMacSeparator, h2 c hc]
  · simp at h

/-- C11 (amended): the MAC check of the device editor accepts a string if and
only if it consists of six groups of exactly two hexadecimal digits (either
case) separated by five separators each of which is `:` or `-`; in particular
every such string with one separator throughout is accepted,
"00:1B:44:11:3A:B7" is accepted and "00:1B:44:11:3A" (five groups) is
rejected. -/
theorem macCheck_accepts_iff (s : String) :
    (regexTest macRegex s = true ↔ isSeparatedMac s.data = true) ∧
    (isUniformMac s.data = true → regexTest macRegex s = true) ∧
    regexTest macRegex "00:1B:44:11:3A:B7" = true ∧
    regexTest macRegex "00:1B:44:11:3A" = false :=
  ⟨macRegexTest_iff s, fun h => (macRegexTest_iff s).mpr (isSeparatedMac_of_uniform _ h),
    by rfl, by rfl⟩

/-- Witness for C11: a MAC address written with hyphens only. -/
theorem macCheck_accepts_iff_witness :
    (regexTest macRegex "00-1b-44-11-3a-b7" = true ↔
      isSeparatedMac "00-1b-44-11-3a-b7".data = true) ∧
    (isUniformMac "00-1b-44-11-3a-b7".data = true →
      regexTest macRegex "00-1b-44-11-3a-b7" = true) ∧
    regexTest macRegex "00:1B:44:11:3A:B7" = true ∧
    regexTest macRegex "00:1B:44:11:3A" = false :=
  macCheck_accepts_iff "00-1b-44-11-3a-b7"

/-- Counterexample to C11 as stated: a string whose separators are not the same
throughout is accepted. -/
theorem macCheck_accepts_mixed_separators :
    regexTest macRegex "00:1B-44:11:3A:B7" = true ∧
    isUniformMac "00:1B-44:11:3A:B7".data = false := by
  refine ⟨by rfl, by rfl⟩

/-- C13: the IP check of the device editor accepts a string if and only if it
is four decimal octets separated by `.`, an octet being a numeral of one to
three digits of value 0 to 255; "192.168.1.100" is accepted, "192.168.1.999"
and "10.0.0" are rejected. -/
theorem ipCheck_accepts_iff (s : String) :
    (regexTest ipRegex s = true ↔ isDottedQuad s.data) ∧
    regexTest ipRegex "192.168.1.100" = true ∧
    regexTest ipRegex "192.168.1.999" = false ∧
    regexTest ipRegex "10.0.0" = false :=
  ⟨ipRegexTest_iff s, by rfl, by rfl, by rfl⟩

end SwitchMap

namespace SwitchMap

theorem handleSave_of_passes (port : Port) (d : DeviceData) (h : passesChecks d) :
    handleSave port d = [EditorEffect.onSave port.number d, EditorEffect.onClose] := by
  obtain ⟨h1, h2, h3, h4, h5⟩ := h
  unfold handleSave
  rw [if_neg (by simp [h1, h2, h3]), if_neg (by simp [h4]), if_neg (by simp [h5])]

theorem handleSave_of_fails (port : Port) (d : DeviceData) (h : ¬ passesChecks d) :
    ∃ t, handleSave port d = [EditorEffect.toast t] ∧ t.destructive = true := by
  unfold handleSave
  split_ifs with h1 h2 h3
  · exact ⟨_, rfl, rfl⟩
  · exact ⟨_, rfl, rfl⟩
  · exact ⟨_, rfl, rfl⟩
  · exfalso
    apply h
    simp only [not_or] at h1
    simp only [Bool.not_eq_true', Bool.not_eq_false] at h2 h3
    exact ⟨h1.1, h1.2.1, h1.2.2, h2, h3⟩

/-- C12 (code at the failing input): the editor is opened on a port whose
stored MAC address is in lower case; saving at once, or after editing the name
and the IP only, hands that lower case MAC address to `onSave`. -/
theorem editor_commits_stored_lowercase_mac (toUpperCase : String → String) :
    committed (editAndSave toUpperCase lowercaseMacPort []) =
      some (1, { name := "PC-01", mac := "00:1b:44:11:3a:b7", ip := "192.168.1.100",
                 type := "computer" }) ∧
    committed (editAndSave toUpperCase lowercaseMacPort
        [FieldEdit.name "PC-02", FieldEdit.ip "10.0.0.7"]) =
      some (1, { name := "PC-02", mac := "00:1b:44:11:3a:b7", ip := "10.0.0.7",
                 type := "computer" }) ∧
    hasLowercase "00:1b:44:11:3a:b7" = true := by
  refine ⟨by rfl, by rfl, by rfl⟩

/-- C14 (amended): the device editor rejects, with the required-fields toast
and without committing, every device whose name is empty, whatever its MAC and
IP are. -/
theorem handleSave_rejects_empty_name (port : Port) (d : DeviceData) (h : d.name = "") :
    handleSave port d = [EditorEffect.toast requiredFieldsToast] ∧
    committed (handleSave port d) = none := by
  have : handleSave port d = [EditorEffect.toast requiredFieldsToast] := by
    unfold handleSave
    rw [if_pos (Or.inl h)]
  rw [this]
  exact ⟨rfl, rfl⟩

/-- Witness for C14: an empty name with a valid MAC and IP. -/
theorem handleSave_rejects_empty_name_witness :
    handleSave freePort emptyNameDeviceData = [EditorEffect.toast requiredFieldsToast] ∧
    committed (handleSave freePort emptyNameDeviceData) = none :=
  handleSave_rejects_empty_name freePort emptyNameDeviceData rfl

/-- Counterexample to C14 as stated: a name made of three spaces, with a valid
MAC and IP, is committed. -/
theorem handleSave_commits_blank_name :
    isBlank blankNameDeviceData.name ∧
    committed (handleSave freePort blankNameDeviceData) = some (1, blankNameDeviceData) := by
  refine ⟨by decide, by rfl⟩

/-- C15: `handleSave` calls `onSave` if and only if name, MAC and IP are
non-empty, the MAC matches the MAC pattern and the IP matches the IP pattern;
it then hands over the port number and the form state and closes the editor;
when a check fails it shows one destructive toast, does not call `onSave` and
does not close the editor. -/
theorem handleSave_commits_iff (port : Port) (d : DeviceData) :
    ((∃ n d2, EditorEffect.onSave n d2 ∈ handleSave port d) ↔ passesChecks d) ∧
    (passesChecks d →
      handleSave port d = [EditorEffect.onSave port.number d, EditorEffect.onClose]) ∧
    (¬ passesChecks d →
      (∀ n d2, EditorEffect.onSave n d2 ∉ handleSave port d) ∧
      EditorEffect.onClose ∉ handleSave port d ∧
      ∃ t, handleSave port d = [EditorEffect.toast t] ∧ t.destructive = true) := by
  have hfail : ¬ passesChecks d →
      (∀ n d2, EditorEffect.onSave n d2 ∉ handleSave port d) ∧
      EditorEffect.onClose ∉ handleSave port d ∧
      ∃ t, handleSave port d = [EditorEffect.toast t] ∧ t.destructive = true := by
    intro h
    obtain ⟨t, ht, hd⟩ := handleSave_of_fails port d h
    rw [ht]
    exact ⟨fun n d2 => by simp, by simp, t, rfl, hd⟩
  refine ⟨⟨?_, ?_⟩, handleSave_of_passes port d, hfail⟩
  · rintro ⟨n, d2, hmem⟩
    by_contra h
    exact (hfail h).1 n d2 hmem
  · intro h
    rw [handleSave_of_passes port d h]
    exact ⟨port.number, d, by simp⟩

/-- Witness for C15: a device that passes every check, saved on a free port. -/
theorem handleSave_commits_iff_witness :
    passesChecks validDeviceData ∧
    handleSave freePort validDeviceData =
      [EditorEffect.onSave freePort.number validDeviceData, EditorEffect.onClose] :=
  ⟨by decide, (handleSave_commits_iff freePort validDeviceData).2.1 (by decide)⟩

/-! ## `SwitchDashboard`: device handlers -/

/-- C16: `handleSaveDevice` hands to `onUpdateSwitchData` the id of the switch
and the switch with its id and name unchanged and a port list of the same
length, with the same port numbers in the same order, in which every port
numbered `n` has device `d` and every other port is the original one. -/
theorem handleSaveDevice_replaces_target (sd : Switch) (ports : List Port) (n : Nat)
    (d : Device) :
    (handleSaveDevice sd ports n d).1 = sd.id ∧
    (handleSaveDevice sd ports n d).2.id = sd.id ∧
    (handleSaveDevice sd ports n d).2.name = sd.name ∧
    (handleSaveDevice sd ports n d).2.ports.length = ports.length ∧
    (handleSaveDevice sd ports n d).2.ports.map (·.number) = ports.map (·.number) ∧
    List.Forall₂
      (fun p q => q.number = p.number ∧ (p.number = n → q.device = some d) ∧
        (p.number ≠ n → q = p))
      ports (handleSaveDevice sd ports n d).2.ports := by
  refine ⟨rfl, rfl, rfl, by simp [handleSaveDevice], handleSaveDevice_numbers sd ports n d, ?_⟩
  unfold handleSaveDevice
  dsimp only
  rw [List.forall₂_map_right_iff, List.forall₂_same]
  intro p _
  by_cases hp : p.number = n
  · simp [hp]
  · simp [hp]

/-- Witness for C16: a device saved on port 2 of the filtering example. -/
theorem handleSaveDevice_replaces_target_witness :
    (handleSaveDevice coreSwitch receptionPorts 2 pcDevice).1 = coreSwitch.id ∧
    (handleSaveDevice coreSwitch receptionPorts 2 pcDevice).2.id = coreSwitch.id ∧
    (handleSaveDevice coreSwitch receptionPorts 2 pcDevice).2.name = coreSwitch.name ∧
    (handleSaveDevice coreSwitch receptionPorts 2 pcDevice).2.ports.length =
      receptionPorts.length ∧
    (handleSaveDevice coreSwitch receptionPorts 2 pcDevice).2.ports.map (·.number) =
      receptionPorts.map (·.number) ∧
    List.Forall₂
      (fun p q => q.number = p.number ∧ (p.number = 2 → q.device = some pcDevice) ∧
        (p.number ≠ 2 → q = p))
      receptionPorts (handleSaveDevice coreSwitch receptionPorts 2 pcDevice).2.ports :=
  handleSaveDevice_replaces_target coreSwitch receptionPorts 2 pcDevice

/-- C17: `handleRemoveDevice` hands to `onUpdateSwitchData` a port list of the
same length, with the same port numbers in the same order, so no port is
removed; every port numbered `n` has device `null` and every other port is the
original one; the id and the name of the switch are unchanged. -/
theorem handleRemoveDevice_clears_target (sd : Switch) (ports : List Port) (n : Nat) :
    (handleRemoveDevice sd ports n).1 = sd.id ∧
    (handleRemoveDevice sd ports n).2.id = sd.id ∧
    (handleRemoveDevice sd ports n).2.name = sd.name ∧
    (handleRemoveDevice sd ports n).2.ports.length = ports.length ∧
    (handleRemoveDevice sd ports n).2.ports.map (·.number) = ports.map (·.number) ∧
    List.Forall₂
      (fun p q => q.number = p.number ∧ (p.number = n → q.device = none) ∧
        (p.number ≠ n → q = p))
      ports (handleRemoveDevice sd ports n).2.ports := by
  refine ⟨rfl, rfl, rfl, by simp [handleRemoveDevice], handleRemoveDevice_numbers sd ports n, ?_⟩
  unfold handleRemoveDevice
  dsimp only
  rw [List.forall₂_map_right_iff, List.forall₂_same]
  intro p _
  by_cases hp : p.number = n
  · simp [hp]
  · simp [hp]

/-- Witness for C17: the device of port 2 of the filtering example is removed. -/
theorem handleRemoveDevice_clears_target_witness :
    (handleRemoveDevice coreSwitch receptionPorts 2).1 = coreSwitch.id ∧
    (handleRemoveDevice coreSwitch receptionPorts 2).2.id = coreSwitch.id ∧
    (handleRemoveDevice coreSwitch receptionPorts 2).2.name = coreSwitch.name ∧
    (handleRemoveDevice coreSwitch receptionPorts 2).2.ports.length = receptionPorts.length ∧
    (handleRemoveDevice coreSwitch receptionPorts 2).2.ports.map (·.number) =
      receptionPorts.map (·.number) ∧
    List.Forall₂
      (fun p q => q.number = p.number ∧ (p.number = 2 → q.device = none) ∧
        (p.number ≠ 2 → q = p))
      receptionPorts (handleRemoveDevice coreSwitch receptionPorts 2).2.ports :=
  handleRemoveDevice_clears_target coreSwitch receptionPorts 2

end SwitchMap

namespace SwitchMap

/-- Witness for C13: octets written with leading zeros. -/
theorem ipCheck_accepts_iff_witness :
    (regexTest ipRegex "01.00.007.255" = true ↔ isDottedQuad "01.00.007.255".data) ∧
    regexTest ipRegex "192.168.1.100" = true ∧
    regexTest ipRegex "192.168.1.999" = false ∧
    regexTest ipRegex "10.0.0" = false :=
  ipCheck_accepts_iff "01.00.007.255"

end SwitchMap

/-! ## `updateSwitchData`: upsert rows -/

namespace SwitchMap

theorem callsOf_map_call (l : List Call) : callsOf (l.map Event.call) = l := by
  induction l with
  | nil => rfl
  | cons c t ih => simp [ih]

theorem carriesField_orNull (v : Option String) : carriesField v (orNull v) := by
  unfold carriesField orNull
  constructor
  · intro h; rw [if_pos h]
  · intro h; rw [if_neg (by simp [h])]

/-- C18 (amended): when the name update returns no error, `updateSwitchData`
issues, right after it, exactly one upsert per port of the updated switch, in
list order, followed by reads only; the row of a port is keyed by the switch
id and the port number; for a port whose device is `null` the four device
columns are `null`, and for a port with a device each column carries the
device's field, an empty field being written as `null`. -/
theorem updateSwitchData_upserts_every_port (w : World) (id : SwitchId) (data : Switch)
    (hu : ((w.setIsLoading true).updateSwitchName id data.name).1 = none) :
    (∃ reads, callsOf (updateSwitchData w id data).log =
        callsOf w.log ++ Call.updateSwitchName id data.name ::
          (data.ports.map (fun p => Call.upsertPort (upsertRow id p)) ++ reads) ∧
      ∀ c ∈ reads, c.isRead = true) ∧
    (∀ p ∈ data.ports,
      (upsertRow id p).key = (id, p.number) ∧
      (p.device = none → (upsertRow id p).noDevice) ∧
      (∀ d, p.device = some d →
        carriesField d.name (upsertRow id p).device_name ∧
        carriesField d.mac (upsertRow id p).device_mac ∧
        carriesField d.ip (upsertRow id p).device_ip ∧
        carriesField d.type (upsertRow id p).device_type)) := by
  have hmap : callsOf (data.ports.map (fun p => Event.call (Call.upsertPort (upsertRow id p)))) =
      data.ports.map (fun p => Call.upsertPort (upsertRow id p)) := by
    rw [← callsOf_map_call (data.ports.map (fun p => Call.upsertPort (upsertRow id p))),
      List.map_map]
    rfl
  refine ⟨?_, ?_⟩
  · cases hp : (upsertAll id data.ports
        ((w.setIsLoading true).updateSwitchName id data.name).2).1 with
    | some e =>
      rw [updateSwitchData_upsert_error w id data e hu hp]
      refine ⟨[], ?_, by simp⟩
      simp [hmap]
    | none =>
      rw [updateSwitchData_ok w id data hu hp]
      obtain ⟨l, hl, hreads⟩ := fetchSwitches_log w.activeSwitchId
        (upsertAll id data.ports ((w.setIsLoading true).updateSwitchName id data.name).2).2
      refine ⟨callsOf l, ?_, hreads⟩
      simp [hl, hmap]
  · intro p _
    refine ⟨rfl, ?_, ?_⟩
    · intro hd
      simp [upsertRow, hd, PortRow.noDevice, orNull, jsTruthy]
    · intro d hd
      simp only [upsertRow, hd, Option.some_bind]
      exact ⟨carriesField_orNull _, carriesField_orNull _, carriesField_orNull _,
        carriesField_orNull _⟩

/-- Witness for C18: switch 1 with its device is written back. -/
theorem updateSwitchData_upserts_every_port_witness :
    (∃ reads, callsOf (updateSwitchData deviceWorld 1 coreSwitch).log =
        callsOf deviceWorld.log ++ Call.updateSwitchName 1 coreSwitch.name ::
          (coreSwitch.ports.map (fun p => Call.upsertPort (upsertRow 1 p)) ++ reads) ∧
      ∀ c ∈ reads, c.isRead = true) ∧
    (∀ p ∈ coreSwitch.ports,
      (upsertRow 1 p).key = (1, p.number) ∧
      (p.device = none → (upsertRow 1 p).noDevice) ∧
      (∀ d, p.device = some d →
        carriesField d.name (upsertRow 1 p).device_name ∧
        carriesField d.mac (upsertRow 1 p).device_mac ∧
        carriesField d.ip (upsertRow 1 p).device_ip ∧
        carriesField d.type (upsertRow 1 p).device_type)) :=
  updateSwitchData_upserts_every_port deviceWorld 1 coreSwitch (by rfl)

/-- Counterexample to C18 as stated: the upsert row of a port whose device has
the empty string as MAC address has `null` in `device_mac`, not the device's
MAC; and when the name update fails no upsert is issued although the switch
has a port. -/
theorem updateSwitchData_row_drops_empty_field :
    emptyMacPort.device.bind (·.mac) = some "" ∧
    (upsertRow 1 emptyMacPort).device_mac = none ∧
    coreSwitch.ports.length = 1 ∧
    callsOf (updateSwitchData firstCallFailsWorld 1 coreSwitch).log =
      [Call.updateSwitchName 1 "Core"] := by
  refine ⟨by rfl, by rfl, by rfl, by rfl⟩

/-! ## `SwitchDashboard`: filter -/

theorem jsIncludes_iff (s t : String) : jsIncludes s t = true ↔ t.data <:+: s.data := by
  simp [jsIncludes]

/-- C19: `filteredPorts` keeps, in the original order, exactly the ports for
which the term is empty, or the port number in decimal contains the term, or
the port has a device whose name contains the term without regard to case,
whose IP contains the term, or whose MAC contains the term without regard to
case. On the ports [1 free, 2 with a device named "Recepção"], the term "rece"
gives port 2 only, the term "2" gives port 2 and the empty term gives both. -/
theorem filteredPorts_exact (lower : String → String) (ports : List Port) (term : String) :
    (∃ keep : Port → Bool,
      filteredPorts lower ports term = ports.filter keep ∧
      ∀ p, keep p = true ↔ portMatches lower term p) ∧
    filteredPorts asciiToLower receptionPorts "rece" = receptionPorts.drop 1 ∧
    filteredPorts asciiToLower receptionPorts "2" = receptionPorts.drop 1 ∧
    filteredPorts asciiToLower receptionPorts "" = receptionPorts := by
  refine ⟨⟨_, rfl, ?_⟩, by rfl, by rfl, by rfl⟩
  intro p
  unfold portMatches
  by_cases ht : term = ""
  · simp [ht]
  · simp only [ht, if_false, false_or, Bool.or_eq_true, jsIncludes_iff]
    apply or_congr
    · rfl
    · cases hd : p.device with
      | none => simp
      | some device =>
        simp only [Option.some.injEq, exists_eq_left', Bool.or_eq_true]
        rw [or_assoc]
        apply or_congr
        · cases device.name with
          | none => simp
          | some name => simp [jsIncludes_iff]
        · apply or_congr
          · cases device.ip with
            | none => simp
            | some ip => simp [jsIncludes_iff]
          · cases device.mac with
            | none => simp
            | some mac => simp [jsIncludes_iff]

/-- Witness for C19: the filtering example searched for "rece". -/
theorem filteredPorts_exact_witness :
    (∃ keep : Port → Bool,
      filteredPorts asciiToLower receptionPorts "rece" = receptionPorts.filter keep ∧
      ∀ p, keep p = true ↔ portMatches asciiToLower "rece" p) ∧
    filteredPorts asciiToLower receptionPorts "rece" = receptionPorts.drop 1 ∧
    filteredPorts asciiToLower receptionPorts "2" = receptionPorts.drop 1 ∧
    filteredPorts asciiToLower receptionPorts "" = receptionPorts :=
  filteredPorts_exact asciiToLower receptionPorts "rece"

end SwitchMap

/-! ## `SwitchDashboard`: blocks -/

namespace SwitchMap

theorem portBlocksLoop_done (l : List Port) (fuel i : Nat) (acc : List (List Port))
    (h : l.length ≤ i) : portBlocksLoop l fuel i acc = acc := by
  cases fuel with
  | zero => rfl
  | succ f =>
    unfold portBlocksLoop
    rw [if_neg (by omega)]

/-- What the finished block list looks like: the blocks put together give the
list back, there are `⌈n / 16⌉` of them, each has between 1 and 16 ports and
each but the last has 16. -/
theorem portBlocksLoop_spec (l : List Port) :
    ∀ (fuel i : Nat) (acc : List (List Port)),
      l.length - i ≤ fuel → i ≤ l.length → i = 16 * acc.length →
      acc.flatten = l.take i → (∀ b ∈ acc, b.length = 16) →
      (portBlocksLoop l fuel i acc).flatten = l ∧
      (portBlocksLoop l fuel i acc).length = (l.length + 15) / 16 ∧
      (∀ b ∈ portBlocksLoop l fuel i acc, 1 ≤ b.length ∧ b.length ≤ 16) ∧
      (∀ b ∈ (portBlocksLoop l fuel i acc).dropLast, b.length = 16) := by
  intro fuel
  induction fuel with
  | zero =>
    intro i acc hf hi hlen hjoin hfull
    have hi2 : i = l.length := by omega
    have : portBlocksLoop l 0 i acc = acc := rfl
    rw [this]
    refine ⟨?_, by omega, ?_, ?_⟩
    · rw [hjoin, hi2, List.take_length]
    · intro b hb; rw [hfull b hb]; omega
    · intro b hb; exact hfull b (List.mem_of_mem_dropLast hb)
  | succ f ih =>
    intro i acc hf hi hlen hjoin hfull
    by_cases hlt : i < l.length
    · have hstep : portBlocksLoop l (f + 1) i acc =
          portBlocksLoop l f (i + 16) (acc ++ [slice l i (i + 16)]) := by
        conv_lhs => unfold portBlocksLoop
        rw [if_pos hlt]
        rfl
      rw [hstep]
      have hslice : slice l i (i + 16) = (l.drop i).take 16 := by
        simp [slice]
      by_cases hfit : i + 16 ≤ l.length
      · have hbl : (slice l i (i + 16)).length = 16 := by
          rw [hslice, List.length_take, List.length_drop]
          omega
        apply ih (i + 16) (acc ++ [slice l i (i + 16)]) (by omega) hfit
        · simp; omega
        · rw [List.flatten_append, hjoin, hslice]
          simp only [List.flatten_cons, List.flatten_nil, List.append_nil]
          rw [← List.take_add]
        · intro b hb
          rcases List.mem_append.mp hb with hb | hb
          · exact hfull b hb
          · simp only [List.mem_singleton] at hb
            rw [hb, hbl]
      · have hlast : slice l i (i + 16) = l.drop i := by
          rw [hslice, List.take_of_length_le]
          rw [List.length_drop]
          omega
        rw [portBlocksLoop_done l f (i + 16) _ (by omega), hlast]
        refine ⟨?_, ?_, ?_, ?_⟩
        · rw [List.flatten_append, hjoin]
          simp
        · simp only [List.length_append, List.length_cons, List.length_nil]
          omega
        · intro b hb
          rcases List.mem_append.mp hb with hb | hb
          · rw [hfull b hb]; omega
          · simp only [List.mem_singleton] at hb
            rw [hb, List.length_drop]
            omega
        · intro b hb
          rw [List.dropLast_concat] at hb
          exact hfull b hb
    · have hi2 : i = l.length := by omega
      rw [portBlocksLoop_done l (f + 1) i acc (by omega)]
      refine ⟨?_, by omega, ?_, ?_⟩
      · rw [hjoin, hi2, List.take_length]
      · intro b hb; rw [hfull b hb]; omega
      · intro b hb; exact hfull b (List.mem_of_mem_dropLast hb)

/-- C20: `portBlocks` cuts the filtered ports into contiguous blocks in the
existing order: the blocks put together give the filtered list back, there are
`⌈n / 16⌉` blocks, every block is non-empty and has at most 16 ports, every
block but the last has exactly 16; twenty ports give blocks of sizes 16 and
4. -/
theorem portBlocks_partition (filteredPorts : List Port) :
    (portBlocks filteredPorts).flatten = filteredPorts ∧
    (portBlocks filteredPorts).length = (filteredPorts.length + 15) / 16 ∧
    (∀ b ∈ portBlocks filteredPorts, b ≠ [] ∧ 1 ≤ b.length ∧ b.length ≤ 16) ∧
    (∀ b ∈ (portBlocks filteredPorts).dropLast, b.length = 16) ∧
    (portBlocks twentyPorts).map List.length = [16, 4] := by
  have hex : (portBlocks twentyPorts).map List.length = [16, 4] := by rfl
  unfold portBlocks
  by_cases h : filteredPorts.length > 0
  · rw [if_pos h]
    obtain ⟨h1, h2, h3, h4⟩ := portBlocksLoop_spec filteredPorts filteredPorts.length 0 []
      (by omega) (by omega) (by simp) (by simp) (by simp)
    refine ⟨h1, h2, ?_, h4, hex⟩
    intro b hb
    have := h3 b hb
    refine ⟨?_, this⟩
    intro hnil
    rw [hnil] at this
    simp at this
  · rw [if_neg h]
    have hnil : filteredPorts = [] := List.length_eq_zero.mp (by omega)
    subst hnil
    refine ⟨rfl, rfl, ?_, ?_, hex⟩
    · intro b hb; simp at hb
    · intro b hb; simp at hb

/-- Witness for C20: twenty ports. -/
theorem portBlocks_partition_witness :
    (portBlocks twentyPorts).flatten = twentyPorts ∧
    (portBlocks twentyPorts).length = (twentyPorts.length + 15) / 16 ∧
    (∀ b ∈ portBlocks twentyPorts, b ≠ [] ∧ 1 ≤ b.length ∧ b.length ≤ 16) ∧
    (∀ b ∈ (portBlocks twentyPorts).dropLast, b.length = 16) ∧
    (portBlocks twentyPorts).map List.length = [16, 4] :=
  portBlocks_partition twentyPorts

end SwitchMap

/-! ## `SwitchDashboard`: statistics and empty states -/

namespace SwitchMap

theorem portBlocks_length_eq_zero_iff (l : List Port) :
    (portBlocks l).length = 0 ↔ l.length = 0 := by
  unfold portBlocks
  by_cases h : l.length > 0
  · rw [if_pos h]
    obtain ⟨-, h2, -, -⟩ := portBlocksLoop_spec l l.length 0 []
      (by omega) (by omega) (by simp) (by simp) (by simp)
    rw [h2]
    omega
  · rw [if_neg h]
    simp only [List.length_nil, true_iff]
    omega

theorem filteredPorts_empty_term (lower : String → String) (ports : List Port) :
    filteredPorts lower ports "" = ports := by
  unfold filteredPorts
  simp

theorem connectedPorts_le (ports : List Port) : connectedPorts ports ≤ ports.length := by
  unfold connectedPorts
  exact List.length_filter_le _ _

theorem connectedPorts_eq_countP (ports : List Port) :
    connectedPorts ports = ports.countP (fun port => port.device.isSome) := by
  unfold connectedPorts
  rw [List.countP_eq_length_filter]
  congr 1
  apply List.filter_congr
  intro p _
  cases p.device <;> rfl

/-- C21: the three empty-state conditions of the dashboard (no block and a
non-empty search term; no block, empty search term and no port at all; no
block, empty search term, some port and no filtered port) are pairwise
exclusive for every port list and search term, and the number of them that hold
is one when no block is displayed and zero otherwise. -/
theorem emptyStates_exclusive (lower : String → String) (ports : List Port) (term : String) :
    ¬ (showsNoMatchForTerm lower ports term = true ∧ showsNoPorts lower ports term = true) ∧
    ¬ (showsNoMatchForTerm lower ports term = true ∧
        showsNoMatchForCriteria lower ports term = true) ∧
    ¬ (showsNoPorts lower ports term = true ∧
        showsNoMatchForCriteria lower ports term = true) ∧
    (renderDashboard lower ports term).messageCount =
      (if (renderDashboard lower ports term).blocks.length = 0 then 1 else 0) := by
  unfold DashboardRender.messageCount renderDashboard
  dsimp only
  unfold showsNoMatchForTerm showsNoPorts showsNoMatchForCriteria
  by_cases ht : term = ""
  · subst ht
    simp only [filteredPorts_empty_term]
    by_cases hp : ports.length = 0
    · have hb := (portBlocks_length_eq_zero_iff ports).mpr hp
      simp [hb, hp]
    · have hb : ¬ (portBlocks ports).length = 0 :=
        fun h => hp ((portBlocks_length_eq_zero_iff ports).mp h)
      simp [hb, hp]
  · by_cases hb : (portBlocks (filteredPorts lower ports term)).length = 0
    · simp [hb, ht]
    · simp [hb, ht]

/-- C22: for every port list `connectedPorts` is the number of ports whose
device is not null and `disconnectedPorts` is the total minus `connectedPorts`,
so `0 ≤ connectedPorts ≤ total` and the two add up to the total. -/
theorem connected_disconnected_counts (ports : List Port) :
    connectedPorts ports = ports.countP (fun port => port.device.isSome) ∧
    disconnectedPorts ports = (ports.length : Int) - (connectedPorts ports : Int) ∧
    0 ≤ connectedPorts ports ∧ connectedPorts ports ≤ ports.length ∧
    0 ≤ disconnectedPorts ports ∧
    (connectedPorts ports : Int) + disconnectedPorts ports = (ports.length : Int) := by
  have h := connectedPorts_le ports
  refine ⟨connectedPorts_eq_countP ports, rfl, Nat.zero_le _, h, ?_, ?_⟩
  · unfold disconnectedPorts; omega
  · unfold disconnectedPorts; omega

/-- C24: the four statistic cards do not depend on the search term: for every
port list and any two search terms the renders show the same total, connected,
free and utilization values, which are those computed from the whole port
list; the blocks do depend on the term. -/
theorem aggregates_ignore_searchTerm (lower : String → String) (ports : List Port)
    (term1 term2 : String) :
    (renderDashboard lower ports term1).total = (renderDashboard lower ports term2).total ∧
    (renderDashboard lower ports term1).connected =
      (renderDashboard lower ports term2).connected ∧
    (renderDashboard lower ports term1).free = (renderDashboard lower ports term2).free ∧
    (renderDashboard lower ports term1).utilization =
      (renderDashboard lower ports term2).utilization ∧
    (renderDashboard lower ports term1).total = ports.length ∧
    (renderDashboard lower ports term1).connected = connectedPorts ports ∧
    (renderDashboard lower ports term1).free = disconnectedPorts ports ∧
    (renderDashboard lower ports term1).utilization = utilization ports ∧
    (renderDashboard asciiToLower receptionPorts "rece").blocks ≠
      (renderDashboard asciiToLower receptionPorts "").blocks ∧
    (renderDashboard asciiToLower receptionPorts "rece").total = 2 ∧
    (renderDashboard asciiToLower receptionPorts "rece").connected = 1 ∧
    (renderDashboard asciiToLower receptionPorts "rece").free = 1 :=
  ⟨rfl, rfl, rfl, rfl, rfl, rfl, rfl, rfl, by decide, by rfl, by rfl, by rfl⟩

/-- C30: with an empty search term `filteredPorts` is the whole port list, and
the condition of the third empty-state message is false for every port list
and every search term. -/
theorem third_emptyState_unreachable (lower : String → String) (ports : List Port)
    (term : String) :
    filteredPorts lower ports "" = ports ∧
    showsNoMatchForCriteria lower ports term = false ∧
    (renderDashboard lower ports term).noMatchForCriteria = false := by
  have h : showsNoMatchForCriteria lower ports term = false := by
    unfold showsNoMatchForCriteria
    by_cases ht : term = ""
    · subst ht
      simp only [filteredPorts_empty_term]
      by_cases hp : ports.length = 0
      · simp [hp]
      · have : 0 < ports.length := by omega
        simp [hp]
    · simp [ht]
  exact ⟨filteredPorts_empty_term lower ports, h, h⟩

end SwitchMap

/-! ## `App`: session guard and routes -/

namespace SwitchMap

theorem fetchProfile_noRow (user : AuthUser) (notifies : Bool) (st : AppState) :
    fetchProfile (some user) noRowResponse notifies st =
      (none, { st with calls := st.calls ++ [AppCall.selectProfile user.id],
                       userProfile := none }) := rfl

theorem fetchProfile_zeroRows (user : AuthUser) (response : ProfileResponse)
    (e : PostgrestError) (st : AppState) (he : response.error = some e)
    (hc : e.code = "PGRST116") (hd : jsIncludes e.details "0 rows" = true) :
    fetchProfile (some user) response true st =
      (none, { session := none, userProfile := none, loading := false, authAttempted := true,
               calls := st.calls ++ [AppCall.selectProfile user.id, AppCall.signOut] }) := by
  unfold fetchProfile
  simp [he, hc, hd, AppState.signOut, onAuthStateChangeNull]

/-- C27: route access depends on the presence of a session only: without a
session `/` and `/user-management` redirect to `/login` and `/login` shows the
login page; with a session, whichever it is, `/login` redirects to `/`, `/`
shows the dashboard and `/user-management` shows the user-management page; and
once the start-up and profile screens are over, `App` renders the route
element whatever the profile is. -/
theorem routes_by_session_presence (s : Session) (session : Option Session)
    (profile : Option Profile) (calls : List AppCall) (path : String) :
    routes none "/" = View.navigate "/login" ∧
    routes none "/user-management" = View.navigate "/login" ∧
    routes none "/login" = View.loginPage ∧
    routes (some s) "/login" = View.navigate "/" ∧
    routes (some s) "/" = View.dashboard ∧
    routes (some s) "/user-management" = View.userManagement ∧
    routes session path = routes (session.map (fun _ => exampleSession)) path ∧
    renderApp { session := session, userProfile := profile, loading := false,
                authAttempted := true, calls := calls } path = routes session path := by
  refine ⟨by rfl, by rfl, by rfl, by rfl, by rfl, by rfl, ?_, ?_⟩
  · cases session <;> rfl
  · simp [renderApp]

/-- Counterexample to C25 as stated: the session of the example is present at
mount and its profile lookup finds no row (no data, no error). No sign-out is
requested; the state reached keeps the session with a null profile, and both
protected routes render their page. -/
theorem noRow_profile_keeps_session :
    AppState.Reachable
      (getInitialSessionAndProfile (some exampleSession) noRowResponse true initialAppState) ∧
    (getInitialSessionAndProfile (some exampleSession) noRowResponse true initialAppState).session
      = some exampleSession ∧
    (getInitialSessionAndProfile (some exampleSession) noRowResponse true
      initialAppState).userProfile = none ∧
    AppCall.signOut ∉
      (getInitialSessionAndProfile (some exampleSession) noRowResponse true initialAppState).calls ∧
    renderApp (getInitialSessionAndProfile (some exampleSession) noRowResponse true
      initialAppState) "/" = View.dashboard ∧
    renderApp (getInitialSessionAndProfile (some exampleSession) noRowResponse true
      initialAppState) "/user-management" = View.userManagement ∧
    (renderApp (getInitialSessionAndProfile (some exampleSession) noRowResponse true
      initialAppState) "/").isProtected = true :=
  ⟨AppState.Reachable.initial _ _ _ _ AppState.Reachable.mount,
    by rfl, by rfl, by decide, by rfl, by rfl, by rfl⟩

/-- C25 (amended): when the profile lookup of a session fails with error code
`PGRST116` and details mentioning "0 rows", `fetchProfile` requests a
sign-out, and once the sign-out has reached the auth listener the state left by
the initial lookup and by the listener has no session and no profile, so that
`/` and `/user-management` redirect to `/login`. When the lookup finds no row
without an error, no sign-out is requested and the session is kept with a null
profile. -/
theorem zeroRows_error_forces_signOut (s : Session) (response : ProfileResponse)
    (e : PostgrestError) (st : AppState) (he : response.error = some e)
    (hc : e.code = "PGRST116") (hd : jsIncludes e.details "0 rows" = true) :
    AppCall.signOut ∈ (fetchProfile (some s.user) response true st).2.calls ∧
    (getInitialSessionAndProfile (some s) response true st).session = none ∧
    (getInitialSessionAndProfile (some s) response true st).userProfile = none ∧
    renderApp (getInitialSessionAndProfile (some s) response true st) "/" =
      View.navigate "/login" ∧
    renderApp (getInitialSessionAndProfile (some s) response true st) "/user-management" =
      View.navigate "/login" ∧
    (onAuthStateChange (some s) response true st).session = none ∧
    (onAuthStateChange (some s) response true st).userProfile = none ∧
    renderApp (onAuthStateChange (some s) response true st) "/" = View.navigate "/login" ∧
    renderApp (onAuthStateChange (some s) response true st) "/user-management" =
      View.navigate "/login" ∧
    AppCall.signOut ∉ (fetchProfile (some s.user) noRowResponse true st).2.calls.drop
      st.calls.length ∧
    (onAuthStateChange (some s) noRowResponse true st).session = some s ∧
    (onAuthStateChange (some s) noRowResponse true st).userProfile = none := by
  have hf := fun st0 => fetchProfile_zeroRows s.user response e st0 he hc hd
  refine ⟨?_, ?_, ?_, ?_, ?_, ?_, ?_, ?_, ?_, ?_, ?_, ?_⟩
  · rw [hf]; simp
  · simp [getInitialSessionAndProfile, hf]
  · simp [getInitialSessionAndProfile, hf]
  · simp [getInitialSessionAndProfile, hf, renderApp, routes]
  · simp [getInitialSessionAndProfile, hf, renderApp, routes]
  · simp [onAuthStateChange, hf]
  · simp [onAuthStateChange, hf]
  · simp [onAuthStateChange, hf, renderApp, routes]
  · simp [onAuthStateChange, hf, renderApp, routes]
  · rw [fetchProfile_noRow]; simp
  · simp [onAuthStateChange, fetchProfile_noRow]
  · simp [onAuthStateChange, fetchProfile_noRow]

/-- Witness for C25 (amended): the example session, whose lookup fails with the
gateway error for an empty result. -/
theorem zeroRows_error_forces_signOut_witness :
    jsIncludes zeroRowsError.details "0 rows" = true ∧
    renderApp (getInitialSessionAndProfile (some exampleSession)
      { data := none, error := some zeroRowsError } true initialAppState) "/" =
      View.navigate "/login" :=
  ⟨by decide,
   (zeroRows_error_forces_signOut exampleSession { data := none, error := some zeroRowsError }
      zeroRowsError initialAppState rfl rfl (by decide)).2.2.2.1⟩

end SwitchMap

/-! ## Store round trip and selection after a reload -/

namespace SwitchMap

theorem orNull_of_truthy (v : Option String) (h : jsTruthy v = true) : orNull v = v := by
  unfold orNull
  rw [if_pos h]

theorem formatPort_upsertRow_free (id : SwitchId) (port : Port) (h : port.device = none) :
    formatPort (upsertRow id port) = port := by
  cases port with
  | mk number device =>
    dsimp only at h
    subst h
    rfl

theorem formatPort_upsertRow_complete (id : SwitchId) (port : Port) (d : Device)
    (h : port.device = some d) (hd : d.isComplete = true) :
    formatPort (upsertRow id port) = port := by
  cases port with
  | mk number device =>
    dsimp only at h
    subst h
    cases d with
    | mk name mac ip type =>
      simp only [Device.isComplete, Bool.and_eq_true] at hd
      obtain ⟨⟨⟨h1, h2⟩, h3⟩, h4⟩ := hd
      simp [formatPort, upsertRow, orNull_of_truthy, h1, h2, h3, h4]

theorem formatPort_nameless (row : PortRow) (h : jsTruthy row.device_name = false) :
    (formatPort row).device = none := by
  simp [formatPort, h]

theorem toDevice_isComplete (d : DeviceData) (h : passesChecks d) (ht : d.type ≠ "") :
    d.toDevice.isComplete = true := by
  obtain ⟨h1, h2, h3, -, -⟩ := h
  simp [Device.isComplete, DeviceData.toDevice, jsTruthy, h1, h2, h3, ht]

/-- C28: store round trip. For every port whose device is null, or whose
device has a non-empty name, MAC, IP and type, the row `updateSwitchData`
upserts for the port converts back, by the conversion of `fetchSwitches`, to
the same port (same number, same device). A device the editor accepts, its
type being non-empty, is such a device. A row whose `device_name` is null or
empty converts to a port without device whatever its other columns hold. -/
theorem store_round_trip (id : SwitchId) (port : Port)
    (h : port.device = none ∨ ∃ d, port.device = some d ∧ d.isComplete = true) :
    formatPort (upsertRow id port) = port ∧
    (∀ (n : Nat) (d : DeviceData), passesChecks d → d.type ≠ "" →
      formatPort (upsertRow id { number := n, device := some d.toDevice }) =
        { number := n, device := some d.toDevice }) ∧
    (∀ row : PortRow, row.device_name = none ∨ row.device_name = some "" →
      (formatPort row).device = none) := by
  refine ⟨?_, ?_, ?_⟩
  · rcases h with h | ⟨d, h, hd⟩
    · exact formatPort_upsertRow_free id port h
    · exact formatPort_upsertRow_complete id port d h hd
  · intro n d hp ht
    exact formatPort_upsertRow_complete id _ d.toDevice rfl (toDevice_isComplete d hp ht)
  · intro row hr
    apply formatPort_nameless
    rcases hr with hr | hr <;> rw [hr] <;> rfl

/-- Witness for C28: port 1 holding the device of the examples; the device the
editor accepts in the examples; a row with MAC, IP and type but no name. -/
theorem store_round_trip_witness :
    formatPort (upsertRow 1 { number := 1, device := some pcDevice }) =
      { number := 1, device := some pcDevice } ∧
    formatPort (upsertRow 1 { number := 2, device := some validDeviceData.toDevice }) =
      { number := 2, device := some validDeviceData.toDevice } ∧
    (formatPort namelessRow).device = none :=
  have h := store_round_trip 1 { number := 1, device := some pcDevice }
    (Or.inr ⟨pcDevice, rfl, by decide⟩)
  ⟨h.1, h.2.1 2 validDeviceData (by decide) (by decide), h.2.2 namelessRow (Or.inl rfl)⟩

theorem not_fetchFails_of_faults_nil (w : World) (h : w.faults = []) : ¬ fetchFails w := by
  rintro ⟨i, e, -, hi⟩
  rw [h] at hi
  simp at hi

/-- Counterexample to C29 as stated: switches 1 and 2 are stored and the prior
selection is 7. The reload meets no error, loads switches 1 and 2, and leaves
the selection at 7, which is neither null nor the id of a loaded switch. -/
theorem fetchSwitches_keeps_stale_selection :
    ¬ fetchFails staleSelectionWorld ∧
    (fetchSwitches staleSelectionWorld.activeSwitchId staleSelectionWorld).switches.map
      (fun s => s.id) = [1, 2] ∧
    (fetchSwitches staleSelectionWorld.activeSwitchId staleSelectionWorld).activeSwitchId =
      some 7 ∧
    toastsOf (fetchSwitches staleSelectionWorld.activeSwitchId staleSelectionWorld).log = [] :=
  ⟨not_fetchFails_of_faults_nil _ rfl, by rfl, by rfl, by rfl⟩

/-- C29 (amended): after a `fetchSwitches` that meets no error, started with
the current selection, the selection is null exactly when the loaded list is
empty; if the prior selection was null it is the id of the first loaded switch
(null for an empty list); if the prior selection was not null and the list is
not empty it is the prior selection, unchanged, whether or not a loaded switch
has that id; hence it is the id of a loaded switch whenever the prior selection
was null or the id of a loaded switch and the list is not empty. -/
theorem fetchSwitches_selection (w : World) (h : ¬ fetchFails w) :
    (fetchSwitches w.activeSwitchId w).switches = w.store.load ∧
    ((fetchSwitches w.activeSwitchId w).activeSwitchId = none ↔ w.store.load = []) ∧
    (w.activeSwitchId = none →
      (fetchSwitches w.activeSwitchId w).activeSwitchId =
        w.store.load.head?.map (fun s => s.id)) ∧
    (∀ id, w.activeSwitchId = some id → w.store.load ≠ [] →
      (fetchSwitches w.activeSwitchId w).activeSwitchId = some id) ∧
    ((w.activeSwitchId = none ∨ ∃ s ∈ w.store.load, w.activeSwitchId = some s.id) →
      w.store.load ≠ [] →
      ∃ s ∈ (fetchSwitches w.activeSwitchId w).switches,
        (fetchSwitches w.activeSwitchId w).activeSwitchId = some s.id) := by
  obtain ⟨h1, h2, -⟩ := fetchSwitches_of_not_fails w.activeSwitchId w h
  rw [h1, h2]
  unfold selectionAfterLoad
  cases hl : w.store.load with
  | nil => simp
  | cons x rest =>
    cases ha : w.activeSwitchId with
    | none => simp
    | some a =>
      simp

/-- Witness for C29 (amended): switches 1 and 2 stored, nothing selected; the
reload selects switch 1. -/
theorem fetchSwitches_selection_witness :
    ¬ fetchFails noSelectionWorld ∧
    (fetchSwitches noSelectionWorld.activeSwitchId noSelectionWorld).activeSwitchId = some 1 :=
  ⟨not_fetchFails_of_faults_nil _ rfl,
   ((fetchSwitches_selection noSelectionWorld (not_fetchFails_of_faults_nil _ rfl)).2.2.1
      rfl).trans (by rfl)⟩

end SwitchMap

/-! ## Busy flag of the mutating operations -/

namespace SwitchMap

theorem noCallAfterLowering_of_no_calls (post : List Event) (h : callsOf post = []) :
    noCallAfterLowering post = true := by
  induction post with
  | nil => rfl
  | cons e rest ih =>
    cases e with
    | call c => simp [callsOf] at h
    | setIsLoading v =>
      have hr : callsOf rest = [] := by simpa [callsOf] using h
      cases v with
      | false => simp [noCallAfterLowering, hr]
      | true => simpa [noCallAfterLowering] using ih hr
    | setSwitches v => exact ih (by simpa [callsOf] using h)
    | setActiveSwitchId v => exact ih (by simpa [callsOf] using h)
    | toast t => exact ih (by simpa [callsOf] using h)
    | confirm m => exact ih (by simpa [callsOf] using h)

theorem noCallAfterLowering_append (pre post : List Event)
    (h1 : Event.setIsLoading false ∉ pre) (h2 : callsOf post = []) :
    noCallAfterLowering (pre ++ post) = true := by
  induction pre with
  | nil => exact noCallAfterLowering_of_no_calls post h2
  | cons e rest ih =>
    have hr : Event.setIsLoading false ∉ rest := fun hm => h1 (List.mem_cons_of_mem _ hm)
    cases e with
    | setIsLoading v =>
      cases v with
      | false => exact absurd (List.mem_cons_self _ _) h1
      | true => exact ih hr
    | call c => exact ih hr
    | setSwitches v => exact ih hr
    | setActiveSwitchId v => exact ih hr
    | toast t => exact ih hr
    | confirm m => exact ih hr

theorem busyDiscipline_of_shape (pre post : List Event)
    (h1 : Event.setIsLoading false ∉ pre) (h2 : callsOf post = []) :
    busyDiscipline (Event.setIsLoading true :: (pre ++ (post ++ [Event.setIsLoading false]))) =
      true := by
  have h3 : noCallAfterLowering (pre ++ (post ++ [Event.setIsLoading false])) = true :=
    noCallAfterLowering_append pre _ h1 (by rw [callsOf_append, h2]; rfl)
  have h4 : (Event.setIsLoading true :: (pre ++ (post ++ [Event.setIsLoading false]))).getLast? =
      some (Event.setIsLoading false) := by
    rw [← List.cons_append, ← List.append_assoc, List.getLast?_append]
    simp
  unfold busyDiscipline
  rw [h4]
  simp [noCallAfterLowering, h3]

theorem fetchSwitches_quiet (a : Option SwitchId) (w : World) :
    ∃ rest, (fetchSwitches a w).log =
        w.log ++ (Event.setIsLoading true :: Event.call Call.selectSwitches :: rest ++
          [Event.setIsLoading false]) ∧
      Event.setIsLoading false ∉ rest := by
  unfold fetchSwitches
  dsimp only
  rcases h1 : (w.setIsLoading true).selectSwitches with ⟨r, w2⟩
  have e2 : w2 = ((w.setIsLoading true).selectSwitches).2 := by rw [h1]
  have hl2 : w2.log = w.log ++ [Event.setIsLoading true, Event.call Call.selectSwitches] := by
    rw [e2]; simp
  cases r with
  | error e =>
    exact ⟨[Event.toast (fetchErrorToast e)], by simp [hl2], by simp⟩
  | ok rows =>
    dsimp only
    rcases h3 : fetchAllPorts rows w2 with ⟨r3, w3⟩
    have e3 : w3 = (fetchAllPorts rows w2).2 := by rw [h3]
    have hl3 : w3.log = w.log ++ ([Event.setIsLoading true, Event.call Call.selectSwitches] ++
        rows.map (fun s => Event.call (Call.selectPorts s.id))) := by
      rw [e3, fetchAllPorts_log, hl2]; simp
    cases r3 with
    | error e =>
      refine ⟨rows.map (fun s => Event.call (Call.selectPorts s.id)) ++
        [Event.toast (fetchErrorToast e)], by simp [hl3], by simp⟩
    | ok l =>
      dsimp only
      split_ifs
      · exact ⟨rows.map (fun s => Event.call (Call.selectPorts s.id)) ++
          [Event.setSwitches l, Event.setActiveSwitchId (l.head?.map (·.id))],
          by simp [hl3], by simp⟩
      · exact ⟨rows.map (fun s => Event.call (Call.selectPorts s.id)) ++
          [Event.setSwitches l, Event.setActiveSwitchId none],
          by simp [hl3], by simp⟩
      · exact ⟨rows.map (fun s => Event.call (Call.selectPorts s.id)) ++
          [Event.setSwitches l], by simp [hl3], by simp⟩

end SwitchMap

namespace SwitchMap

theorem keepsBusy_of_shape (w w' : World) (pre post : List Event)
    (hlog : w'.log =
      w.log ++ (Event.setIsLoading true :: (pre ++ (post ++ [Event.setIsLoading false]))))
    (h1 : Event.setIsLoading false ∉ pre) (h2 : callsOf post = [])
    (h3 : (∃ t ∈ toastsOf (pre ++ post), t.destructive = false) →
      Call.selectSwitches ∈ callsOf pre)
    (h4 : w'.isLoading = false) : keepsBusy w w' := by
  refine ⟨_, hlog, busyDiscipline_of_shape pre post h1 h2, ?_, h4⟩
  rintro ⟨t, ht, hd⟩
  have ht2 : t ∈ toastsOf (pre ++ post) := by
    simpa [toastsOf, List.filterMap_append, List.filterMap_cons] using ht
  have := h3 ⟨t, ht2, hd⟩
  simp only [callsOf, List.filterMap_cons, List.filterMap_append, List.mem_append]
  exact Or.inl this

theorem keepsBusy_failure (w w2 : World) (calls : List Event) (t : Toast)
    (hlog : w2.log = w.log ++ Event.setIsLoading true :: calls)
    (hq : Event.setIsLoading false ∉ calls)
    (hc : ∀ e ∈ calls, ∃ c, e = Event.call c) (ht : t.destructive = true) :
    keepsBusy w ((w2.toast t).setIsLoading false) := by
  apply keepsBusy_of_shape w _ calls [Event.toast t]
  · simp [hlog]
  · exact hq
  · rfl
  · rintro ⟨t', ht', hd⟩
    simp only [toastsOf, List.filterMap_append, List.mem_append, List.mem_filterMap] at ht'
    rcases ht' with ⟨e, he, h⟩ | ⟨e, he, h⟩
    · obtain ⟨c, rfl⟩ := hc e he
      simp at h
    · simp only [List.mem_singleton] at he
      subst he
      simp only [Option.some.injEq] at h
      subst h
      rw [ht] at hd
      cases hd
  · rfl

theorem keepsBusy_success (w w3 w' : World) (a : Option SwitchId) (calls tail : List Event)
    (hlog : w3.log = w.log ++ Event.setIsLoading true :: calls)
    (hq : Event.setIsLoading false ∉ calls)
    (hw' : w'.log = (fetchSwitches a w3).log ++ (tail ++ [Event.setIsLoading false]))
    (htail : callsOf tail = []) (hl : w'.isLoading = false) : keepsBusy w w' := by
  obtain ⟨rest, hf, hr⟩ := fetchSwitches_quiet a w3
  apply keepsBusy_of_shape w w'
    (calls ++ (Event.setIsLoading true :: Event.call Call.selectSwitches :: rest))
    (Event.setIsLoading false :: tail)
  · rw [hw', hf, hlog]; simp
  · simp [hq, hr]
  · simpa [callsOf] using htail
  · intro _
    simp [callsOf_append, callsOf]
  · exact hl

theorem keepsBusy_reload_toast (w w3 : World) (a : Option SwitchId) (calls : List Event)
    (t : Toast) (hlog : w3.log = w.log ++ Event.setIsLoading true :: calls)
    (hq : Event.setIsLoading false ∉ calls) :
    keepsBusy w (((fetchSwitches a w3).toast t).setIsLoading false) :=
  keepsBusy_success w w3 _ a calls [Event.toast t] hlog hq (by simp) rfl rfl

theorem keepsBusy_reload_select_toast (w w3 : World) (a v : Option SwitchId)
    (calls : List Event) (t : Toast)
    (hlog : w3.log = w.log ++ Event.setIsLoading true :: calls)
    (hq : Event.setIsLoading false ∉ calls) :
    keepsBusy w ((((fetchSwitches a w3).setActiveSwitchId v).toast t).setIsLoading false) :=
  keepsBusy_success w w3 _ a calls [Event.setActiveSwitchId v, Event.toast t] hlog hq
    (by simp) rfl rfl

theorem addSwitch_keepsBusy (w : World) (name : String) (N : Int)
    (hname : ¬ isBlank name) (hN : 0 < N) : keepsBusy w (addSwitch w name N).2 := by
  cases h : ((w.setIsLoading true).insertSwitch name).1 with
  | error e =>
    rw [addSwitch_insert_error w name N e hname hN h]
    exact keepsBusy_failure w _ [Event.call (Call.insertSwitch name)] _ (by simp) (by simp)
      (by simp) rfl
  | ok row =>
    cases hp : (((w.setIsLoading true).insertSwitch name).2.insertPorts
        (portsPayload row.id N)).1 with
    | some e =>
      rw [addSwitch_ports_error w name N row e hname hN h hp]
      exact keepsBusy_failure w _ [Event.call (Call.insertSwitch name),
        Event.call (Call.insertPorts (portsPayload row.id N)),
        Event.call (Call.deleteSwitchRow row.id)] _ (by simp) (by simp) (by simp) rfl
    | none =>
      rw [addSwitch_ok w name N row hname hN h hp]
      exact keepsBusy_reload_select_toast w _ _ _ [Event.call (Call.insertSwitch name),
        Event.call (Call.insertPorts (portsPayload row.id N))] _ (by simp) (by simp)

theorem editSwitch_keepsBusy (w : World) (sw : Switch) (name : String) (M : Int)
    (hname : ¬ isBlank name) (hM : 0 < M) : keepsBusy w (editSwitch w (some sw) name M).2 := by
  cases hu : ((w.setIsLoading true).updateSwitchName sw.id name).1 with
  | some e =>
    rw [editSwitch_update_error w sw name M e hname hM hu]
    exact keepsBusy_failure w _ [Event.call (Call.updateSwitchName sw.id name)] _ (by simp)
      (by simp) (by simp) rfl
  | none =>
    by_cases hc : M = sw.ports.length
    · rw [editSwitch_same_count w sw name M hname hM hu hc]
      exact keepsBusy_reload_toast w _ _ [Event.call (Call.updateSwitchName sw.id name)] _
        (by simp) (by simp)
    · cases hp : ((((w.setIsLoading true).updateSwitchName sw.id name).2.deletePorts
          sw.id).2.insertPorts (portsPayload sw.id M)).1 with
      | some e =>
        rw [editSwitch_resize_error w sw name M e hname hM hu hc hp]
        exact keepsBusy_failure w _ [Event.call (Call.updateSwitchName sw.id name),
          Event.call (Call.deletePorts sw.id),
          Event.call (Call.insertPorts (portsPayload sw.id M))] _ (by simp) (by simp)
          (by simp) rfl
      | none =>
        rw [editSwitch_resize_ok w sw name M hname hM hu hc hp]
        exact keepsBusy_reload_toast w _ _
          [Event.call (Call.updateSwitchName sw.id name), Event.call (Call.deletePorts sw.id),
            Event.call (Call.insertPorts (portsPayload sw.id M))] _ (by simp) (by simp)

theorem deleteSwitch_keepsBusy (w : World) (id : SwitchId) (sw : Switch)
    (h : w.switches.find? (fun s => s.id == id) = some sw) :
    keepsBusy (w.confirm (deleteConfirmMessage sw.name)) (deleteSwitch w true id).2 := by
  cases hd : (((((w.confirm (deleteConfirmMessage sw.name)).setIsLoading true).deletePorts
      id).2.deleteSwitchRow id).1) with
  | some e =>
    rw [deleteSwitch_error w id sw e h hd]
    exact keepsBusy_failure _ _ [Event.call (Call.deletePorts id),
      Event.call (Call.deleteSwitchRow id)] _ (by simp) (by simp) (by simp) rfl
  | none =>
    rw [deleteSwitch_ok w id sw h hd]
    by_cases ha : w.activeSwitchId = some id
    · simp only [ha, if_true]
      exact keepsBusy_reload_select_toast _ _ _ _ [Event.call (Call.deletePorts id),
        Event.call (Call.deleteSwitchRow id)] _ (by simp) (by simp)
    · simp only [ha, if_false]
      exact keepsBusy_reload_toast _ _ _ [Event.call (Call.deletePorts id),
        Event.call (Call.deleteSwitchRow id)] _ (by simp) (by simp)

theorem updateSwitchData_keepsBusy (w : World) (id : SwitchId) (data : Switch) :
    keepsBusy w (updateSwitchData w id data) := by
  cases hu : ((w.setIsLoading true).updateSwitchName id data.name).1 with
  | some e =>
    rw [updateSwitchData_update_error w id data e hu]
    exact keepsBusy_failure w _ [Event.call (Call.updateSwitchName id data.name)] _ (by simp)
      (by simp) (by simp) rfl
  | none =>
    cases hp : (upsertAll id data.ports
        ((w.setIsLoading true).updateSwitchName id data.name).2).1 with
    | some e =>
      rw [updateSwitchData_upsert_error w id data e hu hp]
      exact keepsBusy_failure w _ (Event.call (Call.updateSwitchName id data.name) ::
        data.ports.map (fun p => Event.call (Call.upsertPort (upsertRow id p)))) _ (by simp)
        (by simp) (by simp) rfl
    | none =>
      rw [updateSwitchData_ok w id data hu hp]
      exact keepsBusy_reload_toast w _ _
        (Event.call (Call.updateSwitchName id data.name) ::
          data.ports.map (fun p => Event.call (Call.upsertPort (upsertRow id p)))) _
        (by simp) (by simp)

theorem addPortsToSwitch_keepsBusy (w : World) (id : SwitchId) (k : Int) (cur : Switch)
    (h : w.switches.find? (fun s => s.id == id) = some cur) :
    keepsBusy w (addPortsToSwitch w id k) := by
  cases hp : ((w.setIsLoading true).insertPorts (newPortsPayload id cur.ports.length k)).1 with
  | some e =>
    rw [addPortsToSwitch_error w id k cur e h hp]
    exact keepsBusy_failure w _
      [Event.call (Call.insertPorts (newPortsPayload id cur.ports.length k))] _ (by simp)
      (by simp) (by simp) rfl
  | none =>
    rw [addPortsToSwitch_ok w id k cur h hp]
    exact keepsBusy_reload_toast w _ _
      [Event.call (Call.insertPorts (newPortsPayload id cur.ports.length k))] _ (by simp)
      (by simp)

end SwitchMap

namespace SwitchMap

/-- C26: each mutating operation that gets past its local checks (`addSwitch`
and `editSwitch` with a name that is not blank and a positive port count,
`deleteSwitch` once the switch is found and the prompt is confirmed,
`updateSwitchData` always, `addPortsToSwitch` once the switch is found) first
sets the busy flag to true, issues no gateway call after a lowering of the
flag, be it a call of the operation or of the reload that follows it, and ends
by setting the flag to false, on the success path and on every failure path;
a success toast comes only with the registry query of the reload. -/
theorem mutations_keep_busy_flag (w : World) (name : String) (N : Int) (edited : Switch)
    (id uid : SwitchId) (found data : Switch) (k : Int)
    (hname : ¬ isBlank name) (hN : 0 < N)
    (hfound : w.switches.find? (fun s => s.id == id) = some found) :
    keepsBusy w (addSwitch w name N).2 ∧
    keepsBusy w (editSwitch w (some edited) name N).2 ∧
    keepsBusy (w.confirm (deleteConfirmMessage found.name)) (deleteSwitch w true id).2 ∧
    keepsBusy w (updateSwitchData w uid data) ∧
    keepsBusy w (addPortsToSwitch w id k) :=
  ⟨addSwitch_keepsBusy w name N hname hN, editSwitch_keepsBusy w edited name N hname hN,
    deleteSwitch_keepsBusy w id found hfound, updateSwitchData_keepsBusy w uid data,
    addPortsToSwitch_keepsBusy w id k found hfound⟩

/-- Witness for C26: the two-switch world, switch 2 found for deletion and for
new ports; the log of the `addSwitch` run, evaluated, keeps the discipline. -/
theorem mutations_keep_busy_flag_witness :
    ¬ isBlank "Lab" ∧ (0 : Int) < 2 ∧
    twoSwitchWorld.switches.find? (fun s => s.id == 2) = some edgeSwitch ∧
    (keepsBusy twoSwitchWorld (addSwitch twoSwitchWorld "Lab" 2).2 ∧
      keepsBusy twoSwitchWorld (editSwitch twoSwitchWorld (some edgeSwitch) "Lab" 2).2 ∧
      keepsBusy (twoSwitchWorld.confirm (deleteConfirmMessage edgeSwitch.name))
        (deleteSwitch twoSwitchWorld true 2).2 ∧
      keepsBusy twoSwitchWorld (updateSwitchData twoSwitchWorld 1 coreSwitch) ∧
      keepsBusy twoSwitchWorld (addPortsToSwitch twoSwitchWorld 2 8)) ∧
    busyDiscipline (addSwitch twoSwitchWorld "Lab" 2).2.log = true ∧
    busyDiscipline (updateSwitchData twoSwitchWorld 1 coreSwitch).log = true :=
  ⟨by decide, by decide, by rfl,
    mutations_keep_busy_flag twoSwitchWorld "Lab" 2 edgeSwitch 2 1 edgeSwitch coreSwitch 8
      (by decide) (by decide) (by rfl),
    by rfl, by rfl⟩

end SwitchMap

/-! ## Utilization -/

namespace SwitchMap

theorem roundHalfEven_sub_abs (m : ℚ) : |(roundHalfEven m : ℚ) - m| ≤ 1 / 2 := by
  have h1 := Int.floor_le m
  have h2 := Int.lt_floor_add_one m
  unfold roundHalfEven
  rw [abs_le]
  split_ifs <;> push_cast <;> constructor <;> linarith

theorem toDouble_zero : toDouble 0 = 0 := by
  unfold toDouble
  simp

theorem toDouble_sub_abs (q : ℚ) (hq : 0 ≤ q) : |toDouble q - q| ≤ q / 2 ^ 53 := by
  rcases hq.eq_or_lt with h0 | hpos
  · subst h0
    simp [toDouble_zero]
  · unfold toDouble
    rw [if_neg hpos.ne', if_pos hpos, abs_of_pos hpos]
    dsimp only
    have hlog : (2 : ℚ) ^ Int.log 2 q ≤ q := Int.zpow_log_le_self (by norm_num) hpos
    have he : (2 : ℚ) ^ (Int.log 2 q - 52) = 2 ^ Int.log 2 q / 2 ^ 52 := by
      rw [zpow_sub₀ (by norm_num : (2 : ℚ) ≠ 0)]
      norm_cast
    have hepos : (0 : ℚ) < 2 ^ (Int.log 2 q - 52) := zpow_pos (by norm_num) _
    have hr := roundHalfEven_sub_abs (q / 2 ^ (Int.log 2 q - 52))
    have hfac : 1 * (roundHalfEven (q / 2 ^ (Int.log 2 q - 52)) : ℚ) *
          2 ^ (Int.log 2 q - 52) - q =
        ((roundHalfEven (q / 2 ^ (Int.log 2 q - 52)) : ℚ) - q / 2 ^ (Int.log 2 q - 52)) *
          2 ^ (Int.log 2 q - 52) := by
      field_simp
    rw [hfac, abs_mul, abs_of_pos hepos]
    calc |(roundHalfEven (q / 2 ^ (Int.log 2 q - 52)) : ℚ) - q / 2 ^ (Int.log 2 q - 52)| *
          2 ^ (Int.log 2 q - 52)
        ≤ 1 / 2 * 2 ^ (Int.log 2 q - 52) := mul_le_mul_of_nonneg_right hr hepos.le
      _ = 2 ^ Int.log 2 q / 2 ^ 53 := by rw [he]; ring
      _ ≤ q / 2 ^ 53 := div_le_div_of_nonneg_right hlog (by positivity)

theorem utilization_nil : utilization [] = 0 := rfl

/-- The number on the utilization card, for `c` connected ports out of `n`. -/
theorem utilization_eq (ports : List Port) (h : 0 < ports.length) :
    utilization ports =
      mathRound (toDouble (toDouble ((connectedPorts ports : ℚ) / (ports.length : ℚ)) * 100)) := by
  unfold utilization jsMul jsDiv
  rw [if_pos h]

theorem mathRound_double_near (c n : ℕ) (hn : 0 < n) (hc : c ≤ n) (hlim : n < 2 ^ 32) :
    |((mathRound (toDouble (toDouble ((c : ℚ) / (n : ℚ)) * 100)) : ℤ) : ℚ) -
      (c : ℚ) / (n : ℚ) * 100| ≤ 1 / 2 := by
  have hnq : (0 : ℚ) < n := by exact_mod_cast hn
  have hcq : (c : ℚ) ≤ n := by exact_mod_cast hc
  have hlimq : (n : ℚ) < 2 ^ 32 := by exact_mod_cast hlim
  have hx0 : (0 : ℚ) ≤ (c : ℚ) / n := by positivity
  have hx1 : (c : ℚ) / n ≤ 1 := (div_le_one hnq).mpr hcq
  set x : ℚ := (c : ℚ) / n with hx
  have h1 := toDouble_sub_abs x hx0
  rw [abs_le] at h1
  have hd0 : 0 ≤ toDouble x * 100 := by
    have : x - x / 2 ^ 53 ≤ toDouble x := by linarith [h1.1]
    have : 0 ≤ x - x / 2 ^ 53 := by
      have : x / 2 ^ 53 ≤ x := div_le_self hx0 (by norm_num)
      linarith
    nlinarith
  have h2 := toDouble_sub_abs (toDouble x * 100) hd0
  rw [abs_le] at h2
  set d2 : ℚ := toDouble (toDouble x * 100) with hd2
  have hxs : x / 2 ^ 53 ≤ 1 / 2 ^ 53 := div_le_div_of_nonneg_right hx1 (by positivity)
  -- the double result is within 2 ^ (-44) of the exact quotient
  have hup : d2 - x * 100 < 1 / 2 ^ 33 := by
    have : toDouble x * 100 / 2 ^ 53 ≤ 200 / 2 ^ 53 := by
      apply div_le_div_of_nonneg_right _ (by positivity)
      have : toDouble x ≤ x + x / 2 ^ 53 := by linarith [h1.2]
      norm_num at hxs ⊢
      linarith
    norm_num at hxs this ⊢
    linarith [h1.2, h2.2]
  have hlo : x * 100 - d2 < 1 / 2 ^ 33 := by
    have : toDouble x * 100 / 2 ^ 53 ≤ 200 / 2 ^ 53 := by
      apply div_le_div_of_nonneg_right _ (by positivity)
      have : toDouble x ≤ x + x / 2 ^ 53 := by linarith [h1.2]
      norm_num at hxs ⊢
      linarith
    norm_num at hxs this ⊢
    linarith [h1.1, h2.1]
  have hinv : (1 : ℚ) / 2 ^ 33 < 1 / (2 * n) := by
    apply one_div_lt_one_div_of_lt (by positivity)
    have h33 : (2 : ℚ) ^ 33 = 2 * 2 ^ 32 := by norm_num
    rw [h33]
    linarith
  unfold mathRound
  set u : ℤ := ⌊d2 + 1 / 2⌋ with hu
  have hf1 : (u : ℚ) ≤ d2 + 1 / 2 := Int.floor_le _
  have hf2 : d2 + 1 / 2 < (u : ℚ) + 1 := Int.lt_floor_add_one _
  have hxn : x * n = c := by rw [hx]; field_simp
  have hinvn : 1 / (2 * (n : ℚ)) * (2 * n) = 1 := by field_simp
  -- integer inequalities
  have hA : (2 * (n : ℤ) * u : ℤ) < 200 * c + n + 1 := by
    have : (u : ℚ) < x * 100 + 1 / (2 * n) + 1 / 2 := by linarith
    have h3 : (u : ℚ) * (2 * n) < (x * 100 + 1 / (2 * n) + 1 / 2) * (2 * n) :=
      mul_lt_mul_of_pos_right this (by positivity)
    have h4 : (x * 100 + 1 / (2 * n) + 1 / 2) * (2 * (n : ℚ)) = 200 * c + n + 1 := by
      have : (x * 100 + 1 / (2 * n) + 1 / 2) * (2 * (n : ℚ)) =
          200 * (x * n) + 1 / (2 * (n : ℚ)) * (2 * n) + n := by ring
      rw [this, hxn, hinvn]; ring
    rw [h4] at h3
    have h5 : ((2 * (n : ℤ) * u : ℤ) : ℚ) < ((200 * c + n + 1 : ℤ) : ℚ) := by
      push_cast; linarith
    exact_mod_cast h5
  have hB : (200 * (c : ℤ) + n - 1 : ℤ) < 2 * n * u + 2 * n := by
    have : x * 100 - 1 / (2 * n) + 1 / 2 < (u : ℚ) + 1 := by linarith
    have h3 : (x * 100 - 1 / (2 * n) + 1 / 2) * (2 * n) < ((u : ℚ) + 1) * (2 * n) :=
      mul_lt_mul_of_pos_right this (by positivity)
    have h4 : (x * 100 - 1 / (2 * n) + 1 / 2) * (2 * (n : ℚ)) = 200 * c + n - 1 := by
      have : (x * 100 - 1 / (2 * n) + 1 / 2) * (2 * (n : ℚ)) =
          200 * (x * n) - 1 / (2 * (n : ℚ)) * (2 * n) + n := by ring
      rw [this, hxn, hinvn]; ring
    rw [h4] at h3
    have h5 : ((200 * (c : ℤ) + n - 1 : ℤ) : ℚ) < ((2 * (n : ℤ) * u + 2 * n : ℤ) : ℚ) := by
      push_cast; linarith
    exact_mod_cast h5
  have hA2 : (2 * (n : ℤ) * u : ℤ) ≤ 200 * c + n := by linarith
  have hB2 : (200 * (c : ℤ) : ℤ) ≤ 2 * n * u + n := by linarith
  have hA3 : (2 * (n : ℚ) * u : ℚ) ≤ 200 * c + n := by exact_mod_cast hA2
  have hB3 : (200 * (c : ℚ) : ℚ) ≤ 2 * n * u + n := by exact_mod_cast hB2
  rw [abs_le]
  constructor
  · -- x * 100 - 1/2 ≤ u
    have : (x * 100 - 1 / 2) * (2 * n) ≤ (u : ℚ) * (2 * n) := by
      have : (x * 100 - 1 / 2) * (2 * (n : ℚ)) = 200 * (x * n) - n := by ring
      rw [this, hxn]; linarith
    have := le_of_mul_le_mul_right this (by positivity : (0 : ℚ) < 2 * n)
    linarith
  · have : (u : ℚ) * (2 * n) ≤ (x * 100 + 1 / 2) * (2 * n) := by
      have : (x * 100 + 1 / 2) * (2 * (n : ℚ)) = 200 * (x * n) + n := by ring
      rw [this, hxn]; linarith
    have := le_of_mul_le_mul_right this (by positivity : (0 : ℚ) < 2 * n)
    linarith

end SwitchMap

namespace SwitchMap

theorem utilization_near (ports : List Port) (h : ports.length < 2 ^ 32)
    (hpos : 0 < ports.length) :
    |(utilization ports : ℚ) - (connectedPorts ports : ℚ) / (ports.length : ℚ) * 100| ≤
      1 / 2 := by
  rw [utilization_eq ports hpos]
  exact mathRound_double_near _ _ hpos (connectedPorts_le ports) h

theorem utilization_range (ports : List Port) (h : ports.length < 2 ^ 32) :
    0 ≤ utilization ports ∧ utilization ports ≤ 100 := by
  rcases Nat.eq_zero_or_pos ports.length with h0 | hpos
  · have : utilization ports = 0 := by
      unfold utilization
      rw [if_neg (by omega)]
    rw [this]
    exact ⟨le_refl _, by norm_num⟩
  · have hn := utilization_near ports h hpos
    rw [abs_le] at hn
    have hnq : (0 : ℚ) < ports.length := by exact_mod_cast hpos
    have hcq : (connectedPorts ports : ℚ) ≤ ports.length := by
      exact_mod_cast connectedPorts_le ports
    have hx0 : (0 : ℚ) ≤ (connectedPorts ports : ℚ) / ports.length := by positivity
    have hx1 : (connectedPorts ports : ℚ) / ports.length ≤ 1 := (div_le_one hnq).mpr hcq
    have h1 : ((-1 : ℤ) : ℚ) < (utilization ports : ℚ) := by push_cast; linarith [hn.1]
    have h2 : (utilization ports : ℚ) < ((101 : ℤ) : ℚ) := by push_cast; linarith [hn.2]
    have h3 : (-1 : ℤ) < utilization ports := by exact_mod_cast h1
    have h4 : utilization ports < 101 := by exact_mod_cast h2
    omega

theorem utilization_of_counts (ports : List Port) (c n : ℕ) (u : ℤ) (hn : ports.length = n)
    (hc : connectedPorts ports = c) (hpos : 0 < n) (hlim : n < 2 ^ 32)
    (hu : (c : ℚ) / (n : ℚ) * 100 = u) : utilization ports = u := by
  have h := utilization_near ports (by omega) (by omega)
  rw [hn, hc, hu, abs_le] at h
  have h1 : ((u - 1 : ℤ) : ℚ) < (utilization ports : ℚ) := by push_cast; linarith [h.1]
  have h2 : (utilization ports : ℚ) < ((u + 1 : ℤ) : ℚ) := by push_cast; linarith [h.2]
  have h3 : u - 1 < utilization ports := by exact_mod_cast h1
  have h4 : utilization ports < u + 1 := by exact_mod_cast h2
  omega

/-- C23: the utilization card shows 0 for an empty port list, no division being
made, and otherwise `Math.round((connectedPorts / ports.length) * 100)`
evaluated in binary64 arithmetic, which is an integer within one half of the
exact value `connectedPorts / total * 100` (a nearest integer; when the exact
value lies half way between two integers it is one of the two) and lies
between 0 and 100; ten ports of which three are connected show 30. The length
bound is the limit of array lengths. -/
theorem utilization_rounds (ports : List Port) (h : ports.length < 2 ^ 32) :
    utilization [] = 0 ∧
    (ports.length = 0 → utilization ports = 0) ∧
    (0 < ports.length →
      |(utilization ports : ℚ) - (connectedPorts ports : ℚ) / (ports.length : ℚ) * 100| ≤
        1 / 2) ∧
    0 ≤ utilization ports ∧ utilization ports ≤ 100 ∧
    (ports.length = 10 → connectedPorts ports = 3 → utilization ports = 30) := by
  refine ⟨rfl, ?_, utilization_near ports h, (utilization_range ports h).1,
    (utilization_range ports h).2, ?_⟩
  · intro h0
    unfold utilization
    rw [if_neg (by omega)]
  · intro hn hc
    exact utilization_of_counts ports 3 10 30 hn hc (by norm_num) (by norm_num) (by norm_num)

/-- Witness for C23: ten ports, the first three holding a device. -/
theorem utilization_rounds_witness :
    tenPorts.length < 2 ^ 32 ∧ connectedPorts tenPorts = 3 ∧ utilization tenPorts = 30 :=
  ⟨by decide, by rfl, (utilization_rounds tenPorts (by decide)).2.2.2.2.2 (by rfl) (by rfl)⟩

end SwitchMap

namespace SwitchMap

theorem roundHalfEven_of_lt_half (m : ℚ) (f : ℤ) (h1 : (f : ℚ) ≤ m) (h2 : m < f + 1 / 2) :
    roundHalfEven m = f := by
  have hf : ⌊m⌋ = f := by
    rw [Int.floor_eq_iff]
    exact ⟨h1, by linarith⟩
  unfold roundHalfEven
  rw [hf, if_pos (by linarith)]

theorem toDouble_of_binade (q : ℚ) (k r : ℤ) (h1 : (2 : ℚ) ^ k ≤ q) (h2 : q < 2 ^ (k + 1))
    (hr : roundHalfEven (q / 2 ^ (k - 52)) = r) : toDouble q = r * 2 ^ (k - 52) := by
  have hpos : 0 < q := lt_of_lt_of_le (zpow_pos (by norm_num) _) h1
  have hlog : Int.log 2 q = k := by
    apply le_antisymm
    · have := (Int.lt_zpow_iff_log_lt (by norm_num : 1 < 2) hpos).mp h2
      omega
    · exact (Int.zpow_le_iff_le_log (by norm_num : 1 < 2) hpos).mp h1
  unfold toDouble
  rw [if_neg hpos.ne', if_pos hpos, abs_of_pos hpos]
  dsimp only
  rw [hlog, hr, one_mul]

/-- Exact value half way between two integers: 23 connected ports out of 40
are 57.5 per cent. The quotient `23 / 40` is not a binary64 number; the
nearest one is smaller, its product by 100 rounds to a number below 57.5, and
the card shows 57. -/
theorem utilization_tie_rounds_down (ports : List Port) (hn : ports.length = 40)
    (hc : connectedPorts ports = 23) : utilization ports = 57 := by
  rw [utilization_eq ports (by omega), hn, hc]
  have hd1 : toDouble ((23 : ℕ) / (40 : ℕ) : ℚ) = 5179139571476070 * 2 ^ (-1 - 52 : ℤ) := by
    have := toDouble_of_binade ((23 : ℕ) / (40 : ℕ) : ℚ) (-1) 5179139571476070
      (by norm_num) (by norm_num)
      (roundHalfEven_of_lt_half _ _ (by norm_num) (by norm_num))
    exact_mod_cast this
  have hd2 : toDouble (5179139571476070 * 2 ^ (-1 - 52 : ℤ) * 100) =
      8092405580431359 * 2 ^ (5 - 52 : ℤ) := by
    have := toDouble_of_binade (5179139571476070 * 2 ^ (-1 - 52 : ℤ) * 100) 5 8092405580431359
      (by norm_num) (by norm_num)
      (roundHalfEven_of_lt_half _ _ (by norm_num) (by norm_num))
    exact_mod_cast this
  rw [hd1, hd2]
  unfold mathRound
  rw [Int.floor_eq_iff]
  constructor <;> norm_num

end SwitchMap
